import Mathlib

/-!
# Personal music library: rating store and rating aggregation

A shallow embedding of `src/js/database.js` (the IndexedDB-backed `Database`
class) and of the rating expressions of the view components, followed by the
properties proved about them.

Modelling conventions.

* A JavaScript rating is `null` or a number.  It is embedded as `Option ℚ`:
  `none` is `null`, `some q` is the number `q`.
* The sums and quotients from which the rating means are computed
  (`calculateAlbumAutoRating`, `calculateArtistAutoRating`, `average`) are
  IEEE 754 binary64 operations: `numberAdd` and `numberDiv` round the exact
  result to the nearest number with a 53-bit significand, a tie going to the
  even significand.  The exponent range is not bounded, so the model agrees
  with binary64 on every result that is 0 or of magnitude from `2 ^ (-1022)`
  to below `2 ^ 1024`; this covers the ratings, which are 0 or from 0.5 to 10,
  and the sums and means of fewer than `2 ^ 32` of them.  Comparisons,
  differences used only for their sign, and the display rounding
  (`roundRating`, `toFixed(1)`) are taken on exact rationals.
* An IndexedDB object store with `keyPath: 'id', autoIncrement: true` is a list
  of records kept in primary-key order together with the current number of its
  key generator.
* Every `Database` method is a function from the store state to a result and
  the store state after the call.  A rejected promise is `Except.error`; the
  state paired with it is the state the failed call leaves behind.
* Calls are sequential: one method runs to completion before the next starts.
* `store.add` of a record without an `id` stores it under the key generator's
  current number, which IndexedDB keeps above every key in the store.
* `Array.prototype.sort` is the stable sort `jsSort`; a comparator returns a
  number or `NaN` (`none`).  `parseInt` and `Math.round` are modelled on
  characters and exact rationals; `new Date(..)` and `localeCompare` are
  parameters of `LibraryView.sortAlbums`.
* A `Map` keyed by artist string is the list of its entries in insertion order.
-/

namespace MusicLibrary

/-! ## Data model -/

/-- One entry of `album.tracks` as built by `MusicBrainzAPI.getAlbumDetails`. -/
structure Track where
  number : Nat
  title : String
  duration : Option Nat
  deriving DecidableEq, Repr

/-- A record of the `albums` object store (`Database.addAlbum`). -/
structure Album where
  id : Nat
  userId : Nat
  mbid : String
  title : String
  artist : String
  year : Option String
  coverUrl : Option String
  tracks : List Track
  addedAt : String
  manualRating : Option ℚ
  autoRating : Option ℚ
  deriving DecidableEq, Repr

/-- The `albumData` argument of `Database.addAlbum`. -/
structure AlbumData where
  mbid : String
  title : String
  artist : String
  year : Option String
  coverUrl : Option String
  tracks : List Track
  deriving DecidableEq, Repr

/-- A record of the `songRatings` object store. -/
structure SongRating where
  id : Nat
  userId : Nat
  albumId : Nat
  trackNumber : Nat
  rating : ℚ
  deriving DecidableEq, Repr

/-- A record of the `artistRatings` object store. -/
structure ArtistRating where
  id : Nat
  userId : Nat
  artistName : String
  manualRating : Option ℚ
  autoRating : Option ℚ
  deriving DecidableEq, Repr

/-- The database: the three rating-bearing object stores created by
`Database.init`, each with the current number of its key generator. -/
structure Store where
  albums : List Album
  songRatings : List SongRating
  artistRatings : List ArtistRating
  nextAlbumId : Nat
  nextSongRatingId : Nat
  nextArtistRatingId : Nat
  deriving DecidableEq, Repr

/-- The ways a `Database` promise is rejected. -/
inductive DbError where
  /-- The `ConstraintError` DOMException of a violated unique index. -/
  | constraintError
  /-- The `new Error('Album non trovato')` of `updateAlbumRating`. -/
  | albumNonTrovato
  /-- A property access on `undefined` inside a request callback. -/
  | typeError
  deriving DecidableEq, Repr

/-- The outcome of a `Database` method: the settled promise and the store. -/
abbrev Outcome (α : Type) := Except DbError α × Store

/-! ## JavaScript numbers -/

/-- The integer nearest to `x`, a tie going to the even integer. -/
def roundHalfEven (x : ℚ) : ℤ :=
  if x - ⌊x⌋ < 1 / 2 then ⌊x⌋
  else if 1 / 2 < x - ⌊x⌋ then ⌊x⌋ + 1
  else if ⌊x⌋ % 2 = 0 then ⌊x⌋ else ⌊x⌋ + 1

/-- The Number value for `x`: the binary64 number nearest to `x`, that is the
nearest multiple of `2 ^ (e - 52)` where `2 ^ e ≤ |x| < 2 ^ (e + 1)`, a tie
going to the even multiple. -/
def roundToDouble (x : ℚ) : ℚ :=
  if x = 0 then 0
  else
    let ulp : ℚ := 2 ^ (Int.log 2 |x| - 52)
    roundHalfEven (x / ulp) * ulp

/-- The JavaScript expression `a + b` on numbers. -/
def numberAdd (a b : ℚ) : ℚ :=
  roundToDouble (a + b)

/-- The JavaScript expression `a / b` on numbers, `b` not 0. -/
def numberDiv (a b : ℚ) : ℚ :=
  roundToDouble (a / b)

/-! ## IndexedDB primitives -/

/-- Position of a record with an explicit key in a key-ordered store. -/
def insertByKey {α : Type} (key : α → Nat) (r : α) : List α → List α
  | [] => [r]
  | x :: rest => if key r < key x then r :: x :: rest else x :: insertByKey key r rest

/-- The record list after `store.put(r)`: the record stored under the key of
`r` is replaced, and `r` is inserted in key order when there is none. -/
def putByKey {α : Type} (key : α → Nat) (r : α) (rows : List α) : List α :=
  if rows.any (fun x => key x = key r) then
    rows.map (fun x => if key x = key r then r else x)
  else insertByKey key r rows

/-- A key generator after a record with an explicit key was stored. -/
def bumpGenerator (next key : Nat) : Nat :=
  if next ≤ key then key + 1 else next

/-- The function `store.put(album)` on the `albums` store. -/
def Store.putAlbum (s : Store) (album : Album) : Store :=
  { s with albums := putByKey Album.id album s.albums,
           nextAlbumId := bumpGenerator s.nextAlbumId album.id }

/-- The function `store.put(existing)` on the `songRatings` store. -/
def Store.putSongRating (s : Store) (r : SongRating) : Store :=
  { s with songRatings := putByKey SongRating.id r s.songRatings,
           nextSongRatingId := bumpGenerator s.nextSongRatingId r.id }

/-- The function `store.put(existing)` on the `artistRatings` store. -/
def Store.putArtistRating (s : Store) (r : ArtistRating) : Store :=
  { s with artistRatings := putByKey ArtistRating.id r s.artistRatings,
           nextArtistRatingId := bumpGenerator s.nextArtistRatingId r.id }

/-! ## `Database` methods -/

/-- The method `Database.addAlbum`: `store.add(album)` takes the next generated
key and is rejected with `ConstraintError` when the unique index `userAlbum`
on `['userId', 'mbid']` already holds the pair; the rejected request aborts its
transaction, so nothing is stored.  `now` is the value of
`new Date().toISOString()`. -/
def addAlbum (s : Store) (now : String) (userId : Nat) (albumData : AlbumData) :
    Outcome Nat :=
  let album : Album :=
    { id := s.nextAlbumId
      userId := userId
      mbid := albumData.mbid
      title := albumData.title
      artist := albumData.artist
      year := albumData.year
      coverUrl := albumData.coverUrl
      tracks := albumData.tracks
      addedAt := now
      manualRating := none
      autoRating := none }
  if s.albums.any (fun a => a.userId = album.userId ∧ a.mbid = album.mbid) then
    (.error .constraintError, s)
  else
    (.ok album.id,
      { s with albums := insertByKey Album.id album s.albums,
               nextAlbumId := s.nextAlbumId + 1 })

/-- The method `Database.getUserAlbums`: `index('userId').getAll(userId)`. -/
def getUserAlbums (s : Store) (userId : Nat) : List Album :=
  s.albums.filter (fun a => a.userId = userId)

/-- The method `Database.getAlbum`: `store.get(albumId)`. -/
def getAlbum (s : Store) (albumId : Nat) : Option Album :=
  s.albums.find? (fun a => a.id = albumId)

/-- The method `Database.updateAlbumRating`. -/
def updateAlbumRating (s : Store) (albumId : Nat) (manualRating : Option ℚ)
    (autoRating : Option ℚ) : Outcome Nat :=
  match getAlbum s albumId with
  | none => (.error .albumNonTrovato, s)
  | some album =>
    let album := if manualRating ≠ none then { album with manualRating := manualRating } else album
    let album := if autoRating ≠ none then { album with autoRating := autoRating } else album
    (.ok album.id, s.putAlbum album)

/-- The method `Database.setSongRating`. -/
def setSongRating (s : Store) (userId albumId trackNumber : Nat) (rating : ℚ) :
    Outcome Nat :=
  let getKeyRequest := (s.songRatings.find? (fun r =>
    r.userId = userId ∧ r.albumId = albumId ∧ r.trackNumber = trackNumber)).map SongRating.id
  let add : Outcome Nat :=
    let row : SongRating :=
      { id := s.nextSongRatingId, userId := userId, albumId := albumId,
        trackNumber := trackNumber, rating := rating }
    if s.songRatings.any (fun r =>
        r.userId = userId ∧ r.albumId = albumId ∧ r.trackNumber = trackNumber) then
      (.error .constraintError, s)
    else
      (.ok row.id,
        { s with songRatings := insertByKey SongRating.id row s.songRatings,
                 nextSongRatingId := s.nextSongRatingId + 1 })
  match getKeyRequest with
  | some existingKey =>
    if existingKey ≠ 0 then
      match s.songRatings.find? (fun r => r.id = existingKey) with
      | some existing =>
        let existing := { existing with rating := rating }
        (.ok existing.id, s.putSongRating existing)
      | none => (.error .typeError, s)
    else add
  | none => add

/-- The method `Database.getAlbumSongRatings`: `index('albumId').getAll(albumId)`
followed by `filter(r => r.userId === userId)`. -/
def getAlbumSongRatings (s : Store) (userId albumId : Nat) : List SongRating :=
  (s.songRatings.filter (fun r => r.albumId = albumId)).filter (fun r => r.userId = userId)

/-- The method `Database.getArtistRating`: `index('userArtist').get([userId, artistName])`. -/
def getArtistRating (s : Store) (userId : Nat) (artistName : String) : Option ArtistRating :=
  s.artistRatings.find? (fun r => r.userId = userId ∧ r.artistName = artistName)

/-- The method `Database.updateArtistAutoRating`. -/
def updateArtistAutoRating (s : Store) (userId : Nat) (artistName : String)
    (autoRating : Option ℚ) : Outcome Nat :=
  match getArtistRating s userId artistName with
  | some existing =>
    let existing := { existing with autoRating := autoRating }
    (.ok existing.id, s.putArtistRating existing)
  | none =>
    let row : ArtistRating :=
      { id := s.nextArtistRatingId, userId := userId, artistName := artistName,
        manualRating := none, autoRating := autoRating }
    if s.artistRatings.any (fun r => r.userId = userId ∧ r.artistName = artistName) then
      (.error .constraintError, s)
    else
      (.ok row.id,
        { s with artistRatings := insertByKey ArtistRating.id row s.artistRatings,
                 nextArtistRatingId := s.nextArtistRatingId + 1 })

/-- The method `Database.setArtistRating`. -/
def setArtistRating (s : Store) (userId : Nat) (artistName : String)
    (manualRating : Option ℚ) : Outcome Nat :=
  let getKeyRequest := (s.artistRatings.find? (fun r =>
    r.userId = userId ∧ r.artistName = artistName)).map ArtistRating.id
  let add : Outcome Nat :=
    let row : ArtistRating :=
      { id := s.nextArtistRatingId, userId := userId, artistName := artistName,
        manualRating := manualRating, autoRating := none }
    if s.artistRatings.any (fun r => r.userId = userId ∧ r.artistName = artistName) then
      (.error .constraintError, s)
    else
      (.ok row.id,
        { s with artistRatings := insertByKey ArtistRating.id row s.artistRatings,
                 nextArtistRatingId := s.nextArtistRatingId + 1 })
  match getKeyRequest with
  | some existingKey =>
    if existingKey ≠ 0 then
      match s.artistRatings.find? (fun r => r.id = existingKey) with
      | some existing =>
        let existing := { existing with manualRating := manualRating }
        (.ok existing.id, s.putArtistRating existing)
      | none => (.error .typeError, s)
    else add
  | none => add

/-- The method `Database.calculateAlbumAutoRating`. -/
def calculateAlbumAutoRating (s : Store) (userId albumId : Nat) : Outcome (Option ℚ) :=
  let ratings := getAlbumSongRatings s userId albumId
  if ratings.length = 0 then (.ok none, s)
  else
    let sum := ratings.foldl (fun acc r => numberAdd acc r.rating) (0 : ℚ)
    let avg := numberDiv sum ratings.length
    match updateAlbumRating s albumId none (some avg) with
    | (.error e, s1) => (.error e, s1)
    | (.ok _, s1) => (.ok (some avg), s1)

/-- The arrow function `a => a.manualRating !== null ? a.manualRating : a.autoRating`
mapped over the artist's albums in `Database.calculateArtistAutoRating`. -/
def artistAlbumRating (a : Album) : Option ℚ :=
  if a.manualRating ≠ none then a.manualRating else a.autoRating

/-- The method `Database.calculateArtistAutoRating`. -/
def calculateArtistAutoRating (s : Store) (userId : Nat) (artistName : String) :
    Outcome (Option ℚ) :=
  let albums := getUserAlbums s userId
  let artistAlbums := albums.filter (fun a => a.artist = artistName)
  if artistAlbums.length = 0 then (.ok none, s)
  else
    -- `.filter(r => r !== null)` keeps the numbers
    let ratings := (artistAlbums.map artistAlbumRating).filterMap id
    if ratings.length = 0 then (.ok none, s)
    else
      let sum := ratings.foldl (fun acc r => numberAdd acc r) (0 : ℚ)
      let avg := numberDiv sum ratings.length
      match updateArtistAutoRating s userId artistName (some avg) with
      | (.error e, s1) => (.error e, s1)
      | (.ok _, s1) => (.ok (some avg), s1)

/-! ## Rating expressions of the view components -/

/-- The JavaScript expression `x || 0` on a rating: `null` and `0` are falsy. -/
def orZero (x : Option ℚ) : ℚ :=
  match x with
  | none => 0
  | some q => if q = 0 then 0 else q

/-- The sort key of `LibraryView.sortAlbums`, case `rating`:
`a.manualRating !== null ? a.manualRating : (a.autoRating || 0)`. -/
def LibraryView.ratingSortKey (a : Album) : ℚ :=
  match a.manualRating with
  | some m => m
  | none => orZero a.autoRating

/-- The value `displayRating` of `LibraryView.createAlbumCard`. -/
def LibraryView.displayRating (album : Album) : Option ℚ :=
  if album.manualRating ≠ none then album.manualRating else album.autoRating

/-- The rating that the `rating-prevalence` block of `AlbumDetail.render` passes
to `roundRating`; `none` is the branch `Nessun voto ancora`. -/
def AlbumDetail.prevalentRating (album : Album) : Option ℚ :=
  if album.manualRating ≠ none then album.manualRating
  else if album.autoRating ≠ none then album.autoRating
  else none

/-- An entry of `ArtistsView.artists`, built in `ArtistsView.load`. -/
structure Artist where
  name : String
  albums : List Album
  autoRating : Option ℚ
  manualRating : Option ℚ
  imageUrl : Option String
  deriving DecidableEq, Repr

/-- The arrow function mapped over `artist.albums` in `ArtistsView.load`. -/
def ArtistsView.albumRating (a : Album) : Option ℚ :=
  if a.manualRating ≠ none then a.manualRating else a.autoRating

/-- The sort key of `ArtistsView.load`:
`a.manualRating !== null ? a.manualRating : a.autoRating || 0`. -/
def ArtistsView.ratingSortKey (a : Artist) : ℚ :=
  match a.manualRating with
  | some m => m
  | none => orZero a.autoRating

/-- The value `displayRating` of `ArtistsView.createArtistCard`. -/
def ArtistsView.displayRating (artist : Artist) : Option ℚ :=
  if artist.manualRating ≠ none then artist.manualRating else artist.autoRating

/-- The field `rating` that `HistoryView.getFavorites` adds to each album. -/
def HistoryView.albumRating (a : Album) : Option ℚ :=
  if a.manualRating ≠ none then a.manualRating else a.autoRating

/-- The arrow function mapped over `data.albums` in the artist part of
`HistoryView.getFavorites`. -/
def HistoryView.artistAlbumRating (a : Album) : Option ℚ :=
  if a.manualRating ≠ none then a.manualRating else a.autoRating

/-! ## JavaScript built-ins used by the views and by `utils.js` -/

/-- The sort `Array.prototype.sort(compareFn)`: a stable sort in which `a` stays
before `b` when `compareFn(a, b) <= 0`; a comparator result `NaN` (`none`)
counts as 0.  For a consistent comparator the result of a stable sort is
determined, and it is the one computed here by insertion. -/
def jsSort {α : Type} (compareFn : α → α → Option ℚ) (l : List α) : List α :=
  l.insertionSort (fun a b => decide ((compareFn a b).getD 0 ≤ 0))

/-- The conversion `ToNumber` on a rating: `null` becomes 0. -/
def toNumber (x : Option ℚ) : ℚ :=
  x.getD 0

/-- Subtraction of two numbers that may be `NaN` (`none`). -/
def subNaN (x y : Option ℤ) : Option ℚ :=
  match x, y with
  | some a, some b => some ((a : ℚ) - (b : ℚ))
  | _, _ => none

/-- Truthiness of a string-or-null value: `null` and the empty string are falsy. -/
def truthyString (x : Option String) : Bool :=
  match x with
  | none => false
  | some y => decide (y ≠ "")

/-- The white space that `parseInt` skips (`StrWhiteSpaceChar`), by code point. -/
def isStrWhiteSpaceChar (c : Char) : Bool :=
  decide (c.toNat ∈ [9, 10, 11, 12, 13, 32, 160, 5760, 8232, 8233, 8239, 8287, 12288, 65279]) ||
    decide (8192 ≤ c.toNat ∧ c.toNat ≤ 8202)

/-- The value of a character as a digit in radix `radix`, if it is one. -/
def digitValue (radix : Nat) (c : Char) : Option Nat :=
  let v : Option Nat :=
    if 48 ≤ c.toNat ∧ c.toNat ≤ 57 then some (c.toNat - 48)
    else if 97 ≤ c.toNat ∧ c.toNat ≤ 122 then some (c.toNat - 87)
    else if 65 ≤ c.toNat ∧ c.toNat ≤ 90 then some (c.toNat - 55)
    else none
  match v with
  | some d => if d < radix then some d else none
  | none => none

/-- The digits of the longest prefix of `cs` made of radix-`radix` digits. -/
def leadingDigits (radix : Nat) : List Char → List Nat
  | [] => []
  | c :: cs =>
    match digitValue radix c with
    | some d => d :: leadingDigits radix cs
    | none => []

/-- The function `parseInt(string)` on the characters of the string: white space
is skipped, a sign is read, a prefix `0x` or `0X` selects radix 16, and the
longest prefix of digits is the value; `none` is `NaN`. -/
def parseIntChars (cs : List Char) : Option ℤ :=
  let s := cs.dropWhile isStrWhiteSpaceChar
  let negative : Bool := match s with
    | c :: _ => decide (c.toNat = 45)
    | [] => false
  let s := match s with
    | c :: rest => if c.toNat = 45 ∨ c.toNat = 43 then rest else s
    | [] => s
  let hex : Bool := match s with
    | c :: d :: _ => decide (c.toNat = 48 ∧ (d.toNat = 120 ∨ d.toNat = 88))
    | _ => false
  let radix : Nat := if hex then 16 else 10
  let s := if hex then s.drop 2 else s
  let digits := leadingDigits radix s
  if digits.length = 0 then none
  else
    let value : Nat := digits.foldl (fun acc d => acc * radix + d) 0
    some (if negative then -(value : ℤ) else (value : ℤ))

/-- The function `parseInt(string)`. -/
def parseInt (s : String) : Option ℤ :=
  parseIntChars s.data

/-- The function `Math.round`: the nearest integer, a tie going towards +∞. -/
def mathRound (x : ℚ) : ℤ :=
  ⌊x + 1 / 2⌋

/-! ## `utils.js` -/

/-- The function `average` of `utils.js`. -/
def average (numbers : List ℚ) : Option ℚ :=
  if numbers.length = 0 then none
  else
    let sum := numbers.foldl (fun acc n => numberAdd acc n) (0 : ℚ)
    some (numberDiv sum numbers.length)

/-- The function `roundRating` of `utils.js`. -/
def roundRating (rating : Option ℚ) : Option ℚ :=
  match rating with
  | none => none
  | some r => some ((mathRound (r * 10) : ℚ) / 10)

/-! ## `LibraryView.sortAlbums` -/

/-- The comparator of `LibraryView.sortAlbums` for the sort key `sortBy`.
`dateValue` is the time value of `new Date(string)` (`none` for an invalid
date) and `localeCompare a b` is `a.localeCompare(b, 'it')`. -/
def LibraryView.compareAlbums (dateValue : String → Option ℤ)
    (localeCompare : String → String → ℤ) (sortBy : String) (a b : Album) : Option ℚ :=
  if sortBy = "addedAt" then
    subNaN (dateValue b.addedAt) (dateValue a.addedAt)
  else if sortBy = "year" then
    if !truthyString a.year && !truthyString b.year then some 0
    else if !truthyString a.year then some 1
    else if !truthyString b.year then some (-1)
    else subNaN ((b.year.map parseInt).getD none) ((a.year.map parseInt).getD none)
  else if sortBy = "rating" then
    let ratingA := LibraryView.ratingSortKey a
    let ratingB := LibraryView.ratingSortKey b
    some (ratingB - ratingA)
  else if sortBy = "artist" then
    some (localeCompare a.artist b.artist)
  else if sortBy = "title" then
    some (localeCompare a.title b.title)
  else some 0

/-- The method `LibraryView.sortAlbums`: `this.albums.sort(...)` with
`sortBy = this.currentSort`; the result is the new value of `this.albums`. -/
def LibraryView.sortAlbums (dateValue : String → Option ℤ)
    (localeCompare : String → String → ℤ) (sortBy : String) (albums : List Album) :
    List Album :=
  jsSort (LibraryView.compareAlbums dateValue localeCompare sortBy) albums

/-! ## Grouping albums by artist -/

/-- One iteration of the grouping loop shared by `ArtistsView.load` and
`HistoryView.getFavorites`, on the `Map` from artist string to the albums
pushed so far (in insertion order): an entry with no album is set when the
`Map` does not have `album.artist`, then the album is pushed to the entry got
for `album.artist`. -/
def pushAlbum (artistMap : List (String × List Album)) (album : Album) :
    List (String × List Album) :=
  let artistMap :=
    if !artistMap.any (fun g => g.1 = album.artist) then artistMap ++ [(album.artist, [])]
    else artistMap
  artistMap.map (fun g => if g.1 = album.artist then (g.1, g.2 ++ [album]) else g)

/-- The `Map` after the grouping loop over `albums`. -/
def groupByArtist (albums : List Album) : List (String × List Album) :=
  albums.foldl pushAlbum []

/-! ## `ArtistsView.load` -/

/-- The value `Array.from(artistMap.values())` of `ArtistsView.load`, before
the ratings are filled in. -/
def ArtistsView.groupAlbums (albums : List Album) : List Artist :=
  (groupByArtist albums).map (fun g =>
    { name := g.1, albums := g.2, autoRating := none, manualRating := none, imageUrl := none })

/-- The loop body of `ArtistsView.load` that fills in the ratings of one artist. -/
def ArtistsView.fillRatings (s : Store) (userId : Nat) (artist : Artist) : Artist :=
  let albumRatings := (artist.albums.map ArtistsView.albumRating).filterMap id
  let artist :=
    if albumRatings.length > 0 then { artist with autoRating := average albumRatings }
    else artist
  match getArtistRating s userId artist.name with
  | some artistRating => { artist with manualRating := artistRating.manualRating }
  | none => artist

/-- The method `ArtistsView.load`, up to the rendering: the value of
`this.artists` computed from the store. -/
def ArtistsView.load (s : Store) (userId : Nat) : List Artist :=
  let albums := getUserAlbums s userId
  let artists := ArtistsView.groupAlbums albums
  let artists := artists.map (ArtistsView.fillRatings s userId)
  jsSort (fun a b => some (ArtistsView.ratingSortKey b - ArtistsView.ratingSortKey a)) artists

/-- The value of `this.artists` and the store after `ArtistsView.load`: the
method opens only the read-only transactions of `getUserAlbums` and
`getArtistRating`, so the store is the one it started from. -/
def ArtistsView.loadOutcome (s : Store) (userId : Nat) : List Artist × Store :=
  (ArtistsView.load s userId, s)

/-! ## `HistoryView.getFavorites` -/

/-- An album with the field `rating` added by `getFavorites`. -/
structure RatedAlbum where
  album : Album
  rating : Option ℚ
  deriving DecidableEq, Repr

/-- An entry of the `artistMap` of `getFavorites`; `albumCount` is `undefined`
(`none`) until the rating loop sets it. -/
structure FavoriteArtist where
  name : String
  albums : List Album
  rating : Option ℚ
  albumCount : Option Nat
  deriving DecidableEq, Repr

/-- An entry of `allSongRatings` in `getFavorites`. -/
structure FavoriteSong where
  title : String
  artist : String
  albumTitle : String
  albumCover : Option String
  rating : ℚ
  deriving DecidableEq, Repr

/-- The object `favorites` returned by `getFavorites`. -/
structure Favorites where
  artist : Option FavoriteArtist
  album : Option RatedAlbum
  song : Option FavoriteSong
  deriving DecidableEq, Repr

/-- The albums with a non-null `rating`, before they are sorted. -/
def HistoryView.ratedAlbums (albums : List Album) : List RatedAlbum :=
  (albums.map (fun a => { album := a, rating := HistoryView.albumRating a : RatedAlbum })).filter
    (fun a => a.rating ≠ none)

/-- The rating loop of the artist part of `getFavorites` on one entry. -/
def HistoryView.rateArtist (s : Store) (currentUserId : Nat) (data : FavoriteArtist) :
    FavoriteArtist :=
  let artistRating := getArtistRating s currentUserId data.name
  let albumRatings := (data.albums.map HistoryView.artistAlbumRating).filterMap id
  let data :=
    match artistRating with
    | some row =>
      if row.manualRating ≠ none then { data with rating := row.manualRating }
      else if albumRatings.length > 0 then { data with rating := average albumRatings }
      else data
    | none =>
      if albumRatings.length > 0 then { data with rating := average albumRatings }
      else data
  { data with albumCount := some data.albums.length }

/-- The values of `artistMap` after the rating loop. -/
def HistoryView.artistEntries (s : Store) (currentUserId : Nat) (albums : List Album) :
    List FavoriteArtist :=
  ((groupByArtist albums).map (fun g =>
    { name := g.1, albums := g.2, rating := none, albumCount := none : FavoriteArtist })).map
    (HistoryView.rateArtist s currentUserId)

/-- The entries pushed to `allSongRatings` for one album. -/
def HistoryView.albumSongRatings (s : Store) (currentUserId : Nat) (album : Album) :
    List FavoriteSong :=
  (getAlbumSongRatings s currentUserId album.id).filterMap (fun rating =>
    match album.tracks.find? (fun t => t.number = rating.trackNumber) with
    | some track =>
      some { title := track.title, artist := album.artist, albumTitle := album.title,
             albumCover := album.coverUrl, rating := rating.rating }
    | none => none)

/-- The array `allSongRatings` of `getFavorites`, before it is sorted. -/
def HistoryView.allSongRatings (s : Store) (currentUserId : Nat) (albums : List Album) :
    List FavoriteSong :=
  albums.flatMap (HistoryView.albumSongRatings s currentUserId)

/-- The method `HistoryView.getFavorites`. -/
def HistoryView.getFavorites (s : Store) (currentUserId : Nat) : Favorites :=
  let albums := getUserAlbums s currentUserId
  let album : Option RatedAlbum :=
    if albums.length > 0 then
      let sortedAlbums := jsSort (fun a b => some (toNumber b.rating - toNumber a.rating))
        (HistoryView.ratedAlbums albums)
      if sortedAlbums.length > 0 then sortedAlbums.head? else none
    else none
  let artist : Option FavoriteArtist :=
    if albums.length > 0 then
      let sortedArtists := jsSort (fun a b => some (toNumber b.rating - toNumber a.rating))
        ((HistoryView.artistEntries s currentUserId albums).filter (fun a => a.rating ≠ none))
      if sortedArtists.length > 0 then sortedArtists.head? else none
    else none
  let allSongRatings := HistoryView.allSongRatings s currentUserId albums
  let song : Option FavoriteSong :=
    if allSongRatings.length > 0 then
      (jsSort (fun a b => some (b.rating - a.rating)) allSongRatings).head?
    else none
  { artist := artist, album := album, song := song }

/-! ## What the views show of a rating -/

/-- The content of the `rating-prevalence` element written by
`AlbumDetail.render` and `AlbumDetail.updateRatingDisplay`; the argument is the
value of `roundRating(...)` inserted in the text. -/
inductive PrevalenceText where
  /-- The text `Voto prevalente: ... (manuale)`. -/
  | manuale (shown : Option ℚ)
  /-- The text `Voto prevalente: ... (automatico)`. -/
  | automatico (shown : Option ℚ)
  /-- The text `Nessun voto ancora`. -/
  | nessunVoto
  deriving DecidableEq, Repr

/-- What `AlbumDetail.updateRatingDisplay` writes: the text of `.rating-value`
(`none` is `--`) and the prevalence text. -/
structure RatingDisplay where
  ratingValue : Option ℚ
  prevalence : PrevalenceText
  deriving DecidableEq, Repr

/-- The method `AlbumDetail.updateRatingDisplay` on `this.currentAlbum`. -/
def AlbumDetail.updateRatingDisplay (currentAlbum : Album) : RatingDisplay :=
  { ratingValue :=
      if currentAlbum.autoRating ≠ none then roundRating currentAlbum.autoRating else none
    prevalence :=
      if currentAlbum.manualRating ≠ none then .manuale (roundRating currentAlbum.manualRating)
      else if currentAlbum.autoRating ≠ none then .automatico (roundRating currentAlbum.autoRating)
      else .nessunVoto }

/-- The `ratingBadge` of `LibraryView.createAlbumCard`: the number shown in the
badge, `none` when no badge is rendered. -/
def LibraryView.ratingBadge (album : Album) : Option ℚ :=
  let displayRating := LibraryView.displayRating album
  if displayRating ≠ none then roundRating displayRating else none

/-- The `ratingBadge` of `ArtistsView.createArtistCard`. -/
def ArtistsView.ratingBadge (artist : Artist) : Option ℚ :=
  let displayRating := ArtistsView.displayRating artist
  if displayRating ≠ none then roundRating displayRating else none

/-! ## `RatingWidget` -/

/-- The `options` argument of the `RatingWidget` constructor; `none` is a
missing property. -/
structure RatingWidgetOptions where
  maxRating : Option Nat
  currentRating : Option ℚ
  readonly : Option Bool
  size : Option String
  allowHalf : Option Bool
  deriving DecidableEq, Repr

/-- The fields of a `RatingWidget`. -/
structure RatingWidget where
  maxRating : Nat
  currentRating : ℚ
  readonly : Bool
  size : String
  allowHalf : Bool
  deriving DecidableEq, Repr

/-- The constructor of `RatingWidget`: `||` replaces a missing or falsy option
by the default, and `allowHalf` is `options.allowHalf !== false`. -/
def RatingWidget.new (options : RatingWidgetOptions) : RatingWidget :=
  { maxRating := match options.maxRating with
      | some n => if n = 0 then 10 else n
      | none => 10
    currentRating := orZero options.currentRating
    readonly := options.readonly.getD false
    size := match options.size with
      | some x => if x = "" then "medium" else x
      | none => "medium"
    allowHalf := match options.allowHalf with
      | some false => false
      | _ => true }

/-- The method `Number.prototype.toFixed(1)`, as the number that the digits
denote: the nearest multiple of 1/10, a tie going to the larger magnitude. -/
def toFixed1 (x : ℚ) : ℚ :=
  if x < 0 then -((⌊-x * 10 + 1 / 2⌋ : ℚ) / 10) else (⌊x * 10 + 1 / 2⌋ : ℚ) / 10

/-- The text of the `rating-display` element written by `RatingWidget.render`:
`none` is `--`. -/
def RatingWidget.display (w : RatingWidget) : Option ℚ :=
  if w.currentRating > 0 then some (toFixed1 w.currentRating) else none

/-- The values `i` of the stars created by `RatingWidget.render`, each with a
click listener `handleClick(i, e)` unless the widget is read-only. -/
def RatingWidget.stars (w : RatingWidget) : List Nat :=
  List.range' 1 w.maxRating

/-- The test `isLeftHalf` of `handleClick`: `event.clientX - rect.left` is less
than half of `rect.width`. -/
def RatingWidget.isLeftHalf (clientX rectLeft rectWidth : ℚ) : Bool :=
  let x := clientX - rectLeft
  decide (x < rectWidth / 2)

/-- The method `RatingWidget.handleClick`: the widget after the click and the
rating passed to `onChange`. -/
def RatingWidget.handleClick (w : RatingWidget) (baseValue : Nat)
    (clientX rectLeft rectWidth : ℚ) : RatingWidget × ℚ :=
  if !w.allowHalf then
    ({ w with currentRating := baseValue }, baseValue)
  else
    let rating : ℚ :=
      if RatingWidget.isLeftHalf clientX rectLeft rectWidth then (baseValue : ℚ) - 1 / 2
      else baseValue
    ({ w with currentRating := rating }, rating)

/-- The widget created by `AlbumDetail.renderAlbumRating`. -/
def AlbumDetail.renderAlbumRating (currentAlbum : Album) : RatingWidget :=
  RatingWidget.new
    { maxRating := some 10
      currentRating := some (orZero currentAlbum.manualRating)
      readonly := none
      size := some "medium"
      allowHalf := none }

/-- The widget created by `ArtistsView.showArtistDetail`. -/
def ArtistsView.artistRatingWidget (artist : Artist) : RatingWidget :=
  RatingWidget.new
    { maxRating := some 10
      currentRating := some (orZero artist.manualRating)
      readonly := none
      size := some "medium"
      allowHalf := none }

/-! ## `AlbumDetail.handleSongRating` -/

/-- What a rating handler of the album detail leaves behind: the toast
(`ok` is the success toast, `error` the error toast of the `catch`), the value
of `this.currentAlbum`, and the store. -/
structure HandlerOutcome where
  toast : Except DbError Unit
  currentAlbum : Album
  store : Store

/-- The method `AlbumDetail.handleSongRating`. -/
def AlbumDetail.handleSongRating (s : Store) (currentUserId : Nat) (currentAlbum : Album)
    (trackNumber : Nat) (rating : ℚ) : HandlerOutcome :=
  match setSongRating s currentUserId currentAlbum.id trackNumber rating with
  | (.error e, s1) => { toast := .error e, currentAlbum := currentAlbum, store := s1 }
  | (.ok _, s1) =>
    match calculateAlbumAutoRating s1 currentUserId currentAlbum.id with
    | (.error e, s2) => { toast := .error e, currentAlbum := currentAlbum, store := s2 }
    | (.ok autoRating, s2) =>
      { toast := .ok (), currentAlbum := { currentAlbum with autoRating := autoRating },
        store := s2 }

/-- The method `AlbumDetail.handleAlbumRating`. -/
def AlbumDetail.handleAlbumRating (s : Store) (currentAlbum : Album) (rating : ℚ) :
    HandlerOutcome :=
  match updateAlbumRating s currentAlbum.id (some rating) none with
  | (.error e, s1) => { toast := .error e, currentAlbum := currentAlbum, store := s1 }
  | (.ok _, s1) =>
    { toast := .ok (), currentAlbum := { currentAlbum with manualRating := some rating },
      store := s1 }

/-! ## `MusicBrainzAPI`: the rate limit -/

/-- The constant `RATE_LIMIT_DELAY`, in milliseconds. -/
def RATE_LIMIT_DELAY : ℤ := 1100

/-- The first part of `waitForRateLimit`, run when the call starts at the time
`now` (the value of `Date.now()`): the `waitTime` passed to `setTimeout`, or
`none` when the `if` is not entered and nothing is awaited. -/
def MusicBrainzAPI.waitTime (lastRequestTime now : ℤ) : Option ℤ :=
  let timeSinceLastRequest := now - lastRequestTime
  if timeSinceLastRequest < RATE_LIMIT_DELAY then
    some (RATE_LIMIT_DELAY - timeSinceLastRequest)
  else none

/-- One `MusicBrainzAPI` client over time: the field `lastRequestTime`, the
times at which the timers of the calls suspended at their `await` fire (in the
order in which the calls started), and the times at which calls have completed
so far.  A timer fires exactly after its delay. -/
structure RateLimiter where
  lastRequestTime : ℤ
  waiting : List ℤ
  completed : List ℤ
  deriving DecidableEq, Repr

/-- The second part of `waitForRateLimit`, run when the timer of a suspended
call fires at the time `now`: `this.lastRequestTime = Date.now()`, after which
the call completes and its request is sent. -/
def RateLimiter.resume (st : RateLimiter) (now : ℤ) : RateLimiter :=
  { st with lastRequestTime := now, completed := st.completed ++ [now] }

/-- The suspended calls whose timers have fired by the time `now` are resumed,
in the order of their timers. -/
def RateLimiter.resumeDue (st : RateLimiter) (now : ℤ) : RateLimiter :=
  let due := (st.waiting.filter (fun t => t ≤ now)).insertionSort (fun a b => a ≤ b)
  due.foldl RateLimiter.resume { st with waiting := st.waiting.filter (fun t => ¬ t ≤ now) }

/-- A call of `waitForRateLimit` that starts at the time `now`: the timers due
by then have run; the call either suspends until `now + waitTime` or sets
`lastRequestTime` and completes at once. -/
def RateLimiter.call (st : RateLimiter) (now : ℤ) : RateLimiter :=
  let st := st.resumeDue now
  match MusicBrainzAPI.waitTime st.lastRequestTime now with
  | some waitTime => { st with waiting := st.waiting ++ [now + waitTime] }
  | none => { st with lastRequestTime := now, completed := st.completed ++ [now] }

/-- The times at which the calls of `waitForRateLimit` started at the times
`starts` (in ascending order) complete, on a client whose `lastRequestTime` is
`lastRequestTime` before the first of them. -/
def completionTimes (lastRequestTime : ℤ) (starts : List ℤ) : List ℤ :=
  let st := starts.foldl RateLimiter.call
    { lastRequestTime := lastRequestTime, waiting := [], completed := [] }
  ((st.waiting.insertionSort (fun a b => a ≤ b)).foldl RateLimiter.resume
    { st with waiting := [] }).completed

/-! ## `MusicBrainzAPI.getAlbumDetails` -/

/-- The object `track.recording` of a catalog response. -/
structure MBRecording where
  title : Option String
  length : Option Nat
  deriving DecidableEq, Repr

/-- An element of `medium.tracks` of a catalog response. -/
structure MBTrack where
  position : Nat
  title : Option String
  length : Option Nat
  recording : Option MBRecording
  deriving DecidableEq, Repr

/-- An element of `data.media` of a catalog response. -/
structure MBMedium where
  tracks : Option (List MBTrack)
  deriving DecidableEq, Repr

/-- The response `data` of the catalog for one release; `artistCredit` holds
the names `ac.name` of `data['artist-credit']`. -/
structure MBRelease where
  id : String
  title : String
  artistCredit : Option (List String)
  date : Option String
  media : Option (List MBMedium)
  deriving DecidableEq, Repr

/-- The expression `a || b` on strings that may be missing: the first operand
if it is a non-empty string, else the second. -/
def orString (a b : Option String) : Option String :=
  match a with
  | some x => if x = "" then b else some x
  | none => b

/-- The expression `a || b` on numbers that may be missing: the first operand
if it is a number other than 0, else the second. -/
def orNumber (a b : Option Nat) : Option Nat :=
  match a with
  | some x => if x = 0 then b else some x
  | none => b

/-- The array `tracks` built by `getAlbumDetails` from `data.media`. -/
def MusicBrainzAPI.trackList (data : MBRelease) : List Track :=
  match data.media with
  | some media =>
    if media.length > 0 then
      media.flatMap (fun medium =>
        match medium.tracks with
        | some tracks =>
          tracks.map (fun track =>
            { number := track.position
              title := ((orString (orString track.title (track.recording.bind MBRecording.title))
                (some "Senza titolo")).getD "Senza titolo")
              duration := orNumber (orNumber track.length
                (track.recording.bind MBRecording.length)) none })
        | none => [])
    else []
  | none => []

/-- The object `albumDetails` of `getAlbumDetails`, for the catalog response
`data` and the cover `coverUrl` found by `getCoverArt` (`none` when it fails). -/
def MusicBrainzAPI.getAlbumDetails (data : MBRelease) (coverUrl : Option String) : AlbumData :=
  { mbid := data.id
    title := data.title
    artist := match data.artistCredit with
      | some names => ", ".intercalate names
      | none => "Sconosciuto"
    year := match data.date with
      | some date => if date = "" then none else some (date.take 4)
      | none => none
    tracks := MusicBrainzAPI.trackList data
    coverUrl := coverUrl }

/-- The `currentRating` that `AlbumDetail.renderTracklist` gives to the widget
of each track, in the order of the tracks. -/
def AlbumDetail.trackRatings (songRatings : List SongRating) (tracks : List Track) : List ℚ :=
  tracks.map (fun track =>
    match songRatings.find? (fun r => r.trackNumber = track.number) with
    | some existingRating => existingRating.rating
    | none => 0)

/-! ## Years -/

/-- A four-digit numeric string, such as `date.substring(0, 4)` of a catalog
date: four characters, each a decimal digit. -/
def isFourDigitYear (y : String) : Prop :=
  y.data.length = 4 ∧ ∀ c ∈ y.data, 48 ≤ c.toNat ∧ c.toNat ≤ 57

/-- The year of an album as a number: `⊥` when the year is `null` or empty,
and the value of `parseInt` otherwise (`⊥` if that is `NaN`). -/
def yearNumber (a : Album) : WithBot ℤ :=
  match a.year with
  | none => ⊥
  | some y => if y = "" then ⊥ else
    match parseInt y with
    | some n => (n : WithBot ℤ)
    | none => ⊥

/-! ## What it means to group albums by artist -/

/-- The groups `groups` partition `albums` by exact artist string, in the order
in which the artist strings first occur: the names are pairwise distinct, the
group of a name holds exactly the albums with that artist string (in the order
of `albums`) and is not empty, every album's artist string names a group, the
group sizes sum to the number of albums, and a group comes before another one
when its name occurs first in `albums`. -/
structure GroupedByArtist (groups : List (String × List Album)) (albums : List Album) :
    Prop where
  names_nodup : (groups.map Prod.fst).Nodup
  group_eq : ∀ g ∈ groups, g.2 = albums.filter (fun a => a.artist = g.1)
  group_ne_nil : ∀ g ∈ groups, g.2 ≠ []
  covers : ∀ a ∈ albums, a.artist ∈ groups.map Prod.fst
  sizes : (groups.map (fun g => g.2.length)).sum = albums.length
  ordered : groups.Pairwise (fun g1 g2 =>
    (albums.map Album.artist).indexOf g1.1 < (albums.map Album.artist).indexOf g2.1)

/-! ## The prevalence rule of the specification -/

/-- The rule `resolvePrevalent(manual, auto)` in the words of the specification:
`manual` if it is not null, else `auto`; the result `none` is "unrated". -/
def resolvePrevalent (manual auto : Option ℚ) : Option ℚ :=
  match manual with
  | some m => some m
  | none => auto

/-! ## The prevalent rating of an artist, in the words of the specification -/

/-- The arithmetic mean of a list of numbers, absent for the empty list. -/
def meanOf (l : List ℚ) : Option ℚ :=
  if l = [] then none else some (l.sum / l.length)

/-- The prevalent rating of the artist `artistName` of user `userId` over the
albums `albums`: the `manualRating` of the stored artist rating if it is not
null, otherwise the mean of the non-null prevalent ratings of the albums with
that artist string; `none` when neither exists. -/
def artistPrevalentRating (s : Store) (userId : Nat) (artistName : String)
    (albums : List Album) : Option ℚ :=
  resolvePrevalent ((getArtistRating s userId artistName).bind ArtistRating.manualRating)
    (meanOf ((albums.filter (fun a => a.artist = artistName)).filterMap
      (fun a => resolvePrevalent a.manualRating a.autoRating)))

/-- The rating by which `getFavorites` ranks the artist `artistName` of user
`userId` over the albums `albums`: the `manualRating` of the stored artist
rating if it is not null, otherwise the mean that `average` computes from the
non-null prevalent ratings of the albums with that artist string, in the order
of `albums`; `none` when neither exists. -/
def artistComputedRating (s : Store) (userId : Nat) (artistName : String)
    (albums : List Album) : Option ℚ :=
  resolvePrevalent ((getArtistRating s userId artistName).bind ArtistRating.manualRating)
    (average ((albums.filter (fun a => a.artist = artistName)).filterMap
      (fun a => resolvePrevalent a.manualRating a.autoRating)))

/-! ## Ratings of the data model and the accuracy of binary64 -/

/-- A rating of the data model, as the rating widget produces it: a multiple
of 0.5 from 0 to 10. -/
def IsHalfStep (r : ℚ) : Prop :=
  0 ≤ r ∧ r ≤ 10 ∧ (2 * r).den = 1

/-- The bound `2 ^ (-53)` on the relative error of one rounding to binary64. -/
def unitRoundoff : ℚ :=
  1 / 2 ^ 53

/-! ## Rounding to one decimal place, in the words of the specification -/

/-- The nearest integer to `x`, a tie going away from zero. -/
def roundHalfAwayFromZero (x : ℚ) : ℤ :=
  if 0 ≤ x then ⌊x + 1 / 2⌋ else -⌊-x + 1 / 2⌋

/-- The number `r` rounded to one decimal place, halves away from zero. -/
def roundToOneDecimal (r : ℚ) : ℚ :=
  (roundHalfAwayFromZero (10 * r) : ℚ) / 10

/-! ## Well-formedness of the `songRatings` store -/

/-- The key of a record in the unique index `userTrack` on
`['userId', 'albumId', 'trackNumber']`. -/
def SongRating.key (r : SongRating) : Nat × Nat × Nat :=
  (r.userId, r.albumId, r.trackNumber)

/-- At most one song rating row per `(userId, albumId, trackNumber)`. -/
def Store.uniqueSongKeys (s : Store) : Prop :=
  (s.songRatings.map SongRating.key).Nodup

/-- The primary keys of `songRatings` come from its key generator, which starts
at 1: they are pairwise distinct, at least 1 and below the generator's current
number. -/
def Store.songIdsGenerated (s : Store) : Prop :=
  (s.songRatings.map SongRating.id).Nodup ∧ 0 < s.nextSongRatingId ∧
    ∀ r ∈ s.songRatings, 0 < r.id ∧ r.id < s.nextSongRatingId

/-- The arguments of one call of `Database.setSongRating`. -/
structure SongRatingCall where
  userId : Nat
  albumId : Nat
  trackNumber : Nat
  rating : ℚ
  deriving DecidableEq, Repr

/-- The store after a sequence of `setSongRating` calls, run one after the
other. -/
def setSongRatings (s : Store) (calls : List SongRatingCall) : Store :=
  calls.foldl (fun st c => (setSongRating st c.userId c.albumId c.trackNumber c.rating).2) s

/-! ## Well-formedness of the `artistRatings` store -/

/-- The key of a record in the unique index `userArtist` on
`['userId', 'artistName']`. -/
def ArtistRating.key (r : ArtistRating) : Nat × String :=
  (r.userId, r.artistName)

/-- At most one artist rating row per `(userId, artistName)`. -/
def Store.uniqueArtistKeys (s : Store) : Prop :=
  (s.artistRatings.map ArtistRating.key).Nodup

/-- The primary keys of `artistRatings` come from its key generator, which
starts at 1: they are pairwise distinct, at least 1 and below the generator's
current number. -/
def Store.artistIdsGenerated (s : Store) : Prop :=
  (s.artistRatings.map ArtistRating.id).Nodup ∧ 0 < s.nextArtistRatingId ∧
    ∀ r ∈ s.artistRatings, 0 < r.id ∧ r.id < s.nextArtistRatingId

/-- One call of `Database.setArtistRating` or of
`Database.updateArtistAutoRating`, with its arguments. -/
inductive ArtistRatingCall where
  | setArtistRating (userId : Nat) (artistName : String) (manualRating : Option ℚ)
  | updateArtistAutoRating (userId : Nat) (artistName : String) (autoRating : Option ℚ)
  deriving DecidableEq, Repr

/-- The outcome of one call on the artist ratings. -/
def ArtistRatingCall.run (s : Store) : ArtistRatingCall → Outcome Nat
  | .setArtistRating userId artistName manualRating =>
    MusicLibrary.setArtistRating s userId artistName manualRating
  | .updateArtistAutoRating userId artistName autoRating =>
    MusicLibrary.updateArtistAutoRating s userId artistName autoRating

/-- The store after a sequence of calls on the artist ratings, run one after
the other. -/
def runArtistRatingCalls (s : Store) (calls : List ArtistRatingCall) : Store :=
  calls.foldl (fun st c => (c.run st).2) s

/-! ## Sequences of store operations -/

/-- One call of a writing method of `Database` on the stores of the ratings,
with its arguments. -/
inductive StoreOp where
  | addAlbum (now : String) (userId : Nat) (albumData : AlbumData)
  | updateAlbumRating (albumId : Nat) (manualRating autoRating : Option ℚ)
  | setSongRating (userId albumId trackNumber : Nat) (rating : ℚ)
  | setArtistRating (userId : Nat) (artistName : String) (manualRating : Option ℚ)
  | updateArtistAutoRating (userId : Nat) (artistName : String) (autoRating : Option ℚ)
  | calculateAlbumAutoRating (userId albumId : Nat)
  | calculateArtistAutoRating (userId : Nat) (artistName : String)
  deriving DecidableEq, Repr

/-- The store after one operation, whether it succeeds or fails. -/
def StoreOp.run (s : Store) : StoreOp → Store
  | .addAlbum now userId albumData => (MusicLibrary.addAlbum s now userId albumData).2
  | .updateAlbumRating albumId manualRating autoRating =>
    (MusicLibrary.updateAlbumRating s albumId manualRating autoRating).2
  | .setSongRating userId albumId trackNumber rating =>
    (MusicLibrary.setSongRating s userId albumId trackNumber rating).2
  | .setArtistRating userId artistName manualRating =>
    (MusicLibrary.setArtistRating s userId artistName manualRating).2
  | .updateArtistAutoRating userId artistName autoRating =>
    (MusicLibrary.updateArtistAutoRating s userId artistName autoRating).2
  | .calculateAlbumAutoRating userId albumId =>
    (MusicLibrary.calculateAlbumAutoRating s userId albumId).2
  | .calculateArtistAutoRating userId artistName =>
    (MusicLibrary.calculateArtistAutoRating s userId artistName).2

/-- The store after a sequence of operations, run one after the other. -/
def runStoreOps (s : Store) (ops : List StoreOp) : Store :=
  ops.foldl StoreOp.run s

/-- The primary keys of `albums` are below the current number of its key
generator. -/
def Store.albumIdsGenerated (s : Store) : Prop :=
  ∀ a ∈ s.albums, a.id < s.nextAlbumId

/-- The album stored under `albumId` in `s` is still stored in `s1`, and a
rating of it that was not null is not null in `s1`. -/
def RatingsKept (s s1 : Store) : Prop :=
  ∀ (albumId : Nat) (album : Album), getAlbum s albumId = some album →
    ∃ album1, getAlbum s1 albumId = some album1 ∧
      (album.manualRating ≠ none → album1.manualRating ≠ none) ∧
      (album.autoRating ≠ none → album1.autoRating ≠ none)

/-! ## Example stores -/

/-- An album record with the given key, owner, artist and ratings. -/
def exampleAlbum (id userId : Nat) (mbid artist : String) (manualRating autoRating : Option ℚ) :
    Album :=
  { id := id, userId := userId, mbid := mbid, title := "A", artist := artist, year := none,
    coverUrl := none, tracks := [], addedAt := "2024-01-01T00:00:00.000Z",
    manualRating := manualRating, autoRating := autoRating }

/-- User 1 owns album 1 by artist `X`, with songs 1 and 2 rated 8 and 6. -/
def storeTwoSongs : Store :=
  { albums := [exampleAlbum 1 1 "m1" "X" none none],
    songRatings := [{ id := 1, userId := 1, albumId := 1, trackNumber := 1, rating := 8 },
                    { id := 2, userId := 1, albumId := 1, trackNumber := 2, rating := 6 }],
    artistRatings := [], nextAlbumId := 2, nextSongRatingId := 3, nextArtistRatingId := 1 }

/-- User 1 owns album 1 by artist `X`; its `autoRating` is 7 and no song
rating is stored. -/
def storeStaleAuto : Store :=
  { albums := [exampleAlbum 1 1 "m1" "X" none (some 7)],
    songRatings := [], artistRatings := [],
    nextAlbumId := 2, nextSongRatingId := 1, nextArtistRatingId := 1 }

/-- User 1 owns two albums by artist `X`: album 1 with automatic rating 7 and
album 2 unrated; no artist rating is stored. -/
def storeArtistX : Store :=
  { albums := [exampleAlbum 1 1 "m1" "X" none (some 7), exampleAlbum 2 1 "m2" "X" none none],
    songRatings := [], artistRatings := [],
    nextAlbumId := 3, nextSongRatingId := 1, nextArtistRatingId := 1 }

/-- The database right after `Database.init` created the object stores. -/
def emptyStore : Store :=
  { albums := [], songRatings := [], artistRatings := [],
    nextAlbumId := 1, nextSongRatingId := 1, nextArtistRatingId := 1 }

/-- Album details as returned by the catalog for the release `m1`. -/
def exampleAlbumData : AlbumData :=
  { mbid := "m1", title := "A", artist := "X", year := some "1999", coverUrl := none,
    tracks := [{ number := 1, title := "T", duration := none }] }

/-- Albums with prevalent ratings `null`, 5 and 8, in this order. -/
def albumsNull58 : List Album :=
  [exampleAlbum 1 1 "m1" "X" none none, exampleAlbum 2 1 "m2" "X" none (some 5),
   exampleAlbum 3 1 "m3" "X" (some 8) none]

/-- An unrated album followed by an album with the manual rating 0. -/
def albumsNullZero : List Album :=
  [exampleAlbum 1 1 "m1" "X" none none, exampleAlbum 2 1 "m2" "X" (some 0) none]

/-- Albums of the years `null`, 1999, 2005 and `null`, in this order. -/
def albumsYears : List Album :=
  [exampleAlbum 1 1 "m1" "X" none none,
   { exampleAlbum 2 1 "m2" "X" none none with year := some "1999" },
   { exampleAlbum 3 1 "m3" "X" none none with year := some "2005" },
   exampleAlbum 4 1 "m4" "X" none none]

/-- User 1 owns albums 1 (artist `X`, automatic rating 7), 2 (artist `Y`,
manual rating 7) and 3 (artist `X`, unrated, with the single track 1); album 3
has a rating 8 for track 1 and a rating 9 for a track number 2 that it does
not have. -/
def storeFavorites : Store :=
  { albums :=
      [exampleAlbum 1 1 "m1" "X" none (some 7), exampleAlbum 2 1 "m2" "Y" (some 7) none,
       { exampleAlbum 3 1 "m3" "X" none none with
         tracks := [{ number := 1, title := "T1", duration := none }] }]
    songRatings := [{ id := 1, userId := 1, albumId := 3, trackNumber := 1, rating := 8 },
                    { id := 2, userId := 1, albumId := 3, trackNumber := 2, rating := 9 }]
    artistRatings := []
    nextAlbumId := 4
    nextSongRatingId := 3
    nextArtistRatingId := 1 }

/-- User 1 owns album 1 without tracks and has rated a track number 5 of it. -/
def storeOrphanRating : Store :=
  { albums := [exampleAlbum 1 1 "m1" "X" none none]
    songRatings := [{ id := 1, userId := 1, albumId := 1, trackNumber := 5, rating := 8 }]
    artistRatings := []
    nextAlbumId := 2
    nextSongRatingId := 2
    nextArtistRatingId := 1 }

/-- User 1 has the artist rating row 1 for `X`, manual 9 and automatic 7. -/
def storeArtistRow : Store :=
  { albums := [exampleAlbum 1 1 "m1" "X" none (some 7)]
    songRatings := []
    artistRatings := [{ id := 1, userId := 1, artistName := "X", manualRating := some 9,
                        autoRating := some 7 }]
    nextAlbumId := 2
    nextSongRatingId := 1
    nextArtistRatingId := 2 }

/-- The Number 5.4: the binary64 number nearest to 27/5, which is
`6079859496950170 / 2 ^ 50`. -/
def fivePointFour : ℚ :=
  3039929748475085 / 562949953421312

/-- The Number 5.6: the binary64 number nearest to 28/5, which is
`6305039478318694 / 2 ^ 50`. -/
def fivePointSix : ℚ :=
  3152519739159347 / 562949953421312

/-- User 1 owns album 1 by artist `X`, with the songs 1 to 5 rated 5, 5, 5.5,
5.5 and 6. -/
def storeFiveSongs : Store :=
  { albums := [exampleAlbum 1 1 "m1" "X" none none]
    songRatings := [{ id := 1, userId := 1, albumId := 1, trackNumber := 1, rating := 5 },
                    { id := 2, userId := 1, albumId := 1, trackNumber := 2, rating := 5 },
                    { id := 3, userId := 1, albumId := 1, trackNumber := 3, rating := 11 / 2 },
                    { id := 4, userId := 1, albumId := 1, trackNumber := 4, rating := 11 / 2 },
                    { id := 5, userId := 1, albumId := 1, trackNumber := 5, rating := 6 }]
    artistRatings := []
    nextAlbumId := 2
    nextSongRatingId := 6
    nextArtistRatingId := 1 }

/-- User 1 owns three albums by artist `X`, each with the automatic rating 5.4
that `calculateAlbumAutoRating` stores for songs rated 5, 5, 5.5, 5.5 and 6. -/
def storeThreeAlbums : Store :=
  { albums := [exampleAlbum 1 1 "m1" "X" none (some fivePointFour),
               exampleAlbum 2 1 "m2" "X" none (some fivePointFour),
               exampleAlbum 3 1 "m3" "X" none (some fivePointFour)]
    songRatings := []
    artistRatings := []
    nextAlbumId := 4
    nextSongRatingId := 1
    nextArtistRatingId := 1 }

/-- User 1 owns album 1 by artist `Y` and then albums 2, 3 and 4 by artist `X`,
each with the automatic rating 5.4. -/
def storeTiedArtists : Store :=
  { albums := [exampleAlbum 1 1 "m1" "Y" none (some fivePointFour),
               exampleAlbum 2 1 "m2" "X" none (some fivePointFour),
               exampleAlbum 3 1 "m3" "X" none (some fivePointFour),
               exampleAlbum 4 1 "m4" "X" none (some fivePointFour)]
    songRatings := []
    artistRatings := []
    nextAlbumId := 5
    nextSongRatingId := 1
    nextArtistRatingId := 1 }

/-- A release on two discs, each with one track at position 1. -/
def twoDiscRelease : MBRelease :=
  { id := "m1"
    title := "A"
    artistCredit := some ["X"]
    date := some "1999-05-01"
    media := some
      [{ tracks := some [{ position := 1, title := some "One", length := some 1000,
                           recording := none }] },
       { tracks := some [{ position := 1, title := some "Two", length := some 2000,
                           recording := none }] }] }

/-! ## Rounding to binary64 -/

theorem floor_le_roundHalfEven (x : ℚ) : ⌊x⌋ ≤ roundHalfEven x := by
  unfold roundHalfEven
  split_ifs <;> omega

theorem roundHalfEven_le_floor_add_one (x : ℚ) : roundHalfEven x ≤ ⌊x⌋ + 1 := by
  unfold roundHalfEven
  split_ifs <;> omega

theorem roundHalfEven_intCast (n : ℤ) : roundHalfEven (n : ℚ) = n := by
  unfold roundHalfEven
  simp

theorem abs_roundHalfEven_sub_le (x : ℚ) : |(roundHalfEven x : ℚ) - x| ≤ 1 / 2 := by
  have h1 := Int.floor_le x
  have h2 := Int.lt_floor_add_one x
  unfold roundHalfEven
  rw [abs_le]
  split_ifs with ha hb hc
  · constructor <;> linarith
  · push_cast; constructor <;> linarith
  · constructor <;> linarith
  · push_cast; constructor <;> linarith

theorem roundHalfEven_mono {x y : ℚ} (h : x ≤ y) : roundHalfEven x ≤ roundHalfEven y := by
  rcases (Int.floor_mono h).lt_or_eq with hlt | heq
  · have h1 := roundHalfEven_le_floor_add_one x
    have h2 := floor_le_roundHalfEven y
    omega
  · unfold roundHalfEven
    rw [← heq]
    split_ifs <;> first | omega | (exfalso; linarith)

theorem roundToDouble_zero : roundToDouble 0 = 0 := by
  simp [roundToDouble]

/-- The binade of a number other than 0. -/
theorem log_eq_of_bounds (x : ℚ) (e : ℤ) (h1 : (2 : ℚ) ^ e ≤ |x|) (h2 : |x| < (2 : ℚ) ^ (e + 1)) :
    Int.log 2 |x| = e := by
  have hpos : 0 < |x| := lt_of_lt_of_le (zpow_pos (by norm_num) e) h1
  have ha : e ≤ Int.log 2 |x| := by
    rw [← Int.zpow_le_iff_le_log (by norm_num) hpos]
    simpa using h1
  have hb : Int.log 2 |x| < e + 1 := by
    rw [← Int.lt_zpow_iff_log_lt (by norm_num) hpos]
    simpa using h2
  omega

theorem log_bounds (x : ℚ) (hx : x ≠ 0) :
    (2 : ℚ) ^ (Int.log 2 |x|) ≤ |x| ∧ |x| < (2 : ℚ) ^ (Int.log 2 |x| + 1) := by
  have hpos : 0 < |x| := abs_pos.mpr hx
  have h1 := Int.zpow_log_le_self (b := 2) (by norm_num) hpos
  have h2 := Int.lt_zpow_succ_log_self (b := 2) (by norm_num) |x|
  simp only [Nat.cast_ofNat] at h1 h2
  exact ⟨h1, h2⟩

theorem roundToDouble_of_bounds (x : ℚ) (e : ℤ) (h1 : (2 : ℚ) ^ e ≤ |x|)
    (h2 : |x| < (2 : ℚ) ^ (e + 1)) :
    roundToDouble x = (roundHalfEven (x / 2 ^ (e - 52)) : ℚ) * 2 ^ (e - 52) := by
  have hpos : 0 < |x| := lt_of_lt_of_le (zpow_pos (by norm_num) e) h1
  have hx : x ≠ 0 := abs_pos.mp hpos
  simp only [roundToDouble, hx, if_false, log_eq_of_bounds x e h1 h2]

/-- Evaluation of `roundToDouble` from the binade and the nearest integer. -/
theorem roundToDouble_eq_of (x : ℚ) (e n : ℤ) (h1 : (2 : ℚ) ^ e ≤ |x|)
    (h2 : |x| < (2 : ℚ) ^ (e + 1)) (h3 : (n : ℚ) - 1 / 2 < x / 2 ^ (e - 52))
    (h4 : x / 2 ^ (e - 52) < (n : ℚ) + 1 / 2) :
    roundToDouble x = (n : ℚ) * 2 ^ (e - 52) := by
  rw [roundToDouble_of_bounds x e h1 h2]
  have hr := abs_roundHalfEven_sub_le (x / 2 ^ (e - 52))
  rw [abs_le] at hr
  have : roundHalfEven (x / 2 ^ (e - 52)) = n := by
    have ha : ((roundHalfEven (x / 2 ^ (e - 52)) : ℤ) : ℚ) < (n : ℚ) + 1 := by linarith [hr.2]
    have hb : (n : ℚ) - 1 < ((roundHalfEven (x / 2 ^ (e - 52)) : ℤ) : ℚ) := by linarith [hr.1]
    have ha2 : roundHalfEven (x / 2 ^ (e - 52)) < n + 1 := by exact_mod_cast ha
    have hb2 : n - 1 < roundHalfEven (x / 2 ^ (e - 52)) := by exact_mod_cast hb
    omega
  rw [this]

/-- Evaluation of `roundToDouble` at a positive number. -/
theorem roundToDouble_eq_of_pos (x : ℚ) (e n : ℤ) (h1 : (2 : ℚ) ^ e ≤ x)
    (h2 : x < (2 : ℚ) ^ (e + 1)) (h3 : (n : ℚ) - 1 / 2 < x / 2 ^ (e - 52))
    (h4 : x / 2 ^ (e - 52) < (n : ℚ) + 1 / 2) :
    roundToDouble x = (n : ℚ) * 2 ^ (e - 52) := by
  have hpos : 0 < x := lt_of_lt_of_le (zpow_pos (by norm_num) e) h1
  have habs : |x| = x := abs_of_pos hpos
  exact roundToDouble_eq_of x e n (by rw [habs]; exact h1) (by rw [habs]; exact h2) h3 h4


/-- A number with a significand of at most 53 bits is its own rounding. -/
theorem roundToDouble_mul_zpow (m : ℕ) (e : ℤ) (hm : m < 2 ^ 53) :
    roundToDouble ((m : ℚ) * 2 ^ e) = (m : ℚ) * 2 ^ e := by
  rcases Nat.eq_zero_or_pos m with h0 | hpos
  · simp [h0, roundToDouble_zero]
  have h2pos : (0 : ℚ) < 2 ^ e := zpow_pos (by norm_num) e
  have hxpos : (0 : ℚ) < (m : ℚ) * 2 ^ e := mul_pos (by exact_mod_cast hpos) h2pos
  have hx : (m : ℚ) * 2 ^ e ≠ 0 := ne_of_gt hxpos
  obtain ⟨hl1, hl2⟩ := log_bounds _ hx
  generalize hL : Int.log 2 |(m : ℚ) * 2 ^ e| = L at hl1 hl2
  rw [abs_of_pos hxpos] at hl1 hl2
  -- the binade is at most `e + 52`
  have hLe : L ≤ e + 52 := by
    by_contra hcon
    have h53 : e + 53 ≤ L := by omega
    have : (2 : ℚ) ^ (e + 53) ≤ 2 ^ L := zpow_le_zpow_right₀ (by norm_num) h53
    have hm2 : (m : ℚ) < 2 ^ (53 : ℕ) := by exact_mod_cast hm
    have : (m : ℚ) * 2 ^ e < 2 ^ (e + 53) := by
      rw [zpow_add₀ (by norm_num : (2 : ℚ) ≠ 0), mul_comm ((2 : ℚ) ^ e)]
      have : ((2 : ℚ) ^ (53 : ℤ)) = 2 ^ (53 : ℕ) := by norm_cast
      rw [this]
      exact mul_lt_mul_of_pos_right hm2 h2pos
    linarith
  obtain ⟨k, hk⟩ : ∃ k : ℕ, (k : ℤ) = e + 52 - L := ⟨(e + 52 - L).toNat, by omega⟩
  have hdiv : (m : ℚ) * 2 ^ e / 2 ^ (L - 52) = ((m * 2 ^ k : ℕ) : ℤ) := by
    have he : e = (L - 52) + (k : ℤ) := by omega
    rw [he, zpow_add₀ (by norm_num : (2 : ℚ) ≠ 0)]
    have hne : (2 : ℚ) ^ (L - 52) ≠ 0 := ne_of_gt (zpow_pos (by norm_num) _)
    field_simp
    ring
  simp only [roundToDouble, hx, if_false]
  rw [hL, hdiv, roundHalfEven_intCast, ← hdiv]
  have hne : (2 : ℚ) ^ (L - 52) ≠ 0 := ne_of_gt (zpow_pos (by norm_num) _)
  field_simp

theorem roundToDouble_half (k : ℕ) (hk : k < 2 ^ 53) :
    roundToDouble ((k : ℚ) / 2) = (k : ℚ) / 2 := by
  have h := roundToDouble_mul_zpow k (-1) hk
  have h2 : ((2 : ℚ) ^ (-1 : ℤ)) = 1 / 2 := by norm_num
  rw [h2] at h
  have h3 : (k : ℚ) * (1 / 2) = (k : ℚ) / 2 := by ring
  rwa [h3] at h

theorem roundToDouble_natCast (k : ℕ) (hk : k < 2 ^ 53) : roundToDouble (k : ℚ) = k := by
  have h := roundToDouble_mul_zpow k 0 hk
  simpa using h

theorem roundHalfEven_nonneg {x : ℚ} (h : 0 ≤ x) : 0 ≤ roundHalfEven x :=
  le_trans (Int.floor_nonneg.mpr h) (floor_le_roundHalfEven x)

theorem roundToDouble_nonneg {x : ℚ} (h : 0 ≤ x) : 0 ≤ roundToDouble x := by
  unfold roundToDouble
  split_ifs with h0
  · exact le_refl 0
  · have hu : (0 : ℚ) < 2 ^ (Int.log 2 |x| - 52) := zpow_pos (by norm_num) _
    have : 0 ≤ roundHalfEven (x / 2 ^ (Int.log 2 |x| - 52)) :=
      roundHalfEven_nonneg (div_nonneg h hu.le)
    exact mul_nonneg (by exact_mod_cast this) hu.le

/-- A positive number in the binade `e` is rounded into `[2 ^ e, 2 ^ (e + 1)]`. -/
theorem roundToDouble_binade (x : ℚ) (e : ℤ) (h1 : (2 : ℚ) ^ e ≤ x) (h2 : x < (2 : ℚ) ^ (e + 1)) :
    (2 : ℚ) ^ e ≤ roundToDouble x ∧ roundToDouble x ≤ (2 : ℚ) ^ (e + 1) := by
  have hpos : 0 < x := lt_of_lt_of_le (zpow_pos (by norm_num) e) h1
  have habs : |x| = x := abs_of_pos hpos
  rw [roundToDouble_of_bounds x e (by rw [habs]; exact h1) (by rw [habs]; exact h2)]
  have hu : (0 : ℚ) < 2 ^ (e - 52) := zpow_pos (by norm_num) _
  have e1 : (2 : ℚ) ^ e = ((2 ^ 52 : ℤ) : ℚ) * 2 ^ (e - 52) := by
    have : e = (52 : ℤ) + (e - 52) := by ring
    conv_lhs => rw [this, zpow_add₀ (by norm_num : (2 : ℚ) ≠ 0)]
    norm_num
  have e2 : (2 : ℚ) ^ (e + 1) = ((2 ^ 53 : ℤ) : ℚ) * 2 ^ (e - 52) := by
    have : e + 1 = (53 : ℤ) + (e - 52) := by ring
    conv_lhs => rw [this, zpow_add₀ (by norm_num : (2 : ℚ) ≠ 0)]
    norm_num
  have hlo : ((2 ^ 52 : ℤ) : ℚ) ≤ x / 2 ^ (e - 52) := by
    rw [le_div_iff₀ hu, ← e1]
    exact h1
  have hhi : x / 2 ^ (e - 52) ≤ ((2 ^ 53 : ℤ) : ℚ) := by
    rw [div_le_iff₀ hu, ← e2]
    exact h2.le
  have r1 := roundHalfEven_mono hlo
  have r2 := roundHalfEven_mono hhi
  rw [roundHalfEven_intCast] at r1 r2
  rw [e1, e2]
  constructor
  · exact mul_le_mul_of_nonneg_right (by exact_mod_cast r1) hu.le
  · exact mul_le_mul_of_nonneg_right (by exact_mod_cast r2) hu.le

/-- Rounding to the nearest binary64 number is monotone. -/
theorem roundToDouble_mono {x y : ℚ} (hx : 0 ≤ x) (hxy : x ≤ y) :
    roundToDouble x ≤ roundToDouble y := by
  rcases hx.lt_or_eq with hpos | h0
  swap
  · rw [← h0, roundToDouble_zero]
    exact roundToDouble_nonneg (le_trans hx hxy)
  have hypos : 0 < y := lt_of_lt_of_le hpos hxy
  obtain ⟨a1, a2⟩ := log_bounds x (ne_of_gt hpos)
  obtain ⟨b1, b2⟩ := log_bounds y (ne_of_gt hypos)
  have hlog : Int.log 2 |x| ≤ Int.log 2 |y| := by
    rw [abs_of_pos hpos, abs_of_pos hypos]
    exact Int.log_mono_right hpos hxy
  generalize Int.log 2 |x| = ex at a1 a2 hlog
  generalize Int.log 2 |y| = ey at b1 b2 hlog
  rw [abs_of_pos hpos] at a1 a2
  rw [abs_of_pos hypos] at b1 b2
  rcases hlog.lt_or_eq with hlt | heq
  · have h1 := (roundToDouble_binade x ex a1 a2).2
    have h2 := (roundToDouble_binade y ey b1 b2).1
    have : (2 : ℚ) ^ (ex + 1) ≤ 2 ^ ey := zpow_le_zpow_right₀ (by norm_num) (by omega)
    linarith
  · subst heq
    rw [roundToDouble_of_bounds x ex (by rw [abs_of_pos hpos]; exact a1)
        (by rw [abs_of_pos hpos]; exact a2),
      roundToDouble_of_bounds y ex (by rw [abs_of_pos hypos]; exact b1)
        (by rw [abs_of_pos hypos]; exact b2)]
    have hu : (0 : ℚ) < 2 ^ (ex - 52) := zpow_pos (by norm_num) _
    have := roundHalfEven_mono (div_le_div_of_nonneg_right hxy hu.le)
    exact mul_le_mul_of_nonneg_right (by exact_mod_cast this) hu.le

/-- The relative error of one rounding is at most `2 ^ (-53)`. -/
theorem roundToDouble_rel {x : ℚ} (hx : 0 ≤ x) :
    x * (1 - unitRoundoff) ≤ roundToDouble x ∧ roundToDouble x ≤ x * (1 + unitRoundoff) := by
  unfold unitRoundoff
  rcases hx.lt_or_eq with hpos | h0
  swap
  · rw [← h0, roundToDouble_zero]
    simp
  obtain ⟨a1, a2⟩ := log_bounds x (ne_of_gt hpos)
  generalize Int.log 2 |x| = e at a1 a2
  rw [abs_of_pos hpos] at a1 a2
  rw [roundToDouble_of_bounds x e (by rw [abs_of_pos hpos]; exact a1)
    (by rw [abs_of_pos hpos]; exact a2)]
  have hu : (0 : ℚ) < 2 ^ (e - 52) := zpow_pos (by norm_num) _
  have e1 : (2 : ℚ) ^ e = 2 ^ 52 * 2 ^ (e - 52) := by
    have : e = (52 : ℤ) + (e - 52) := by ring
    conv_lhs => rw [this, zpow_add₀ (by norm_num : (2 : ℚ) ≠ 0)]
    norm_num
  have hr := abs_roundHalfEven_sub_le (x / 2 ^ (e - 52))
  rw [abs_le] at hr
  obtain ⟨r1, r2⟩ := hr
  have hxu : x / 2 ^ (e - 52) * 2 ^ (e - 52) = x := by field_simp
  have k1 : x - 2 ^ (e - 52) / 2 ≤ (roundHalfEven (x / 2 ^ (e - 52)) : ℚ) * 2 ^ (e - 52) := by
    have := mul_le_mul_of_nonneg_right r1 hu.le
    nlinarith
  have k2 : (roundHalfEven (x / 2 ^ (e - 52)) : ℚ) * 2 ^ (e - 52) ≤ x + 2 ^ (e - 52) / 2 := by
    have := mul_le_mul_of_nonneg_right r2 hu.le
    nlinarith
  rw [e1] at a1
  constructor <;> nlinarith

theorem IsHalfStep.exists_nat {r : ℚ} (h : IsHalfStep r) :
    ∃ k : ℕ, k ≤ 20 ∧ r = (k : ℚ) / 2 := by
  obtain ⟨h0, h10, hden⟩ := h
  have hnum : ((2 * r).num : ℚ) = 2 * r := by
    have := Rat.num_div_den (2 * r)
    rw [hden] at this
    simpa using this
  have hn0 : 0 ≤ (2 * r).num := by
    have : (0 : ℚ) ≤ ((2 * r).num : ℚ) := by rw [hnum]; linarith
    exact_mod_cast this
  have hn20 : (2 * r).num ≤ 20 := by
    have : ((2 * r).num : ℚ) ≤ 20 := by rw [hnum]; linarith
    exact_mod_cast this
  refine ⟨(2 * r).num.toNat, by omega, ?_⟩
  have hcast : (((2 * r).num.toNat : ℕ) : ℚ) = ((2 * r).num : ℚ) := by
    have : (((2 * r).num.toNat : ℕ) : ℤ) = (2 * r).num := Int.toNat_of_nonneg hn0
    exact_mod_cast this
  rw [hcast, hnum]
  ring

/-- Adding multiples of 0.5 is exact while the sum stays below `2 ^ 52`. -/
theorem foldl_numberAdd_halfSteps (l : List ℚ) (h : ∀ r ∈ l, IsHalfStep r) (j : ℕ)
    (hj : j + 20 * l.length < 2 ^ 53) :
    l.foldl numberAdd ((j : ℚ) / 2) = (j : ℚ) / 2 + l.sum ∧
      ∃ k : ℕ, k ≤ j + 20 * l.length ∧ (j : ℚ) / 2 + l.sum = (k : ℚ) / 2 := by
  induction l generalizing j with
  | nil => exact ⟨by simp, j, by simp, by simp⟩
  | cons x xs ih =>
    obtain ⟨k, hk, hx⟩ := (h x (by simp)).exists_nat
    simp only [List.length_cons] at hj
    have hstep : numberAdd ((j : ℚ) / 2) x = ((j + k : ℕ) : ℚ) / 2 := by
      have : (j : ℚ) / 2 + x = ((j + k : ℕ) : ℚ) / 2 := by rw [hx]; push_cast; ring
      rw [numberAdd, this]
      exact roundToDouble_half (j + k) (by omega)
    obtain ⟨h1, k2, hk2, h2⟩ := ih (fun r hr => h r (by simp [hr])) (j + k) (by omega)
    simp only [List.foldl_cons, hstep, List.sum_cons, List.length_cons]
    have e : (j : ℚ) / 2 + (x + xs.sum) = ((j + k : ℕ) : ℚ) / 2 + xs.sum := by
      rw [hx]; push_cast; ring
    rw [e]
    exact ⟨h1, k2, by omega, h2⟩

theorem foldl_numberAdd_eq_sum (l : List ℚ) (h : ∀ r ∈ l, IsHalfStep r)
    (hlen : l.length < 2 ^ 32) : l.foldl numberAdd 0 = l.sum := by
  have := (foldl_numberAdd_halfSteps l h 0 (by norm_num; omega)).1
  simpa using this

/-- The mean that `average` computes from multiples of 0.5 is the binary64
number nearest to their arithmetic mean. -/
theorem average_halfSteps (l : List ℚ) (h : ∀ r ∈ l, IsHalfStep r) (hlen : l.length < 2 ^ 32) :
    average l = (meanOf l).map roundToDouble := by
  cases l with
  | nil => simp [average, meanOf]
  | cons x xs =>
    have hs := foldl_numberAdd_eq_sum (x :: xs) h hlen
    have hfun : (fun acc n => numberAdd acc n) = numberAdd := rfl
    simp only [average, meanOf, hfun, hs, numberDiv]
    simp


/-- The sum computed by `reduce` stays between the multiples of two bounds that
are multiples of 0.5. -/
theorem foldl_numberAdd_bounds (l : List ℚ) (a b : ℕ) (hb : b ≤ 20)
    (h : ∀ x ∈ l, (a : ℚ) / 2 ≤ x ∧ x ≤ (b : ℚ) / 2) (j : ℕ) (acc : ℚ)
    (hj : j + l.length < 2 ^ 32)
    (hacc : (j : ℚ) * ((a : ℚ) / 2) ≤ acc ∧ acc ≤ (j : ℚ) * ((b : ℚ) / 2)) :
    ((j + l.length : ℕ) : ℚ) * ((a : ℚ) / 2) ≤ l.foldl numberAdd acc ∧
      l.foldl numberAdd acc ≤ ((j + l.length : ℕ) : ℚ) * ((b : ℚ) / 2) := by
  induction l generalizing j acc with
  | nil => simpa using hacc
  | cons x xs ih =>
    obtain ⟨hx1, hx2⟩ := h x (by simp)
    simp only [List.length_cons] at hj
    have ha0 : (0 : ℚ) ≤ (a : ℚ) / 2 := by positivity
    have hj0 : (0 : ℚ) ≤ (j : ℚ) := by positivity
    have hlo : (((j + 1) * a : ℕ) : ℚ) / 2 ≤ acc + x := by
      push_cast
      nlinarith [hacc.1]
    have hhi : acc + x ≤ (((j + 1) * b : ℕ) : ℚ) / 2 := by
      push_cast
      nlinarith [hacc.2]
    have hab : (a : ℚ) / 2 ≤ (b : ℚ) / 2 := le_trans hx1 hx2
    have hab2 : a ≤ b := by
      have : (a : ℚ) ≤ b := by linarith
      exact_mod_cast this
    have hjb : (j + 1) * b < 2 ^ 53 := by
      calc (j + 1) * b ≤ (j + 1) * 20 := Nat.mul_le_mul_left _ hb
        _ < 2 ^ 53 := by omega
    have hja : (j + 1) * a < 2 ^ 53 := lt_of_le_of_lt (Nat.mul_le_mul_left _ hab2) hjb
    have h1 : (((j + 1) * a : ℕ) : ℚ) / 2 ≤ numberAdd acc x := by
      have := roundToDouble_mono (by positivity) hlo
      rwa [roundToDouble_half _ hja] at this
    have h2 : numberAdd acc x ≤ (((j + 1) * b : ℕ) : ℚ) / 2 := by
      have hnn : (0 : ℚ) ≤ acc + x :=
        le_trans (by positivity) hlo
      have := roundToDouble_mono hnn hhi
      rwa [roundToDouble_half _ hjb] at this
    have := ih (fun y hy => h y (by simp [hy])) (j + 1) (numberAdd acc x) (by omega)
      ⟨by push_cast at h1 ⊢; linarith, by push_cast at h2 ⊢; linarith⟩
    simp only [List.foldl_cons, List.length_cons]
    have e : j + (xs.length + 1) = j + 1 + xs.length := by omega
    rw [e]
    exact this

/-- The mean that `average` computes lies between two bounds of its inputs that
are multiples of 0.5 from 0 to 10. -/
theorem average_bounds (l : List ℚ) (lo hi : ℚ) (hlo : IsHalfStep lo) (hhi : IsHalfStep hi)
    (hne : l ≠ []) (hlen : l.length < 2 ^ 32) (h : ∀ x ∈ l, lo ≤ x ∧ x ≤ hi) :
    ∃ v : ℚ, average l = some v ∧ lo ≤ v ∧ v ≤ hi := by
  obtain ⟨a, ha, rfl⟩ := hlo.exists_nat
  obtain ⟨b, hb, rfl⟩ := hhi.exists_nat
  have hpos : 0 < l.length := List.length_pos.mpr hne
  have hposq : (0 : ℚ) < (l.length : ℚ) := by exact_mod_cast hpos
  have hs := foldl_numberAdd_bounds l a b hb h 0 0 (by simpa using hlen) (by simp)
  simp only [Nat.zero_add] at hs
  have hfun : (fun acc n => numberAdd acc n) = numberAdd := rfl
  have hl0 : l.length ≠ 0 := by omega
  refine ⟨numberDiv (l.foldl numberAdd 0) l.length, by simp [average, hl0], ?_, ?_⟩
  · have h1 : (a : ℚ) / 2 ≤ l.foldl numberAdd 0 / l.length := by
      rw [le_div_iff₀ hposq]
      linarith [hs.1]
    have := roundToDouble_mono (by positivity) h1
    rwa [roundToDouble_half a (by omega)] at this
  · have h1 : l.foldl numberAdd 0 / l.length ≤ (b : ℚ) / 2 := by
      rw [div_le_iff₀ hposq]
      linarith [hs.2]
    have hnn : (0 : ℚ) ≤ l.foldl numberAdd 0 / l.length :=
      div_nonneg (le_trans (by positivity) hs.1) hposq.le
    have := roundToDouble_mono hnn h1
    rwa [roundToDouble_half b (by omega)] at this

/-- The sum computed by `reduce` from non-negative numbers is within the
accumulated rounding error of their sum. -/
theorem foldl_numberAdd_rel (l : List ℚ) (h : ∀ x ∈ l, 0 ≤ x) (j : ℕ) (acc e : ℚ)
    (he : 0 ≤ e)
    (hacc : e * (1 - unitRoundoff) ^ j ≤ acc ∧ acc ≤ e * (1 + unitRoundoff) ^ j) :
    (e + l.sum) * (1 - unitRoundoff) ^ (j + l.length) ≤ l.foldl numberAdd acc ∧
      l.foldl numberAdd acc ≤ (e + l.sum) * (1 + unitRoundoff) ^ (j + l.length) := by
  induction l generalizing j acc e with
  | nil => simpa using hacc
  | cons x xs ih =>
    have hx := h x (by simp)
    have hd0 : (0 : ℚ) ≤ 1 - unitRoundoff := by norm_num [unitRoundoff]
    have hd1 : (1 : ℚ) - unitRoundoff ≤ 1 := by norm_num [unitRoundoff]
    have hu1 : (1 : ℚ) ≤ 1 + unitRoundoff := by norm_num [unitRoundoff]
    have hpd : (1 - unitRoundoff : ℚ) ^ j ≤ 1 := pow_le_one₀ hd0 hd1
    have hpd0 : (0 : ℚ) ≤ (1 - unitRoundoff : ℚ) ^ j := pow_nonneg hd0 j
    have hpu : (1 : ℚ) ≤ (1 + unitRoundoff : ℚ) ^ j := one_le_pow₀ hu1
    have hacc0 : 0 ≤ acc := le_trans (mul_nonneg he hpd0) hacc.1
    obtain ⟨r1, r2⟩ := roundToDouble_rel (add_nonneg hacc0 hx)
    have h1 : (e + x) * (1 - unitRoundoff) ^ (j + 1) ≤ numberAdd acc x := by
      refine le_trans ?_ r1
      rw [pow_succ, ← mul_assoc]
      apply mul_le_mul_of_nonneg_right _ hd0
      nlinarith [hacc.1]
    have h2 : numberAdd acc x ≤ (e + x) * (1 + unitRoundoff) ^ (j + 1) := by
      refine le_trans r2 ?_
      rw [pow_succ, ← mul_assoc]
      apply mul_le_mul_of_nonneg_right _ (by linarith)
      nlinarith [hacc.2]
    have := ih (fun y hy => h y (by simp [hy])) (j + 1) (numberAdd acc x) (e + x)
      (add_nonneg he hx) ⟨h1, h2⟩
    simp only [List.foldl_cons, List.length_cons, List.sum_cons]
    have e1 : j + (xs.length + 1) = j + 1 + xs.length := by omega
    rw [e1, ← add_assoc]
    exact this

/-- The mean that `average` computes from non-negative numbers is within the
accumulated rounding error of their arithmetic mean. -/
theorem average_rel (l : List ℚ) (hne : l ≠ []) (h : ∀ x ∈ l, 0 ≤ x) :
    ∃ v : ℚ, average l = some v ∧
      l.sum / l.length * (1 - unitRoundoff) ^ (l.length + 1) ≤ v ∧
      v ≤ l.sum / l.length * (1 + unitRoundoff) ^ (l.length + 1) := by
  have hpos : 0 < l.length := List.length_pos.mpr hne
  have hposq : (0 : ℚ) < (l.length : ℚ) := by exact_mod_cast hpos
  have hl0 : l.length ≠ 0 := by omega
  have hs := foldl_numberAdd_rel l h 0 0 0 (le_refl 0) (by simp)
  simp only [zero_add] at hs
  have hd0 : (0 : ℚ) ≤ 1 - unitRoundoff := by norm_num [unitRoundoff]
  have hsum0 : 0 ≤ l.sum := List.sum_nonneg h
  have hf0 : 0 ≤ l.foldl numberAdd 0 :=
    le_trans (mul_nonneg hsum0 (pow_nonneg hd0 _)) hs.1
  obtain ⟨r1, r2⟩ := roundToDouble_rel (div_nonneg hf0 hposq.le)
  refine ⟨numberDiv (l.foldl numberAdd 0) l.length, by simp [average, hl0], ?_, ?_⟩
  · refine le_trans ?_ r1
    rw [pow_succ, ← mul_assoc]
    apply mul_le_mul_of_nonneg_right _ hd0
    rw [div_mul_eq_mul_div]
    exact div_le_div_of_nonneg_right hs.1 hposq.le
  · refine le_trans r2 ?_
    rw [pow_succ, ← mul_assoc]
    apply mul_le_mul_of_nonneg_right _ (by norm_num [unitRoundoff])
    rw [div_mul_eq_mul_div]
    exact div_le_div_of_nonneg_right hs.2 hposq.le

/-- Evaluation of `roundToDouble` at a positive number half-way between two
binary64 numbers: the one with the even significand is taken. -/
theorem roundToDouble_eq_of_tie (x : ℚ) (e n : ℤ) (h1 : (2 : ℚ) ^ e ≤ x)
    (h2 : x < (2 : ℚ) ^ (e + 1)) (h3 : x / 2 ^ (e - 52) = (n : ℚ) + 1 / 2) :
    roundToDouble x = ((if n % 2 = 0 then n else n + 1 : ℤ) : ℚ) * 2 ^ (e - 52) := by
  have hpos : 0 < x := lt_of_lt_of_le (zpow_pos (by norm_num) e) h1
  have habs : |x| = x := abs_of_pos hpos
  rw [roundToDouble_of_bounds x e (by rw [habs]; exact h1) (by rw [habs]; exact h2), h3]
  have hfloor : ⌊(n : ℚ) + 1 / 2⌋ = n := by
    rw [Int.floor_eq_iff]
    constructor <;> norm_num
  have : roundHalfEven ((n : ℚ) + 1 / 2) = if n % 2 = 0 then n else n + 1 := by
    unfold roundHalfEven
    rw [hfloor]
    have e1 : (n : ℚ) + 1 / 2 - (n : ℚ) = 1 / 2 := by ring
    rw [e1]
    simp only [lt_self_iff_false, if_false]
  rw [this]

/-- The fold of `reduce((acc, r) => acc + f(r), 0)` is the fold of `+` over
the values of `f`. -/
theorem foldl_numberAdd_map {α : Type} (f : α → ℚ) (l : List α) (a : ℚ) :
    l.foldl (fun acc r => numberAdd acc (f r)) a = (l.map f).foldl numberAdd a := by
  induction l generalizing a with
  | nil => rfl
  | cons x xs ih => simp [ih]

theorem average_of_ne_nil (l : List ℚ) (h : l ≠ []) :
    average l = some (numberDiv (l.foldl numberAdd 0) l.length) := by
  have : l.length ≠ 0 := fun h0 => h (List.length_eq_zero.mp h0)
  simp only [average, this, if_false]

theorem average_eq_none_iff (l : List ℚ) : average l = none ↔ l = [] := by
  cases l with
  | nil => simp [average]
  | cons x xs => simp [average]

/-! ## Auxiliary facts about lists and the IndexedDB primitives -/

/-- Replacing the records that carry the key of `e` keeps `find?` on the
replacement, when the record found before carried that key. -/
theorem find?_map_replace {α : Type} (p : α → Bool) (key : α → Nat) (l : List α)
    (e r : α) (h : l.find? p = some e) (hk : key e = key r) (hp : p r = true) :
    (l.map (fun x => if key x = key r then r else x)).find? p = some r := by
  induction l with
  | nil => simp at h
  | cons x xs ih =>
    by_cases hx : p x = true
    · have hxe : x = e := by simpa [List.find?, hx] using h
      subst hxe
      simp [List.find?, hk, hp]
    · have hxs : xs.find? p = some e := by simpa [List.find?, hx] using h
      by_cases hkx : key x = key r
      · simp [List.find?, hkx, hp]
      · simp [List.find?, hkx, hx, ih hxs]

/-- Records with another key are found as before. -/
theorem find?_map_replace_other {α : Type} (p : α → Bool) (key : α → Nat) (l : List α)
    (r : α) (hp : p r = false) (hother : ∀ x, key x = key r → p x = false) :
    (l.map (fun x => if key x = key r then r else x)).find? p = l.find? p := by
  induction l with
  | nil => simp
  | cons x xs ih =>
    by_cases hkx : key x = key r
    · simp [List.find?, hkx, hp, hother x hkx, ih]
    · by_cases hx : p x = true
      · simp [List.find?, hkx, hx]
      · simp [List.find?, hkx, hx, ih]

theorem mem_insertByKey {α : Type} (key : α → Nat) (r x : α) (l : List α) :
    x ∈ insertByKey key r l ↔ x = r ∨ x ∈ l := by
  induction l with
  | nil => simp [insertByKey]
  | cons y ys ih =>
    by_cases h : key r < key y
    · simp [insertByKey, h]
    · simp [insertByKey, h, ih]
      tauto

theorem insertByKey_perm {α : Type} (key : α → Nat) (r : α) (l : List α) :
    (insertByKey key r l).Perm (r :: l) := by
  induction l with
  | nil => simp [insertByKey]
  | cons y ys ih =>
    by_cases h : key r < key y
    · simp [insertByKey, h]
    · simp only [insertByKey, h, if_false]
      exact (List.Perm.cons y ih).trans (List.Perm.swap r y ys)

/-- A record whose key exceeds every stored key is stored last. -/
theorem insertByKey_eq_append {α : Type} (key : α → Nat) (r : α) (l : List α)
    (h : ∀ x ∈ l, key x < key r) : insertByKey key r l = l ++ [r] := by
  induction l with
  | nil => simp [insertByKey]
  | cons y ys ih =>
    have hy : ¬ key r < key y := Nat.not_lt.mpr (Nat.le_of_lt (h y (by simp)))
    simp [insertByKey, hy, ih (fun x hx => h x (by simp [hx]))]

theorem find?_insertByKey_of_none {α : Type} (p : α → Bool) (key : α → Nat) (r : α)
    (l : List α) (h : l.find? p = none) (hp : p r = true) :
    (insertByKey key r l).find? p = some r := by
  induction l with
  | nil => simp [insertByKey, List.find?, hp]
  | cons y ys ih =>
    have hy : p y = false := by
      by_cases hy : p y = true
      · simp [List.find?, hy] at h
      · simpa using hy
    have hys : ys.find? p = none := by simpa [List.find?, hy] using h
    by_cases hlt : key r < key y
    · simp [insertByKey, hlt, List.find?, hp]
    · simp [insertByKey, hlt, List.find?, hy, ih hys]

theorem putByKey_of_mem {α : Type} (key : α → Nat) (r e : α) (l : List α)
    (hmem : e ∈ l) (hk : key e = key r) :
    putByKey key r l = l.map (fun x => if key x = key r then r else x) := by
  have : (l.any fun x => decide (key x = key r)) = true := by
    rw [List.any_eq_true]
    exact ⟨e, hmem, by simp [hk]⟩
  simp [putByKey, this]

theorem putByKey_of_find {α : Type} (key : α → Nat) (r e : α) (l : List α) (k : Nat)
    (h : l.find? (fun x => key x = k) = some e) (hk : key r = k) :
    putByKey key r l = l.map (fun x => if key x = key r then r else x) := by
  have hke : key e = k := by simpa using List.find?_some h
  exact putByKey_of_mem key r e l (List.mem_of_find?_eq_some h) (by rw [hke, hk])

/-! ## `updateAlbumRating` on an existing album -/

theorem getAlbum_id (s : Store) (albumId : Nat) (album : Album)
    (h : getAlbum s albumId = some album) : album.id = albumId := by
  have := List.find?_some h
  simpa using this

/-- The store written by `updateAlbumRating` when the album exists: the record
under `albumId` is replaced by the album read, with the non-null arguments
assigned. -/
theorem updateAlbumRating_of_getAlbum (s : Store) (albumId : Nat) (album : Album)
    (manualRating autoRating : Option ℚ) (h : getAlbum s albumId = some album) :
    updateAlbumRating s albumId manualRating autoRating =
      (.ok albumId,
        { s with
          albums := s.albums.map (fun x => if x.id = albumId then
            { album with
              manualRating := if manualRating ≠ none then manualRating else album.manualRating
              autoRating := if autoRating ≠ none then autoRating else album.autoRating }
            else x)
          nextAlbumId := bumpGenerator s.nextAlbumId albumId }) := by
  have hid := getAlbum_id s albumId album h
  have hput : ∀ r : Album, r.id = albumId →
      s.putAlbum r = { s with albums := s.albums.map (fun x => if x.id = albumId then r else x),
                              nextAlbumId := bumpGenerator s.nextAlbumId albumId } := by
    intro r hr
    have := putByKey_of_find Album.id r album s.albums albumId (by simpa [getAlbum] using h) hr
    simp [Store.putAlbum, this, hr]
  unfold updateAlbumRating
  rw [h]
  subst hid
  cases manualRating <;> cases autoRating <;> simp [hput]

theorem getAlbum_map_replace (s : Store) (albumId : Nat) (album r : Album) (next : Nat)
    (h : getAlbum s albumId = some album) (hr : r.id = albumId) :
    getAlbum { s with albums := s.albums.map (fun x => if x.id = albumId then r else x),
                      nextAlbumId := next } albumId = some r := by
  have hid := getAlbum_id s albumId album h
  have := find?_map_replace (fun a : Album => decide (a.id = albumId)) Album.id s.albums album r
    (by simpa [getAlbum] using h) (by rw [hid, hr]) (by simp [hr])
  simpa [getAlbum, hr] using this

theorem getAlbum_map_replace_other (s : Store) (albumId other : Nat) (r : Album) (next : Nat)
    (hr : r.id = albumId) (hne : other ≠ albumId) :
    getAlbum { s with albums := s.albums.map (fun x => if x.id = albumId then r else x),
                      nextAlbumId := next } other = getAlbum s other := by
  have := find?_map_replace_other (fun a : Album => decide (a.id = other)) Album.id s.albums r
    (by simp [hr]; exact fun h => hne h.symm)
    (by intro x hx; simp; rw [hx, hr]; exact fun h => hne h.symm)
  simpa [getAlbum, hr] using this

/-! ## Album auto-rating -/

/-- The mean computed by `calculateAlbumAutoRating` from the rows it reads is
the one that `average` computes from their rating values. -/
theorem calculateAlbumAutoRating_of_rated (s : Store) (userId albumId : Nat) (album : Album)
    (hAlbum : getAlbum s albumId = some album)
    (hRated : getAlbumSongRatings s userId albumId ≠ []) :
    calculateAlbumAutoRating s userId albumId =
      (.ok (average ((getAlbumSongRatings s userId albumId).map SongRating.rating)),
        { s with
          albums := s.albums.map (fun x => if x.id = albumId then
            { album with
              autoRating :=
                average ((getAlbumSongRatings s userId albumId).map SongRating.rating) }
            else x)
          nextAlbumId := bumpGenerator s.nextAlbumId albumId }) := by
  have hlen : (getAlbumSongRatings s userId albumId).length ≠ 0 := by
    simpa [List.length_eq_zero] using hRated
  have hmap : (getAlbumSongRatings s userId albumId).map SongRating.rating ≠ [] := by
    simpa using hRated
  unfold calculateAlbumAutoRating
  simp only [hlen, if_false]
  rw [updateAlbumRating_of_getAlbum s albumId album none _ hAlbum]
  simp [foldl_numberAdd_map, average_of_ne_nil _ hmap]

theorem getAlbumSongRatings_perm (s s2 : Store) (userId albumId : Nat)
    (h : s2.songRatings.Perm s.songRatings) :
    (getAlbumSongRatings s2 userId albumId).Perm (getAlbumSongRatings s userId albumId) := by
  unfold getAlbumSongRatings
  exact (h.filter _).filter _

/-- The value that `calculateAlbumAutoRating` returns for ratings that are
multiples of 0.5 from 0 to 10: their sum is computed without rounding error,
so the result is the binary64 number nearest to their arithmetic mean. -/
theorem calculateAlbumAutoRating_halfSteps (s : Store) (userId albumId : Nat)
    (hAlbum : (getAlbum s albumId).isSome = true)
    (hRated : getAlbumSongRatings s userId albumId ≠ [])
    (hSteps : ∀ r ∈ getAlbumSongRatings s userId albumId, IsHalfStep r.rating)
    (hLen : (getAlbumSongRatings s userId albumId).length < 2 ^ 32) :
    (calculateAlbumAutoRating s userId albumId).1 =
      .ok (some (roundToDouble
        (((getAlbumSongRatings s userId albumId).map SongRating.rating).sum /
          (getAlbumSongRatings s userId albumId).length))) := by
  obtain ⟨album, hAlbum⟩ := Option.isSome_iff_exists.mp hAlbum
  rw [calculateAlbumAutoRating_of_rated s userId albumId album hAlbum hRated]
  have hmap : (getAlbumSongRatings s userId albumId).map SongRating.rating ≠ [] := by
    simpa using hRated
  rw [average_halfSteps _ (by
      intro q hq
      obtain ⟨r, hr, rfl⟩ := List.mem_map.mp hq
      exact hSteps r hr) (by simpa using hLen)]
  simp [meanOf, hmap]

/-- C1: for an existing album with at least one song rating of the user, the
ratings being multiples of 0.5 from 0 to 10 and fewer than `2 ^ 32`,
`calculateAlbumAutoRating` returns the arithmetic mean of the rating values
(their sum divided by their number, not rounded to a decimal place) as a
Number, that is the binary64 number nearest to it, and every store holding the
same rating rows in another order gives the same result. -/
theorem calculateAlbumAutoRating_mean (s : Store) (userId albumId : Nat)
    (hAlbum : (getAlbum s albumId).isSome = true)
    (hRated : getAlbumSongRatings s userId albumId ≠ [])
    (hSteps : ∀ r ∈ getAlbumSongRatings s userId albumId, IsHalfStep r.rating)
    (hLen : (getAlbumSongRatings s userId albumId).length < 2 ^ 32) :
    (calculateAlbumAutoRating s userId albumId).1 =
        .ok (some (roundToDouble
          (((getAlbumSongRatings s userId albumId).map SongRating.rating).sum /
            (getAlbumSongRatings s userId albumId).length))) ∧
      ∀ s2 : Store, s2.songRatings.Perm s.songRatings → (getAlbum s2 albumId).isSome = true →
        (calculateAlbumAutoRating s2 userId albumId).1 =
          (calculateAlbumAutoRating s userId albumId).1 := by
  refine ⟨calculateAlbumAutoRating_halfSteps s userId albumId hAlbum hRated hSteps hLen, ?_⟩
  intro s2 hperm hAlbum2
  have hp := getAlbumSongRatings_perm s s2 userId albumId hperm
  have hRated2 : getAlbumSongRatings s2 userId albumId ≠ [] := by
    intro h0
    rw [h0] at hp
    exact hRated (List.nil_perm.mp hp)
  rw [calculateAlbumAutoRating_halfSteps s userId albumId hAlbum hRated hSteps hLen,
    calculateAlbumAutoRating_halfSteps s2 userId albumId hAlbum2 hRated2
      (fun r hr => hSteps r (hp.mem_iff.mp hr)) (by rw [hp.length_eq]; exact hLen)]
  rw [(hp.map SongRating.rating).sum_eq, hp.length_eq]

/-- The value of `roundToDouble` at 7. -/
theorem roundToDouble_seven : roundToDouble 7 = 7 := by
  simpa using roundToDouble_natCast 7 (by norm_num)

/-- The mean that `average` computes from the single number 7. -/
theorem average_seven : average [7] = some 7 := by
  simp only [average, numberAdd, numberDiv, List.foldl_cons, List.foldl_nil, List.length_cons,
    List.length_nil]
  norm_num [roundToDouble_seven]

theorem getAlbumSongRatings_storeTwoSongs :
    getAlbumSongRatings storeTwoSongs 1 1 =
      [{ id := 1, userId := 1, albumId := 1, trackNumber := 1, rating := 8 },
       { id := 2, userId := 1, albumId := 1, trackNumber := 2, rating := 6 }] := by
  simp [getAlbumSongRatings, storeTwoSongs]

theorem halfSteps_storeTwoSongs :
    ∀ r ∈ getAlbumSongRatings storeTwoSongs 1 1, IsHalfStep r.rating := by
  intro r hr
  rw [getAlbumSongRatings_storeTwoSongs] at hr
  simp only [List.mem_cons, List.mem_singleton, List.not_mem_nil, or_false] at hr
  rcases hr with rfl | rfl <;> norm_num [IsHalfStep]

/-- Witness for C1: songs rated 8 and 6 on album 1 of `storeTwoSongs`, with the
mean 7. -/
theorem calculateAlbumAutoRating_mean_witness :
    (getAlbum storeTwoSongs 1).isSome = true ∧ getAlbumSongRatings storeTwoSongs 1 1 ≠ [] ∧
      (∀ r ∈ getAlbumSongRatings storeTwoSongs 1 1, IsHalfStep r.rating) ∧
      (getAlbumSongRatings storeTwoSongs 1 1).length < 2 ^ 32 ∧
      ((calculateAlbumAutoRating storeTwoSongs 1 1).1 =
          .ok (some (roundToDouble
            (((getAlbumSongRatings storeTwoSongs 1 1).map SongRating.rating).sum /
              (getAlbumSongRatings storeTwoSongs 1 1).length))) ∧
        ∀ s2 : Store, s2.songRatings.Perm storeTwoSongs.songRatings →
          (getAlbum s2 1).isSome = true →
          (calculateAlbumAutoRating s2 1 1).1 = (calculateAlbumAutoRating storeTwoSongs 1 1).1) :=
  ⟨by simp [getAlbum, storeTwoSongs, exampleAlbum],
   by simp [getAlbumSongRatings, storeTwoSongs],
   halfSteps_storeTwoSongs,
   by simp [getAlbumSongRatings_storeTwoSongs],
   calculateAlbumAutoRating_mean storeTwoSongs 1 1
     (by simp [getAlbum, storeTwoSongs, exampleAlbum])
     (by simp [getAlbumSongRatings, storeTwoSongs])
     halfSteps_storeTwoSongs
     (by simp [getAlbumSongRatings_storeTwoSongs])⟩

/-- The scenario of the specification: songs rated 8 and 6 give the mean 7. -/
theorem calculateAlbumAutoRating_storeTwoSongs :
    (calculateAlbumAutoRating storeTwoSongs 1 1).1 = .ok (some 7) := by
  rw [calculateAlbumAutoRating_halfSteps storeTwoSongs 1 1
    (by simp [getAlbum, storeTwoSongs, exampleAlbum])
    (by simp [getAlbumSongRatings, storeTwoSongs])
    halfSteps_storeTwoSongs (by simp [getAlbumSongRatings_storeTwoSongs]),
    getAlbumSongRatings_storeTwoSongs]
  norm_num [roundToDouble_seven]

/-- C2: when the user has no song rating for the album,
`calculateAlbumAutoRating` returns `null` and not the number 0, and it leaves
the store as it was. -/
theorem calculateAlbumAutoRating_unrated (s : Store) (userId albumId : Nat)
    (hNone : getAlbumSongRatings s userId albumId = []) :
    calculateAlbumAutoRating s userId albumId = (.ok none, s) ∧
      (calculateAlbumAutoRating s userId albumId).1 ≠ .ok (some 0) := by
  have h : calculateAlbumAutoRating s userId albumId = (.ok none, s) := by
    simp [calculateAlbumAutoRating, hNone]
  refine ⟨h, ?_⟩
  rw [h]
  simp

/-- Witness for C2: no song rating is stored in `storeStaleAuto`. -/
theorem calculateAlbumAutoRating_unrated_witness :
    getAlbumSongRatings storeStaleAuto 1 1 = [] ∧
      (calculateAlbumAutoRating storeStaleAuto 1 1 = (.ok none, storeStaleAuto) ∧
        (calculateAlbumAutoRating storeStaleAuto 1 1).1 ≠ .ok (some 0)) :=
  ⟨by simp [getAlbumSongRatings, storeStaleAuto],
   calculateAlbumAutoRating_unrated storeStaleAuto 1 1
     (by simp [getAlbumSongRatings, storeStaleAuto])⟩

/-- C3 fails as stated: in `storeStaleAuto` the album exists, the call returns
`null`, and the stored `autoRating` is still 7 afterwards. -/
theorem calculateAlbumAutoRating_null_keeps_autoRating :
    (getAlbum storeStaleAuto 1).isSome = true ∧
      (calculateAlbumAutoRating storeStaleAuto 1 1).1 = .ok none ∧
      (getAlbum (calculateAlbumAutoRating storeStaleAuto 1 1).2 1).map Album.autoRating =
        some (some 7) ∧
      (getAlbum (calculateAlbumAutoRating storeStaleAuto 1 1).2 1).map Album.autoRating ≠
        some none := by
  simp [calculateAlbumAutoRating, getAlbumSongRatings, storeStaleAuto, getAlbum, exampleAlbum]

/-- C3, amended: for an existing album, when the user has at least one song
rating for it the call returns the mean and the stored album's `autoRating`
equals that mean afterwards, whatever it held before; when the user has none
the call returns `null` and writes nothing. -/
theorem calculateAlbumAutoRating_persists (s : Store) (userId albumId : Nat)
    (hAlbum : (getAlbum s albumId).isSome = true) :
    (getAlbumSongRatings s userId albumId ≠ [] →
        ∃ v : ℚ, (calculateAlbumAutoRating s userId albumId).1 = .ok (some v) ∧
          (getAlbum (calculateAlbumAutoRating s userId albumId).2 albumId).map Album.autoRating =
            some (some v)) ∧
      (getAlbumSongRatings s userId albumId = [] →
        calculateAlbumAutoRating s userId albumId = (.ok none, s)) := by
  obtain ⟨album, hAlbum⟩ := Option.isSome_iff_exists.mp hAlbum
  refine ⟨fun hRated => ?_, fun hNone => by simp [calculateAlbumAutoRating, hNone]⟩
  rw [calculateAlbumAutoRating_of_rated s userId albumId album hAlbum hRated]
  have hmap : (getAlbumSongRatings s userId albumId).map SongRating.rating ≠ [] := by
    simpa using hRated
  rw [average_of_ne_nil _ hmap]
  generalize numberDiv (((getAlbumSongRatings s userId albumId).map SongRating.rating).foldl
    numberAdd 0) (((getAlbumSongRatings s userId albumId).map SongRating.rating).length : ℚ) = v
  refine ⟨v, rfl, ?_⟩
  have key := getAlbum_map_replace s albumId album { album with autoRating := some v }
    (bumpGenerator s.nextAlbumId albumId) hAlbum (getAlbum_id s albumId album hAlbum)
  simp only
  rw [key]
  rfl

/-- Witness for C3: both cases, on `storeTwoSongs` and on `storeStaleAuto`. -/
theorem calculateAlbumAutoRating_persists_witness :
    (getAlbum storeTwoSongs 1).isSome = true ∧ getAlbumSongRatings storeTwoSongs 1 1 ≠ [] ∧
      (∃ v : ℚ, (calculateAlbumAutoRating storeTwoSongs 1 1).1 = .ok (some v) ∧
        (getAlbum (calculateAlbumAutoRating storeTwoSongs 1 1).2 1).map Album.autoRating =
          some (some v)) ∧
      (getAlbum storeStaleAuto 1).isSome = true ∧ getAlbumSongRatings storeStaleAuto 1 1 = [] ∧
      calculateAlbumAutoRating storeStaleAuto 1 1 = (.ok none, storeStaleAuto) :=
  ⟨by simp [getAlbum, storeTwoSongs, exampleAlbum],
   by simp [getAlbumSongRatings, storeTwoSongs],
   (calculateAlbumAutoRating_persists storeTwoSongs 1 1
     (by simp [getAlbum, storeTwoSongs, exampleAlbum])).1
     (by simp [getAlbumSongRatings, storeTwoSongs]),
   by simp [getAlbum, storeStaleAuto, exampleAlbum],
   by simp [getAlbumSongRatings, storeStaleAuto],
   (calculateAlbumAutoRating_persists storeStaleAuto 1 1
     (by simp [getAlbum, storeStaleAuto, exampleAlbum])).2
     (by simp [getAlbumSongRatings, storeStaleAuto])⟩

/-! ## Prevalence -/

/-- C4: at the album card, the album detail and the artist card, a non-null
manual rating is the prevalent rating whatever the automatic rating is (manual
0 against automatic 9 gives 0); with a null manual rating the prevalent rating
is the automatic one, and with both null the entity is unrated. -/
theorem prevalent_manual_wins (album : Album) (artist : Artist) (m : ℚ) (auto : Option ℚ) :
    (LibraryView.displayRating { album with manualRating := some m, autoRating := auto } = some m ∧
      AlbumDetail.prevalentRating { album with manualRating := some m, autoRating := auto } =
        some m ∧
      ArtistsView.displayRating { artist with manualRating := some m, autoRating := auto } =
        some m) ∧
    (LibraryView.displayRating { album with manualRating := some 0, autoRating := some 9 } =
        some 0 ∧
      AlbumDetail.prevalentRating { album with manualRating := some 0, autoRating := some 9 } =
        some 0 ∧
      ArtistsView.displayRating { artist with manualRating := some 0, autoRating := some 9 } =
        some 0) ∧
    (LibraryView.displayRating { album with manualRating := none, autoRating := auto } = auto ∧
      AlbumDetail.prevalentRating { album with manualRating := none, autoRating := auto } = auto ∧
      ArtistsView.displayRating { artist with manualRating := none, autoRating := auto } = auto) ∧
    (LibraryView.displayRating { album with manualRating := none, autoRating := none } = none ∧
      AlbumDetail.prevalentRating { album with manualRating := none, autoRating := none } = none ∧
      ArtistsView.displayRating { artist with manualRating := none, autoRating := none } =
        none) := by
  refine ⟨⟨?_, ?_, ?_⟩, ⟨?_, ?_, ?_⟩, ⟨?_, ?_, ?_⟩, ⟨?_, ?_, ?_⟩⟩ <;>
    cases auto <;>
    simp [LibraryView.displayRating, AlbumDetail.prevalentRating, ArtistsView.displayRating]

/-- C5: when at least one of `manualRating` and `autoRating` is non-null, every
site that resolves prevalence computes the same value, the one of
`resolvePrevalent`: the rating sort keys of the library and of the artists
view, the two card displays, the album detail, the per-album mappings of the
artists view, of the favorites computation and of
`calculateArtistAutoRating`. -/
theorem prevalence_sites_agree (manual auto : Option ℚ) (album : Album) (artist : Artist)
    (h : manual ≠ none ∨ auto ≠ none) :
    some (LibraryView.ratingSortKey { album with manualRating := manual, autoRating := auto }) =
        resolvePrevalent manual auto ∧
      LibraryView.displayRating { album with manualRating := manual, autoRating := auto } =
        resolvePrevalent manual auto ∧
      AlbumDetail.prevalentRating { album with manualRating := manual, autoRating := auto } =
        resolvePrevalent manual auto ∧
      some (ArtistsView.ratingSortKey { artist with manualRating := manual, autoRating := auto }) =
        resolvePrevalent manual auto ∧
      ArtistsView.displayRating { artist with manualRating := manual, autoRating := auto } =
        resolvePrevalent manual auto ∧
      ArtistsView.albumRating { album with manualRating := manual, autoRating := auto } =
        resolvePrevalent manual auto ∧
      HistoryView.albumRating { album with manualRating := manual, autoRating := auto } =
        resolvePrevalent manual auto ∧
      HistoryView.artistAlbumRating { album with manualRating := manual, autoRating := auto } =
        resolvePrevalent manual auto ∧
      artistAlbumRating { album with manualRating := manual, autoRating := auto } =
        resolvePrevalent manual auto := by
  cases manual with
  | some m =>
    simp [LibraryView.ratingSortKey, LibraryView.displayRating, AlbumDetail.prevalentRating,
      ArtistsView.ratingSortKey, ArtistsView.displayRating, ArtistsView.albumRating,
      HistoryView.albumRating, HistoryView.artistAlbumRating, artistAlbumRating, resolvePrevalent]
  | none =>
    cases auto with
    | none => simp at h
    | some a =>
      by_cases ha : a = 0 <;>
      simp [LibraryView.ratingSortKey, LibraryView.displayRating, AlbumDetail.prevalentRating,
        ArtistsView.ratingSortKey, ArtistsView.displayRating, ArtistsView.albumRating,
        HistoryView.albumRating, HistoryView.artistAlbumRating, artistAlbumRating,
        resolvePrevalent, orZero, ha]

/-- Witness for C5: a null manual rating and the automatic rating 0. -/
theorem prevalence_sites_agree_witness :
    ((none : Option ℚ) ≠ none ∨ (some 0 : Option ℚ) ≠ none) ∧
      some (LibraryView.ratingSortKey
        { exampleAlbum 1 1 "m1" "X" none none with manualRating := none, autoRating := some 0 }) =
        resolvePrevalent none (some 0) :=
  ⟨Or.inr (by simp),
   (prevalence_sites_agree none (some 0) (exampleAlbum 1 1 "m1" "X" none none)
     { name := "X", albums := [], autoRating := none, manualRating := none, imageUrl := none }
     (Or.inr (by simp))).1⟩

/-! ## Artist auto-rating -/

theorem updateArtistAutoRating_of_none (s : Store) (userId : Nat) (artistName : String)
    (autoRating : Option ℚ) (h : getArtistRating s userId artistName = none) :
    updateArtistAutoRating s userId artistName autoRating =
      (.ok s.nextArtistRatingId,
        { s with
          artistRatings := insertByKey ArtistRating.id
            { id := s.nextArtistRatingId, userId := userId, artistName := artistName,
              manualRating := none, autoRating := autoRating } s.artistRatings
          nextArtistRatingId := s.nextArtistRatingId + 1 }) := by
  have hany : (s.artistRatings.any
      fun r => decide (r.userId = userId ∧ r.artistName = artistName)) = false := by
    have hfind : s.artistRatings.find?
        (fun r => decide (r.userId = userId ∧ r.artistName = artistName)) = none := h
    rw [List.any_eq_false]
    intro x hx
    have := List.find?_eq_none.mp hfind x hx
    simpa using this
  unfold updateArtistAutoRating
  rw [h]
  simp only [hany]
  rfl

theorem updateArtistAutoRating_of_some (s : Store) (userId : Nat) (artistName : String)
    (autoRating : Option ℚ) (e : ArtistRating) (h : getArtistRating s userId artistName = some e) :
    updateArtistAutoRating s userId artistName autoRating =
      (.ok e.id,
        { s with
          artistRatings := s.artistRatings.map (fun x =>
            if x.id = e.id then { e with autoRating := autoRating } else x)
          nextArtistRatingId := bumpGenerator s.nextArtistRatingId e.id }) := by
  have hmem : e ∈ s.artistRatings :=
    List.mem_of_find?_eq_some (by simpa [getArtistRating] using h)
  have hput := putByKey_of_mem ArtistRating.id { e with autoRating := autoRating } e
    s.artistRatings hmem rfl
  unfold updateArtistAutoRating
  rw [h]
  simp only [Store.putArtistRating, hput]

/-- The write of `updateArtistAutoRating` always succeeds, and afterwards the row
of the pair carries the automatic rating written; a row that was there keeps
its other fields, a row created has a null manual rating. -/
theorem getArtistRating_updateArtistAutoRating (s : Store) (userId : Nat) (artistName : String)
    (autoRating : Option ℚ) :
    ∃ (k : Nat) (row : ArtistRating),
      (updateArtistAutoRating s userId artistName autoRating).1 = .ok k ∧
      getArtistRating (updateArtistAutoRating s userId artistName autoRating).2 userId artistName =
        some row ∧
      row.autoRating = autoRating ∧
      (getArtistRating s userId artistName = none → row.manualRating = none) ∧
      (∀ e, getArtistRating s userId artistName = some e →
        row = { e with autoRating := autoRating }) := by
  cases h : getArtistRating s userId artistName with
  | none =>
    have hfind : s.artistRatings.find?
        (fun r => decide (r.userId = userId ∧ r.artistName = artistName)) = none := by
      simpa [getArtistRating] using h
    rw [updateArtistAutoRating_of_none s userId artistName autoRating h]
    refine ⟨s.nextArtistRatingId,
      { id := s.nextArtistRatingId, userId := userId, artistName := artistName,
        manualRating := none, autoRating := autoRating }, rfl, ?_, rfl, fun _ => rfl, ?_⟩
    · exact find?_insertByKey_of_none _ ArtistRating.id _ s.artistRatings hfind (by simp)
    · intro e he
      simp at he
  | some e =>
    have hfind : s.artistRatings.find?
        (fun r => decide (r.userId = userId ∧ r.artistName = artistName)) = some e := by
      simpa [getArtistRating] using h
    have hp : e.userId = userId ∧ e.artistName = artistName := by
      simpa using List.find?_some hfind
    rw [updateArtistAutoRating_of_some s userId artistName autoRating e h]
    refine ⟨e.id, { e with autoRating := autoRating }, rfl, ?_, rfl, ?_, ?_⟩
    · exact find?_map_replace _ ArtistRating.id s.artistRatings e
        { e with autoRating := autoRating } hfind rfl (by simp [hp])
    · intro h0
      simp at h0
    · intro e2 he2
      simp at he2
      rw [he2]

/-- The outcome of `calculateArtistAutoRating` in terms of the rated albums of
the artist: nothing is written when there is none, and otherwise the mean that
`average` computes from their prevalent ratings is written with
`updateArtistAutoRating`. -/
theorem calculateArtistAutoRating_eq (s : Store) (userId : Nat) (artistName : String) :
    calculateArtistAutoRating s userId artistName =
      if ((s.albums.filter (fun a => a.userId = userId ∧ a.artist = artistName)).filterMap
            (fun a => resolvePrevalent a.manualRating a.autoRating)) = [] then (.ok none, s)
      else
        (.ok (average
          ((s.albums.filter (fun a => a.userId = userId ∧ a.artist = artistName)).filterMap
              (fun a => resolvePrevalent a.manualRating a.autoRating))),
          (updateArtistAutoRating s userId artistName (average
            ((s.albums.filter (fun a => a.userId = userId ∧ a.artist = artistName)).filterMap
              (fun a => resolvePrevalent a.manualRating a.autoRating)))).2) := by
  have hfun : artistAlbumRating = fun a => resolvePrevalent a.manualRating a.autoRating := by
    funext a
    cases hm : a.manualRating <;> simp [artistAlbumRating, resolvePrevalent, hm]
  have hfilter : (getUserAlbums s userId).filter (fun a => decide (a.artist = artistName)) =
      s.albums.filter (fun a => decide (a.userId = userId ∧ a.artist = artistName)) := by
    simp [getUserAlbums, List.filter_filter, Bool.and_comm]
  have hmap : ∀ l : List Album, (l.map artistAlbumRating).filterMap id =
      l.filterMap (fun a => resolvePrevalent a.manualRating a.autoRating) := by
    intro l
    rw [List.filterMap_map, hfun]
    rfl
  have hadd : (fun acc r => numberAdd acc r) = numberAdd := rfl
  unfold calculateArtistAutoRating
  simp only [hfilter, hmap, hadd]
  generalize (s.albums.filter (fun a => decide (a.userId = userId ∧ a.artist = artistName)))
    = albums
  by_cases h0 : albums.length = 0
  · have : albums = [] := List.length_eq_zero.mp h0
    subst this
    simp
  · simp only [h0, if_false]
    generalize albums.filterMap (fun a => resolvePrevalent a.manualRating a.autoRating) = ratings
    by_cases h1 : ratings.length = 0
    · have : ratings = [] := List.length_eq_zero.mp h1
      subst this
      simp
    · have hne : ratings ≠ [] := fun h => h1 (by simp [h])
      simp only [h1, if_false, hne, average_of_ne_nil ratings hne]
      obtain ⟨k, row, hk, _⟩ := getArtistRating_updateArtistAutoRating s userId artistName
        (some (numberDiv (ratings.foldl numberAdd 0) ratings.length))
      generalize updateArtistAutoRating s userId artistName
        (some (numberDiv (ratings.foldl numberAdd 0) ratings.length)) = out at hk
      obtain ⟨res, s1⟩ := out
      simp only at hk
      subst hk
      rfl

/-- The value returned by `calculateArtistAutoRating` is the one that `average`
computes from the non-null prevalent ratings of the artist's albums. -/
theorem calculateArtistAutoRating_average (s : Store) (userId : Nat) (artistName : String) :
    (calculateArtistAutoRating s userId artistName).1 =
      .ok (average
        ((s.albums.filter (fun a => a.userId = userId ∧ a.artist = artistName)).filterMap
          (fun a => resolvePrevalent a.manualRating a.autoRating))) := by
  rw [calculateArtistAutoRating_eq]
  split
  · next h => rw [h]; rfl
  · rfl

/-- The Number 5.4 is a binary64 number. -/
theorem roundToDouble_fivePointFour : roundToDouble fivePointFour = fivePointFour := by
  unfold fivePointFour
  rw [roundToDouble_eq_of_pos _ 2 6079859496950170 (by norm_num) (by norm_num) (by norm_num)
    (by norm_num)]
  norm_num

/-- The Number 5.4 is the binary64 number nearest to 27/5. -/
theorem roundToDouble_27_5 : roundToDouble (27 / 5) = fivePointFour := by
  unfold fivePointFour
  rw [roundToDouble_eq_of_pos _ 2 6079859496950170 (by norm_num) (by norm_num) (by norm_num)
    (by norm_num)]
  norm_num

/-- The mean that `average` computes from three numbers 5.4 is the binary64
number next above 5.4: the sum of three is half-way between two binary64
numbers and is rounded up, and so is the quotient. -/
theorem average_three_fivePointFour :
    average [fivePointFour, fivePointFour, fivePointFour] =
      some (fivePointFour + 1 / 2 ^ 50) := by
  have h1 : roundToDouble (3039929748475085 / 562949953421312) =
      3039929748475085 / 562949953421312 := roundToDouble_fivePointFour
  have h2 : roundToDouble (3039929748475085 / 281474976710656) =
      3039929748475085 / 281474976710656 := by
    rw [roundToDouble_eq_of_pos _ 3 6079859496950170 (by norm_num) (by norm_num) (by norm_num)
      (by norm_num)]
    norm_num
  have h3 : roundToDouble (9119789245425255 / 562949953421312) =
      1139973655678157 / 70368744177664 := by
    rw [roundToDouble_eq_of_tie _ 4 4559894622712627 (by norm_num) (by norm_num) (by norm_num)]
    norm_num
  have h4 : roundToDouble (1139973655678157 / 211106232532992) =
      6079859496950171 / 1125899906842624 := by
    rw [roundToDouble_eq_of_pos _ 2 6079859496950171 (by norm_num) (by norm_num) (by norm_num)
      (by norm_num)]
    norm_num
  simp only [average, numberAdd, numberDiv, fivePointFour, List.foldl_cons, List.foldl_nil,
    List.length_cons, List.length_nil]
  norm_num [h1, h2, h3, h4]

/-- The prevalent ratings of the albums of artist `X` in `storeThreeAlbums`. -/
theorem rated_storeThreeAlbums :
    (storeThreeAlbums.albums.filter (fun a => a.userId = 1 ∧ a.artist = "X")).filterMap
        (fun a => resolvePrevalent a.manualRating a.autoRating) =
      [fivePointFour, fivePointFour, fivePointFour] := by
  simp [storeThreeAlbums, exampleAlbum, resolvePrevalent]

/-- The ratings of `storeFiveSongs`: 5, 5, 5.5, 5.5 and 6. -/
theorem getAlbumSongRatings_storeFiveSongs :
    (getAlbumSongRatings storeFiveSongs 1 1).map SongRating.rating =
      [5, 5, 11 / 2, 11 / 2, 6] := by
  simp [getAlbumSongRatings, storeFiveSongs]

/-- Songs rated 5, 5, 5.5, 5.5 and 6 give an album the automatic rating 5.4. -/
theorem calculateAlbumAutoRating_storeFiveSongs :
    (calculateAlbumAutoRating storeFiveSongs 1 1).1 = .ok (some fivePointFour) := by
  have hval : ∀ r ∈ getAlbumSongRatings storeFiveSongs 1 1, IsHalfStep r.rating := by
    intro r hr
    have : r.rating ∈ (getAlbumSongRatings storeFiveSongs 1 1).map SongRating.rating :=
      List.mem_map_of_mem _ hr
    rw [getAlbumSongRatings_storeFiveSongs] at this
    simp only [List.mem_cons, List.mem_singleton, List.not_mem_nil, or_false] at this
    rcases this with h | h | h | h | h <;> rw [h] <;> norm_num [IsHalfStep]
  have hlen : (getAlbumSongRatings storeFiveSongs 1 1).length = 5 := by
    simp [getAlbumSongRatings, storeFiveSongs]
  rw [calculateAlbumAutoRating_halfSteps storeFiveSongs 1 1
    (by simp [getAlbum, storeFiveSongs, exampleAlbum])
    (by simp [getAlbumSongRatings, storeFiveSongs]) hval (by rw [hlen]; norm_num),
    getAlbumSongRatings_storeFiveSongs, hlen, ← roundToDouble_27_5]
  norm_num

/-- C6 fails as stated: each of the three albums of artist `X` in
`storeThreeAlbums` has the prevalent rating 5.4, the automatic rating that
songs rated 5, 5, 5.5, 5.5 and 6 give an album; the arithmetic mean of the
three ratings is the binary64 number 5.4, and `calculateArtistAutoRating`
returns the next binary64 number above it, 5.400000000000001. -/
theorem calculateArtistAutoRating_not_mean :
    (calculateAlbumAutoRating storeFiveSongs 1 1).1 = .ok (some fivePointFour) ∧
      meanOf ((storeThreeAlbums.albums.filter (fun a => a.userId = 1 ∧ a.artist = "X")).filterMap
        (fun a => resolvePrevalent a.manualRating a.autoRating)) = some fivePointFour ∧
      roundToDouble fivePointFour = fivePointFour ∧
      (calculateArtistAutoRating storeThreeAlbums 1 "X").1 =
        .ok (some (fivePointFour + 1 / 2 ^ 50)) ∧
      (calculateArtistAutoRating storeThreeAlbums 1 "X").1 ≠ .ok (some fivePointFour) := by
  have hcalc : (calculateArtistAutoRating storeThreeAlbums 1 "X").1 =
      .ok (some (fivePointFour + 1 / 2 ^ 50)) := by
    rw [calculateArtistAutoRating_average, rated_storeThreeAlbums, average_three_fivePointFour]
  refine ⟨calculateAlbumAutoRating_storeFiveSongs, ?_, roundToDouble_fivePointFour, hcalc, ?_⟩
  · rw [rated_storeThreeAlbums]
    simp only [meanOf, List.cons_ne_nil, if_false, List.sum_cons, List.sum_nil,
      List.length_cons, List.length_nil, fivePointFour]
    norm_num
  · rw [hcalc]
    simp

/-- C6, amended: `calculateArtistAutoRating` returns the mean that binary64
arithmetic computes (the ratings added one by one from 0 in store order and
the sum divided by their number, each result rounded to the nearest binary64
number) from the prevalent ratings (manual if non-null, else automatic) of
exactly the user's albums whose artist string equals the name and whose
prevalent rating is not null, and `null` exactly when there is no such album.
When these ratings are multiples of 0.5 from 0 to 10 the result is the binary64
number nearest to their arithmetic mean; when they are numbers from 0.5 to 10
(the ratings of the widget and their means) it is within the factors
`(1 - 2 ^ (-53)) ^ (n + 1)` and `(1 + 2 ^ (-53)) ^ (n + 1)` of the arithmetic
mean of the `n` ratings.  Albums with prevalent ratings 7 and `null` give 7. -/
theorem calculateArtistAutoRating_computed_mean (s : Store) (userId : Nat)
    (artistName : String) :
    (calculateArtistAutoRating s userId artistName).1 =
        .ok (average
          ((s.albums.filter (fun a => a.userId = userId ∧ a.artist = artistName)).filterMap
            (fun a => resolvePrevalent a.manualRating a.autoRating))) ∧
      ((calculateArtistAutoRating s userId artistName).1 = .ok none ↔
        (s.albums.filter (fun a => a.userId = userId ∧ a.artist = artistName)).filterMap
          (fun a => resolvePrevalent a.manualRating a.autoRating) = []) ∧
      ((∀ q ∈ (s.albums.filter (fun a => a.userId = userId ∧ a.artist = artistName)).filterMap
            (fun a => resolvePrevalent a.manualRating a.autoRating), IsHalfStep q) →
        ((s.albums.filter (fun a => a.userId = userId ∧ a.artist = artistName)).filterMap
            (fun a => resolvePrevalent a.manualRating a.autoRating)).length < 2 ^ 32 →
        (calculateArtistAutoRating s userId artistName).1 =
          .ok ((meanOf
            ((s.albums.filter (fun a => a.userId = userId ∧ a.artist = artistName)).filterMap
              (fun a => resolvePrevalent a.manualRating a.autoRating))).map roundToDouble)) ∧
      ((∀ q ∈ (s.albums.filter (fun a => a.userId = userId ∧ a.artist = artistName)).filterMap
            (fun a => resolvePrevalent a.manualRating a.autoRating), 1 / 2 ≤ q ∧ q ≤ 10) →
        ((s.albums.filter (fun a => a.userId = userId ∧ a.artist = artistName)).filterMap
            (fun a => resolvePrevalent a.manualRating a.autoRating)).length < 2 ^ 32 →
        ∀ v m : ℚ, (calculateArtistAutoRating s userId artistName).1 = .ok (some v) →
          meanOf
            ((s.albums.filter (fun a => a.userId = userId ∧ a.artist = artistName)).filterMap
              (fun a => resolvePrevalent a.manualRating a.autoRating)) = some m →
          m * (1 - unitRoundoff) ^
              (((s.albums.filter (fun a => a.userId = userId ∧ a.artist = artistName)).filterMap
                (fun a => resolvePrevalent a.manualRating a.autoRating)).length + 1) ≤ v ∧
            v ≤ m * (1 + unitRoundoff) ^
              (((s.albums.filter (fun a => a.userId = userId ∧ a.artist = artistName)).filterMap
                (fun a => resolvePrevalent a.manualRating a.autoRating)).length + 1)) ∧
      (calculateArtistAutoRating storeArtistX 1 "X").1 = .ok (some 7) := by
  rw [calculateArtistAutoRating_average]
  generalize (s.albums.filter (fun a => a.userId = userId ∧ a.artist = artistName)).filterMap
    (fun a => resolvePrevalent a.manualRating a.autoRating) = ratings
  refine ⟨rfl, ?_, ?_, ?_, ?_⟩
  · simp only [Except.ok.injEq]
    exact average_eq_none_iff ratings
  · intro hSteps hLen
    rw [average_halfSteps ratings hSteps hLen]
  · intro hrange _ v m hv hm
    simp only [Except.ok.injEq] at hv
    have hne : ratings ≠ [] := by
      intro h0
      rw [h0] at hv
      simp [average] at hv
    obtain ⟨v2, hv2, hlo, hhi⟩ := average_rel ratings hne
      (fun q hq => le_trans (by norm_num) (hrange q hq).1)
    rw [hv] at hv2
    simp only [Option.some.injEq] at hv2
    simp only [meanOf, hne, if_false, Option.some.injEq] at hm
    rw [← hm, hv2]
    exact ⟨hlo, hhi⟩
  · rw [calculateArtistAutoRating_average]
    have : (storeArtistX.albums.filter (fun a => a.userId = 1 ∧ a.artist = "X")).filterMap
        (fun a => resolvePrevalent a.manualRating a.autoRating) = [7] := by
      simp [storeArtistX, exampleAlbum, resolvePrevalent]
    rw [this, average_seven]

/-- C7 fails as stated: on `storeTwoSongs`, whose only album of artist `X` is
unrated, the call returns `null` and no artist rating row exists afterwards. -/
theorem calculateArtistAutoRating_null_writes_no_row :
    (calculateArtistAutoRating storeTwoSongs 1 "X").1 = .ok none ∧
      getArtistRating (calculateArtistAutoRating storeTwoSongs 1 "X").2 1 "X" = none := by
  rw [calculateArtistAutoRating_eq]
  simp [storeTwoSongs, exampleAlbum, resolvePrevalent, getArtistRating]

/-- C7, amended: when `calculateArtistAutoRating` returns a number `v`, the row
of `(userId, artistName)` exists afterwards with `autoRating` equal to `v`, a
row that existed keeps its other fields, and a row created because none
existed has a null `manualRating`; when it returns `null` nothing is written. -/
theorem calculateArtistAutoRating_persists (s : Store) (userId : Nat) (artistName : String) :
    (∀ v : ℚ, (calculateArtistAutoRating s userId artistName).1 = .ok (some v) →
        ∃ row : ArtistRating,
          getArtistRating (calculateArtistAutoRating s userId artistName).2 userId artistName =
            some row ∧
          row.autoRating = some v ∧
          (getArtistRating s userId artistName = none → row.manualRating = none) ∧
          (∀ e, getArtistRating s userId artistName = some e →
            row = { e with autoRating := some v })) ∧
      ((calculateArtistAutoRating s userId artistName).1 = .ok none →
        (calculateArtistAutoRating s userId artistName).2 = s) := by
  rw [calculateArtistAutoRating_eq]
  split
  · refine ⟨fun v hv => ?_, fun _ => rfl⟩
    simp at hv
  · next hne =>
    refine ⟨fun v hv => ?_, fun h => ?_⟩
    · simp only [Except.ok.injEq] at hv
      rw [hv]
      obtain ⟨_, row, _, hrow, hauto, hnew, hold⟩ :=
        getArtistRating_updateArtistAutoRating s userId artistName (some v)
      exact ⟨row, hrow, hauto, hnew, hold⟩
    · simp only [Except.ok.injEq] at h
      exact absurd ((average_eq_none_iff _).mp h) hne

/-- Witness for C7: the call on `storeArtistX` returns 7 and creates the row;
the call on `storeTwoSongs` returns `null` and writes nothing. -/
theorem calculateArtistAutoRating_persists_witness :
    (calculateArtistAutoRating storeArtistX 1 "X").1 = .ok (some 7) ∧
      (∃ row : ArtistRating,
        getArtistRating (calculateArtistAutoRating storeArtistX 1 "X").2 1 "X" = some row ∧
        row.autoRating = some 7 ∧
        (getArtistRating storeArtistX 1 "X" = none → row.manualRating = none) ∧
        (∀ e, getArtistRating storeArtistX 1 "X" = some e →
          row = { e with autoRating := some 7 })) ∧
      (calculateArtistAutoRating storeTwoSongs 1 "X").1 = .ok none ∧
      (calculateArtistAutoRating storeTwoSongs 1 "X").2 = storeTwoSongs :=
  have h7 : (calculateArtistAutoRating storeArtistX 1 "X").1 = .ok (some 7) := by
    rw [calculateArtistAutoRating_eq]
    simp [storeArtistX, exampleAlbum, resolvePrevalent, average_seven]
  have h0 : (calculateArtistAutoRating storeTwoSongs 1 "X").1 = .ok none := by
    rw [calculateArtistAutoRating_eq]
    simp [storeTwoSongs, exampleAlbum, resolvePrevalent]
  ⟨h7, (calculateArtistAutoRating_persists storeArtistX 1 "X").1 7 h7,
   h0, (calculateArtistAutoRating_persists storeTwoSongs 1 "X").2 h0⟩

/-! ## Song rating upsert -/

theorem bumpGenerator_of_lt (next key : Nat) (h : key < next) : bumpGenerator next key = next := by
  simp [bumpGenerator, Nat.not_le.mpr h]

/-- With one row per key, the index lookup of a stored row's key finds that row. -/
theorem find?_songKey (s : Store) (hKeys : s.uniqueSongKeys) (row : SongRating)
    (hmem : row ∈ s.songRatings) :
    s.songRatings.find? (fun r => decide (r.userId = row.userId ∧ r.albumId = row.albumId ∧
      r.trackNumber = row.trackNumber)) = some row := by
  cases h : s.songRatings.find? (fun r => decide (r.userId = row.userId ∧
      r.albumId = row.albumId ∧ r.trackNumber = row.trackNumber)) with
  | none =>
    have := List.find?_eq_none.mp h row hmem
    simp at this
  | some e =>
    have he : e ∈ s.songRatings := List.mem_of_find?_eq_some h
    have hp : e.userId = row.userId ∧ e.albumId = row.albumId ∧
        e.trackNumber = row.trackNumber := by
      simpa using List.find?_some h
    have hkey : SongRating.key e = SongRating.key row := by
      simp [SongRating.key, hp.1, hp.2.1, hp.2.2]
    rw [List.inj_on_of_nodup_map hKeys he hmem hkey]

/-- With distinct primary keys, `store.get` of a stored row's key finds that row. -/
theorem find?_songId (s : Store) (hIds : s.songIdsGenerated) (row : SongRating)
    (hmem : row ∈ s.songRatings) :
    s.songRatings.find? (fun r => decide (r.id = row.id)) = some row := by
  cases h : s.songRatings.find? (fun r => decide (r.id = row.id)) with
  | none =>
    have := List.find?_eq_none.mp h row hmem
    simp at this
  | some e =>
    have he : e ∈ s.songRatings := List.mem_of_find?_eq_some h
    have hp : e.id = row.id := by simpa using List.find?_some h
    rw [List.inj_on_of_nodup_map hIds.1 he hmem hp]

theorem map_replace_by_id (s : Store) (hIds : s.songIdsGenerated) (row r2 : SongRating)
    (hmem : row ∈ s.songRatings) :
    s.songRatings.map (fun r => if r.id = row.id then r2 else r) =
      s.songRatings.map (fun r => if r = row then r2 else r) := by
  apply List.map_congr_left
  intro r hr
  by_cases h : r = row
  · simp [h]
  · have : r.id ≠ row.id := fun hid => h (List.inj_on_of_nodup_map hIds.1 hr hmem hid)
    simp [h, this]

/-- The update branch of `setSongRating`: the row stored under the key keeps its
`id` and gets the new rating, and the store is otherwise the same. -/
theorem setSongRating_existing (s : Store) (hKeys : s.uniqueSongKeys)
    (hIds : s.songIdsGenerated) (row : SongRating) (rating : ℚ) (hmem : row ∈ s.songRatings) :
    setSongRating s row.userId row.albumId row.trackNumber rating =
      (.ok row.id,
        { s with
          songRatings :=
            s.songRatings.map (fun r => if r = row then { row with rating := rating } else r) }) := by
  have hk := find?_songKey s hKeys row hmem
  have hi := find?_songId s hIds row hmem
  have hpos : row.id ≠ 0 := Nat.pos_iff_ne_zero.mp (hIds.2.2 row hmem).1
  have hput := putByKey_of_mem SongRating.id { row with rating := rating } row
    s.songRatings hmem rfl
  have hrep := map_replace_by_id s hIds row { row with rating := rating } hmem
  have hbump := bumpGenerator_of_lt s.nextSongRatingId row.id (hIds.2.2 row hmem).2
  unfold setSongRating
  simp only [hk, Option.map_some', hi, Store.putSongRating, hput]
  simp only [ne_eq, hpos, not_false_eq_true, if_true, hbump]
  rw [← hrep]

/-- The insert branch of `setSongRating`: one row with the next generated key
is added after the stored rows. -/
theorem setSongRating_new (s : Store) (hIds : s.songIdsGenerated)
    (userId albumId trackNumber : Nat) (rating : ℚ)
    (hnew : ∀ row ∈ s.songRatings, SongRating.key row ≠ (userId, albumId, trackNumber)) :
    setSongRating s userId albumId trackNumber rating =
      (.ok s.nextSongRatingId,
        { s with
          songRatings := s.songRatings ++
            [{ id := s.nextSongRatingId, userId := userId, albumId := albumId,
               trackNumber := trackNumber, rating := rating }]
          nextSongRatingId := s.nextSongRatingId + 1 }) := by
  have hp : ∀ x ∈ s.songRatings, ¬ (x.userId = userId ∧ x.albumId = albumId ∧
      x.trackNumber = trackNumber) := by
    intro x hx hxp
    exact hnew x hx (by simp [SongRating.key, hxp.1, hxp.2.1, hxp.2.2])
  have hfind : s.songRatings.find? (fun r => decide (r.userId = userId ∧ r.albumId = albumId ∧
      r.trackNumber = trackNumber)) = none := by
    rw [List.find?_eq_none]
    intro x hx
    simpa using hp x hx
  have hany : (s.songRatings.any (fun r => decide (r.userId = userId ∧ r.albumId = albumId ∧
      r.trackNumber = trackNumber))) = false := by
    rw [List.any_eq_false]
    intro x hx
    simpa using hp x hx
  have happ := insertByKey_eq_append SongRating.id
    { id := s.nextSongRatingId, userId := userId, albumId := albumId,
      trackNumber := trackNumber, rating := rating } s.songRatings
    (fun x hx => (hIds.2.2 x hx).2)
  unfold setSongRating
  simp only [hfind, Option.map_none', hany, happ]
  rfl

/-- One call of `setSongRating` keeps the `songRatings` store well formed. -/
theorem setSongRating_preserves (s : Store) (hKeys : s.uniqueSongKeys)
    (hIds : s.songIdsGenerated) (userId albumId trackNumber : Nat) (rating : ℚ) :
    (setSongRating s userId albumId trackNumber rating).2.uniqueSongKeys ∧
      (setSongRating s userId albumId trackNumber rating).2.songIdsGenerated := by
  by_cases hex : ∃ row ∈ s.songRatings, SongRating.key row = (userId, albumId, trackNumber)
  · obtain ⟨row, hmem, hkey⟩ := hex
    simp only [SongRating.key, Prod.mk.injEq] at hkey
    obtain ⟨h1, h2, h3⟩ := hkey
    subst h1 h2 h3
    rw [setSongRating_existing s hKeys hIds row rating hmem]
    have hkeymap : (s.songRatings.map
        (fun r => if r = row then { row with rating := rating } else r)).map SongRating.key =
        s.songRatings.map SongRating.key := by
      rw [List.map_map]
      apply List.map_congr_left
      intro r _
      by_cases h : r = row <;> simp [h, SongRating.key]
    have hidmap : (s.songRatings.map
        (fun r => if r = row then { row with rating := rating } else r)).map SongRating.id =
        s.songRatings.map SongRating.id := by
      rw [List.map_map]
      apply List.map_congr_left
      intro r _
      by_cases h : r = row <;> simp [h]
    refine ⟨?_, ?_, hIds.2.1, ?_⟩
    · simp only [Store.uniqueSongKeys, hkeymap]
      exact hKeys
    · simp only [hidmap]
      exact hIds.1
    · intro r hr
      simp only [List.mem_map] at hr
      obtain ⟨r0, hr0, hr⟩ := hr
      by_cases h : r0 = row
      · simp only [h, if_true] at hr
        rw [← hr]
        exact hIds.2.2 row hmem
      · simp only [h, if_false] at hr
        rw [← hr]
        exact hIds.2.2 r0 hr0
  · have hnew : ∀ row ∈ s.songRatings,
        SongRating.key row ≠ (userId, albumId, trackNumber) := by
      intro row hmem hkey
      exact hex ⟨row, hmem, hkey⟩
    rw [setSongRating_new s hIds userId albumId trackNumber rating hnew]
    refine ⟨?_, ?_, Nat.succ_pos _, ?_⟩
    · simp only [Store.uniqueSongKeys, List.map_append, List.map_cons, List.map_nil]
      rw [List.nodup_append]
      refine ⟨hKeys, List.nodup_singleton _, ?_⟩
      intro k hk hk2
      simp only [List.mem_singleton] at hk2
      simp only [List.mem_map] at hk
      obtain ⟨r, hr, hrk⟩ := hk
      exact hnew r hr (by rw [hrk, hk2]; rfl)
    · simp only [List.map_append, List.map_cons, List.map_nil]
      rw [List.nodup_append]
      refine ⟨hIds.1, List.nodup_singleton _, ?_⟩
      intro k hk hk2
      simp only [List.mem_singleton] at hk2
      simp only [List.mem_map] at hk
      obtain ⟨r, hr, hrk⟩ := hk
      have := (hIds.2.2 r hr).2
      omega
    · intro r hr
      simp only [List.mem_append, List.mem_singleton] at hr
      rcases hr with hr | hr
      · have := hIds.2.2 r hr
        exact ⟨this.1, Nat.lt_succ_of_lt this.2⟩
      · rw [hr]
        exact ⟨hIds.2.1, Nat.lt_succ_self _⟩

theorem setSongRatings_preserves (calls : List SongRatingCall) (s : Store)
    (hKeys : s.uniqueSongKeys) (hIds : s.songIdsGenerated) :
    (setSongRatings s calls).uniqueSongKeys ∧ (setSongRatings s calls).songIdsGenerated := by
  induction calls generalizing s with
  | nil => exact ⟨hKeys, hIds⟩
  | cons c rest ih =>
    have hstep := setSongRating_preserves s hKeys hIds c.userId c.albumId c.trackNumber c.rating
    exact ih _ hstep.1 hstep.2

/-- C8: `setSongRating` is an upsert on `(userId, albumId, trackNumber)`.
Starting from a store with at most one row per key (and primary keys issued by
the key generator), every sequence of calls leaves at most one row per key; a
call for a stored key returns the row's `id`, sets its rating and changes no
other row; a call for a new key adds exactly one row. -/
theorem setSongRating_upsert (s : Store) (hKeys : s.uniqueSongKeys)
    (hIds : s.songIdsGenerated) :
    (∀ calls : List SongRatingCall, (setSongRatings s calls).uniqueSongKeys) ∧
      (∀ (row : SongRating) (rating : ℚ), row ∈ s.songRatings →
        setSongRating s row.userId row.albumId row.trackNumber rating =
          (.ok row.id,
            { s with
              songRatings := s.songRatings.map
                (fun r => if r = row then { row with rating := rating } else r) })) ∧
      (∀ (userId albumId trackNumber : Nat) (rating : ℚ),
        (∀ row ∈ s.songRatings, SongRating.key row ≠ (userId, albumId, trackNumber)) →
        setSongRating s userId albumId trackNumber rating =
          (.ok s.nextSongRatingId,
            { s with
              songRatings := s.songRatings ++
                [{ id := s.nextSongRatingId, userId := userId, albumId := albumId,
                   trackNumber := trackNumber, rating := rating }]
              nextSongRatingId := s.nextSongRatingId + 1 })) :=
  ⟨fun calls => (setSongRatings_preserves calls s hKeys hIds).1,
   fun row rating hmem => setSongRating_existing s hKeys hIds row rating hmem,
   fun userId albumId trackNumber rating hnew =>
     setSongRating_new s hIds userId albumId trackNumber rating hnew⟩

/-- Witness for C8 on `storeTwoSongs`: three calls in a row keep one row per
key, re-rating track 2 rewrites row 2 in place, and rating track 3 adds row 3. -/
theorem setSongRating_upsert_witness :
    storeTwoSongs.uniqueSongKeys ∧ storeTwoSongs.songIdsGenerated ∧
      (setSongRatings storeTwoSongs
        [⟨1, 1, 2, 9⟩, ⟨1, 1, 3, 5⟩, ⟨1, 1, 2, 4⟩]).uniqueSongKeys ∧
      setSongRating storeTwoSongs 1 1 2 9 =
        (.ok 2,
          { storeTwoSongs with
            songRatings := storeTwoSongs.songRatings.map
              (fun r => if r = ⟨2, 1, 1, 2, 6⟩ then { (⟨2, 1, 1, 2, 6⟩ : SongRating) with
                rating := 9 } else r) }) ∧
      setSongRating storeTwoSongs 1 1 3 5 =
        (.ok storeTwoSongs.nextSongRatingId,
          { storeTwoSongs with
            songRatings := storeTwoSongs.songRatings ++
              [{ id := storeTwoSongs.nextSongRatingId, userId := 1, albumId := 1,
                 trackNumber := 3, rating := 5 }]
            nextSongRatingId := storeTwoSongs.nextSongRatingId + 1 }) :=
  have hKeys : storeTwoSongs.uniqueSongKeys := by
    unfold Store.uniqueSongKeys storeTwoSongs
    decide
  have hIds : storeTwoSongs.songIdsGenerated := by
    simp [Store.songIdsGenerated, storeTwoSongs]
  ⟨hKeys, hIds,
   (setSongRating_upsert storeTwoSongs hKeys hIds).1 _,
   (setSongRating_upsert storeTwoSongs hKeys hIds).2.1 ⟨2, 1, 1, 2, 6⟩ 9
     (by simp [storeTwoSongs]),
   (setSongRating_upsert storeTwoSongs hKeys hIds).2.2 1 1 3 5
     (by unfold storeTwoSongs; decide)⟩

/-! ## Adding an album -/

/-- C9: when the user's library already holds an album with the same `mbid`,
`addAlbum` is rejected with `ConstraintError` and the store, hence the set of
stored albums and the size of the user's library, is unchanged. -/
theorem addAlbum_duplicate (s : Store) (now : String) (userId : Nat) (albumData : AlbumData)
    (hdup : ∃ a ∈ s.albums, a.userId = userId ∧ a.mbid = albumData.mbid) :
    addAlbum s now userId albumData = (.error .constraintError, s) ∧
      (addAlbum s now userId albumData).2.albums = s.albums ∧
      (getUserAlbums (addAlbum s now userId albumData).2 userId).length =
        (getUserAlbums s userId).length := by
  have hany : (s.albums.any
      (fun a => decide (a.userId = userId ∧ a.mbid = albumData.mbid))) = true := by
    rw [List.any_eq_true]
    obtain ⟨a, ha, hp⟩ := hdup
    exact ⟨a, ha, by simp [hp]⟩
  have h : addAlbum s now userId albumData = (.error .constraintError, s) := by
    simp only [addAlbum, hany, if_true]
  rw [h]
  exact ⟨rfl, rfl, rfl⟩

/-- Witness for C9: the release `m1` is added to the empty store for user 1 and
then added again; the second attempt is rejected and stores nothing. -/
theorem addAlbum_duplicate_witness :
    (addAlbum emptyStore "t1" 1 exampleAlbumData).1 = .ok 1 ∧
      (∃ a ∈ (addAlbum emptyStore "t1" 1 exampleAlbumData).2.albums,
        a.userId = 1 ∧ a.mbid = exampleAlbumData.mbid) ∧
      (addAlbum (addAlbum emptyStore "t1" 1 exampleAlbumData).2 "t2" 1 exampleAlbumData =
          (.error .constraintError, (addAlbum emptyStore "t1" 1 exampleAlbumData).2) ∧
        (addAlbum (addAlbum emptyStore "t1" 1 exampleAlbumData).2 "t2" 1 exampleAlbumData).2.albums
          = (addAlbum emptyStore "t1" 1 exampleAlbumData).2.albums ∧
        (getUserAlbums
          (addAlbum (addAlbum emptyStore "t1" 1 exampleAlbumData).2 "t2" 1 exampleAlbumData).2
            1).length =
          (getUserAlbums (addAlbum emptyStore "t1" 1 exampleAlbumData).2 1).length) :=
  ⟨by simp [addAlbum, emptyStore],
   by simp [addAlbum, emptyStore, insertByKey],
   addAlbum_duplicate (addAlbum emptyStore "t1" 1 exampleAlbumData).2 "t2" 1 exampleAlbumData
     (by simp [addAlbum, emptyStore, insertByKey])⟩

/-! ## Manual album rating -/

/-- C10: for an existing album and a non-null rating `m`,
`updateAlbumRating(albumId, m, null)` stores the album read with `manualRating`
set to `m` and every other field, `autoRating` included, as it was; every
other album, the song ratings and the artist ratings are unchanged; and the
album's prevalent rating is `m` afterwards. -/
theorem updateAlbumRating_manual (s : Store) (albumId : Nat) (album : Album) (m : ℚ)
    (h : getAlbum s albumId = some album) :
    (updateAlbumRating s albumId (some m) none).1 = .ok albumId ∧
      (updateAlbumRating s albumId (some m) none).2.albums =
        s.albums.map (fun x => if x.id = albumId then { album with manualRating := some m }
          else x) ∧
      getAlbum (updateAlbumRating s albumId (some m) none).2 albumId =
        some { album with manualRating := some m } ∧
      (∀ other : Nat, other ≠ albumId →
        getAlbum (updateAlbumRating s albumId (some m) none).2 other = getAlbum s other) ∧
      (updateAlbumRating s albumId (some m) none).2.songRatings = s.songRatings ∧
      (updateAlbumRating s albumId (some m) none).2.artistRatings = s.artistRatings ∧
      LibraryView.displayRating { album with manualRating := some m } = some m ∧
      AlbumDetail.prevalentRating { album with manualRating := some m } = some m ∧
      resolvePrevalent (some m) album.autoRating = some m := by
  have hid := getAlbum_id s albumId album h
  have hupd := updateAlbumRating_of_getAlbum s albumId album (some m) none h
  simp only [ne_eq, reduceCtorEq, not_false_eq_true, if_true, not_true_eq_false, if_false]
    at hupd
  rw [hupd]
  refine ⟨rfl, rfl, ?_, ?_, rfl, rfl, ?_, ?_, rfl⟩
  · exact getAlbum_map_replace s albumId album { album with manualRating := some m } _ h hid
  · intro other hne
    exact getAlbum_map_replace_other s albumId other { album with manualRating := some m } _
      hid hne
  · simp [LibraryView.displayRating]
  · simp [AlbumDetail.prevalentRating]

/-- Witness for C10: the album of `storeStaleAuto` has `autoRating` 7; setting
the manual rating 9 makes 9 prevalent and leaves `autoRating` at 7. -/
theorem updateAlbumRating_manual_witness :
    getAlbum storeStaleAuto 1 = some (exampleAlbum 1 1 "m1" "X" none (some 7)) ∧
      getAlbum (updateAlbumRating storeStaleAuto 1 (some 9) none).2 1 =
        some { exampleAlbum 1 1 "m1" "X" none (some 7) with manualRating := some 9 } ∧
      ({ exampleAlbum 1 1 "m1" "X" none (some 7) with manualRating := some 9 } : Album).autoRating
        = some 7 ∧
      LibraryView.displayRating
        { exampleAlbum 1 1 "m1" "X" none (some 7) with manualRating := some 9 } = some 9 :=
  have h : getAlbum storeStaleAuto 1 = some (exampleAlbum 1 1 "m1" "X" none (some 7)) := by
    simp [getAlbum, storeStaleAuto, exampleAlbum]
  ⟨h,
   (updateAlbumRating_manual storeStaleAuto 1 (exampleAlbum 1 1 "m1" "X" none (some 7)) 9 h).2.2.1,
   rfl,
   (updateAlbumRating_manual storeStaleAuto 1 (exampleAlbum 1 1 "m1" "X" none (some 7)) 9
     h).2.2.2.2.2.2.1⟩

/-! ## Facts about `jsSort` -/

theorem orderedInsert_congr {α : Type} (r1 r2 : α → α → Prop) [DecidableRel r1]
    [DecidableRel r2] (a : α) (l : List α) (h : ∀ b ∈ l, (r1 a b ↔ r2 a b)) :
    l.orderedInsert r1 a = l.orderedInsert r2 a := by
  induction l with
  | nil => rfl
  | cons b l ih =>
    have hb := h b (by simp)
    have hl := ih (fun x hx => h x (by simp [hx]))
    by_cases h1 : r1 a b
    · simp [List.orderedInsert, h1, hb.mp h1]
    · have h2 : ¬ r2 a b := fun h2 => h1 (hb.mpr h2)
      simp [List.orderedInsert, h1, h2, hl]

theorem insertionSort_congr {α : Type} (r1 r2 : α → α → Prop) [DecidableRel r1]
    [DecidableRel r2] (l : List α) (h : ∀ a ∈ l, ∀ b ∈ l, (r1 a b ↔ r2 a b)) :
    l.insertionSort r1 = l.insertionSort r2 := by
  induction l with
  | nil => rfl
  | cons a l ih =>
    have hl := ih (fun x hx y hy => h x (by simp [hx]) y (by simp [hy]))
    simp only [List.insertionSort, hl]
    apply orderedInsert_congr
    intro b hb
    exact h a (by simp) b (by simp [(List.mem_insertionSort r2).mp hb])

/-- When the comparator orders the elements of the list by a key, descending,
`jsSort` is the stable insertion sort by that key. -/
theorem jsSort_eq_insertionSort_key {α β : Type} [LinearOrder β]
    (compareFn : α → α → Option ℚ) (key : α → β) (l : List α)
    (h : ∀ a ∈ l, ∀ b ∈ l, ((compareFn a b).getD 0 ≤ 0 ↔ key b ≤ key a)) :
    jsSort compareFn l = l.insertionSort (fun a b => key b ≤ key a) := by
  unfold jsSort
  apply insertionSort_congr
  intro a ha b hb
  simpa using h a ha b hb

theorem insertionSort_key_perm {α β : Type} [LinearOrder β] (key : α → β) (l : List α) :
    (l.insertionSort (fun a b => key b ≤ key a)).Perm l :=
  List.perm_insertionSort _ l

theorem insertionSort_key_pairwise {α β : Type} [LinearOrder β] (key : α → β) (l : List α) :
    (l.insertionSort (fun a b => key b ≤ key a)).Pairwise (fun a b => key b ≤ key a) := by
  haveI : IsTotal α (fun a b => key b ≤ key a) := ⟨fun a b => le_total (key b) (key a)⟩
  haveI : IsTrans α (fun a b => key b ≤ key a) := ⟨fun a b c hab hbc => le_trans hbc hab⟩
  exact List.sorted_insertionSort (fun a b => key b ≤ key a) l

/-- The first element of the stable descending sort is the first element of
the list among those of maximal key. -/
theorem head?_insertionSort_key {α β : Type} [LinearOrder β] (key : α → β) (l : List α) (x : α)
    (h : (l.insertionSort (fun a b => key b ≤ key a)).head? = some x) :
    ∃ l1 l2, l = l1 ++ x :: l2 ∧ (∀ y ∈ l1, key y < key x) ∧ ∀ y ∈ l2, key y ≤ key x := by
  induction l generalizing x with
  | nil => simp at h
  | cons a l ih =>
    simp only [List.insertionSort] at h
    cases hs : l.insertionSort (fun a b => key b ≤ key a) with
    | nil =>
      have hl : l = [] := by
        have := (List.perm_insertionSort (fun a b => key b ≤ key a) l).length_eq
        rw [hs] at this
        exact List.length_eq_zero.mp this.symm
      subst hl
      rw [hs] at h
      simp [List.orderedInsert] at h
      subst h
      exact ⟨[], [], rfl, by simp, by simp⟩
    | cons b s =>
      obtain ⟨l1, l2, hl, h1, h2⟩ := ih b (by rw [hs]; rfl)
      rw [hs] at h
      by_cases hab : key b ≤ key a
      · simp [List.orderedInsert, hab] at h
        subst h
        refine ⟨[], l, rfl, by simp, ?_⟩
        intro y hy
        rw [hl] at hy
        simp only [List.mem_append, List.mem_cons] at hy
        rcases hy with hy | hy | hy
        · exact le_trans (le_of_lt (h1 y hy)) hab
        · rw [hy]; exact hab
        · exact le_trans (h2 y hy) hab
      · simp [List.orderedInsert, hab] at h
        subst h
        refine ⟨a :: l1, l2, by simp [hl], ?_, h2⟩
        intro y hy
        simp only [List.mem_cons] at hy
        rcases hy with hy | hy
        · rw [hy]; exact lt_of_not_le hab
        · exact h1 y hy

theorem head?_insertionSort_eq_none {α : Type} (r : α → α → Prop) [DecidableRel r]
    (l : List α) : (l.insertionSort r).head? = none ↔ l = [] := by
  constructor
  · intro h
    have h0 : l.insertionSort r = [] := by simpa using h
    have := (List.perm_insertionSort r l).length_eq
    rw [h0] at this
    exact List.length_eq_zero.mp this.symm
  · intro h
    subst h
    rfl

/-- A split of the image of `filterMap` comes from a split of the list. -/
theorem filterMap_eq_append_cons {α β : Type} (g : α → Option β) (l : List α)
    (m1 m2 : List β) (x : β) (h : l.filterMap g = m1 ++ x :: m2) :
    ∃ l1 a l2, l = l1 ++ a :: l2 ∧ g a = some x ∧ l1.filterMap g = m1 ∧
      l2.filterMap g = m2 := by
  induction l generalizing m1 with
  | nil => simp at h
  | cons c l ih =>
    cases hc : g c with
    | none =>
      rw [List.filterMap_cons_none hc] at h
      obtain ⟨l1, a, l2, hl, ha, h1, h2⟩ := ih m1 h
      exact ⟨c :: l1, a, l2, by simp [hl], ha, by simp [List.filterMap_cons_none hc, h1], h2⟩
    | some y =>
      rw [List.filterMap_cons_some hc] at h
      cases m1 with
      | nil =>
        simp only [List.nil_append, List.cons.injEq] at h
        obtain ⟨hy, hrest⟩ := h
        subst hy
        exact ⟨[], c, l, rfl, hc, rfl, hrest⟩
      | cons z m1 =>
        simp only [List.cons_append, List.cons.injEq] at h
        obtain ⟨hy, hrest⟩ := h
        subst hy
        obtain ⟨l1, a, l2, hl, ha, h1, h2⟩ := ih m1 hrest
        exact ⟨c :: l1, a, l2, by simp [hl], ha,
          by simp [List.filterMap_cons_some hc, h1], h2⟩

/-! ## Round trip of a manual rating -/

/-- C11: for an existing album and every rating `r`, in particular every
`r` in 0, 0.5, ..., 10, `updateAlbumRating(albumId, r, null)` followed by
`getAlbum(albumId)` returns an album whose `manualRating` is exactly `r`. -/
theorem updateAlbumRating_roundtrip (s : Store) (albumId : Nat) (r : ℚ)
    (hAlbum : (getAlbum s albumId).isSome = true) :
    (updateAlbumRating s albumId (some r) none).1 = .ok albumId ∧
      (getAlbum (updateAlbumRating s albumId (some r) none).2 albumId).map Album.manualRating =
        some (some r) ∧
      ∀ k : Nat, k ≤ 20 →
        (getAlbum (updateAlbumRating s albumId (some ((k : ℚ) / 2)) none).2 albumId).map
          Album.manualRating = some (some ((k : ℚ) / 2)) := by
  obtain ⟨album, hAlbum⟩ := Option.isSome_iff_exists.mp hAlbum
  have hid := getAlbum_id s albumId album hAlbum
  have key : ∀ q : ℚ, updateAlbumRating s albumId (some q) none =
      (.ok albumId,
        { s with
          albums := s.albums.map (fun x => if x.id = albumId then
            { album with manualRating := some q } else x)
          nextAlbumId := bumpGenerator s.nextAlbumId albumId }) := by
    intro q
    have hupd := updateAlbumRating_of_getAlbum s albumId album (some q) none hAlbum
    simpa using hupd
  have hget : ∀ q : ℚ,
      (getAlbum (updateAlbumRating s albumId (some q) none).2 albumId).map Album.manualRating =
        some (some q) := by
    intro q
    rw [key q]
    simp only
    rw [getAlbum_map_replace s albumId album { album with manualRating := some q } _ hAlbum hid]
    rfl
  refine ⟨by rw [key r], hget r, fun k _ => hget _⟩

/-- Witness for C11: the rating 7.5 on album 1 of `storeStaleAuto`. -/
theorem updateAlbumRating_roundtrip_witness :
    (getAlbum storeStaleAuto 1).isSome = true ∧
      (getAlbum (updateAlbumRating storeStaleAuto 1 (some (15 / 2)) none).2 1).map
        Album.manualRating = some (some (15 / 2)) :=
  ⟨by simp [getAlbum, storeStaleAuto, exampleAlbum],
   (updateAlbumRating_roundtrip storeStaleAuto 1 (15 / 2)
     (by simp [getAlbum, storeStaleAuto, exampleAlbum])).2.1⟩

/-! ## Sorting the library by rating -/

theorem ratingSortKey_eq (a : Album) :
    LibraryView.ratingSortKey a = (resolvePrevalent a.manualRating a.autoRating).getD 0 := by
  cases hm : a.manualRating with
  | some m => simp [LibraryView.ratingSortKey, resolvePrevalent, hm]
  | none =>
    cases ha : a.autoRating with
    | none => simp [LibraryView.ratingSortKey, resolvePrevalent, hm, ha, orZero]
    | some q =>
      by_cases hq : q = 0 <;>
        simp [LibraryView.ratingSortKey, resolvePrevalent, hm, ha, orZero, hq]

/-- With the sort key `rating`, `sortAlbums` is the stable sort by the ordering
key, descending. -/
theorem sortAlbums_rating_eq (dateValue : String → Option ℤ)
    (localeCompare : String → String → ℤ) (albums : List Album) :
    LibraryView.sortAlbums dateValue localeCompare "rating" albums =
      albums.insertionSort (fun a b =>
        (resolvePrevalent b.manualRating b.autoRating).getD 0 ≤
          (resolvePrevalent a.manualRating a.autoRating).getD 0) := by
  unfold LibraryView.sortAlbums
  apply jsSort_eq_insertionSort_key _
    (fun a : Album => (resolvePrevalent a.manualRating a.autoRating).getD 0)
  intro a _ b _
  simp [LibraryView.compareAlbums, ratingSortKey_eq]

/-- C12: with the sort key `rating`, `sortAlbums` yields a permutation of the
albums in which the ordering key (the prevalent rating, 0 when both ratings
are missing) never increases from an album to a later one. -/
theorem sortAlbums_rating_sorted (dateValue : String → Option ℤ)
    (localeCompare : String → String → ℤ) (albums : List Album) :
    (LibraryView.sortAlbums dateValue localeCompare "rating" albums).Perm albums ∧
      (LibraryView.sortAlbums dateValue localeCompare "rating" albums).Pairwise (fun a b =>
        (resolvePrevalent b.manualRating b.autoRating).getD 0 ≤
          (resolvePrevalent a.manualRating a.autoRating).getD 0) := by
  rw [sortAlbums_rating_eq]
  exact ⟨insertionSort_key_perm
      (fun a : Album => (resolvePrevalent a.manualRating a.autoRating).getD 0) albums,
    insertionSort_key_pairwise
      (fun a : Album => (resolvePrevalent a.manualRating a.autoRating).getD 0) albums⟩

/-- C13 fails as stated: an unrated album followed by an album with the manual
rating 0 stays in this order, so an unrated album precedes a rated one. -/
theorem sortAlbums_rating_unrated_before_zero :
    LibraryView.sortAlbums (fun _ => none) (fun _ _ => 0) "rating" albumsNullZero =
        [exampleAlbum 1 1 "m1" "X" none none, exampleAlbum 2 1 "m2" "X" (some 0) none] ∧
      resolvePrevalent (exampleAlbum 1 1 "m1" "X" none none).manualRating
        (exampleAlbum 1 1 "m1" "X" none none).autoRating = none ∧
      resolvePrevalent (exampleAlbum 2 1 "m2" "X" (some 0) none).manualRating
        (exampleAlbum 2 1 "m2" "X" (some 0) none).autoRating = some 0 := by
  rw [sortAlbums_rating_eq]
  simp [albumsNullZero, exampleAlbum, List.insertionSort, List.orderedInsert, resolvePrevalent]

/-- C13, amended: for albums whose ratings lie in [0, 10], after `sortAlbums`
with the sort key `rating` an unrated album is followed only by unrated albums
and by albums whose prevalent rating is 0, so every unrated album comes after
every album with a prevalent rating above 0; prevalent ratings `null`, 5, 8
sort to 8, 5, `null`. -/
theorem sortAlbums_rating_unrated_last (dateValue : String → Option ℤ)
    (localeCompare : String → String → ℤ) (albums : List Album)
    (hRange : ∀ a ∈ albums, (∀ q, a.manualRating = some q → 0 ≤ q ∧ q ≤ 10) ∧
      (∀ q, a.autoRating = some q → 0 ≤ q ∧ q ≤ 10)) :
    (LibraryView.sortAlbums dateValue localeCompare "rating" albums).Pairwise (fun a b =>
        resolvePrevalent a.manualRating a.autoRating = none →
          resolvePrevalent b.manualRating b.autoRating = none ∨
            resolvePrevalent b.manualRating b.autoRating = some 0) ∧
      (LibraryView.sortAlbums dateValue localeCompare "rating" albumsNull58).map
          (fun a => resolvePrevalent a.manualRating a.autoRating) = [some 8, some 5, none] := by
  constructor
  · rw [sortAlbums_rating_eq]
    have hperm := insertionSort_key_perm
      (fun a : Album => (resolvePrevalent a.manualRating a.autoRating).getD 0) albums
    have hsorted := insertionSort_key_pairwise
      (fun a : Album => (resolvePrevalent a.manualRating a.autoRating).getD 0) albums
    refine hsorted.imp_of_mem ?_
    intro a b _ hb hab ha
    have hbmem : b ∈ albums := hperm.mem_iff.mp hb
    rw [ha] at hab
    simp only [Option.getD_none] at hab
    cases hpb : resolvePrevalent b.manualRating b.autoRating with
    | none => exact Or.inl rfl
    | some q =>
      right
      rw [hpb] at hab
      simp only [Option.getD_some] at hab
      have hq : 0 ≤ q := by
        cases hm : b.manualRating with
        | some m =>
          simp only [resolvePrevalent, hm, Option.some.injEq] at hpb
          exact hpb ▸ ((hRange b hbmem).1 m hm).1
        | none =>
          simp only [resolvePrevalent, hm] at hpb
          exact ((hRange b hbmem).2 q hpb).1
      rw [le_antisymm hab hq]
  · rw [sortAlbums_rating_eq]
    simp only [albumsNull58, exampleAlbum, List.insertionSort, List.orderedInsert,
      resolvePrevalent, Option.getD_some, Option.getD_none]
    norm_num

/-- Witness for C13: the albums with prevalent ratings `null`, 5 and 8. -/
theorem sortAlbums_rating_unrated_last_witness :
    (∀ a ∈ albumsNull58, (∀ q, a.manualRating = some q → 0 ≤ q ∧ q ≤ 10) ∧
        (∀ q, a.autoRating = some q → 0 ≤ q ∧ q ≤ 10)) ∧
      (LibraryView.sortAlbums (fun _ => none) (fun _ _ => 0) "rating" albumsNull58).Pairwise
        (fun a b =>
          resolvePrevalent a.manualRating a.autoRating = none →
            resolvePrevalent b.manualRating b.autoRating = none ∨
              resolvePrevalent b.manualRating b.autoRating = some 0) ∧
      (LibraryView.sortAlbums (fun _ => none) (fun _ _ => 0) "rating" albumsNull58).map
          (fun a => resolvePrevalent a.manualRating a.autoRating) = [some 8, some 5, none] :=
  have h : ∀ a ∈ albumsNull58, (∀ q, a.manualRating = some q → 0 ≤ q ∧ q ≤ 10) ∧
      (∀ q, a.autoRating = some q → 0 ≤ q ∧ q ≤ 10) := by
    intro a ha
    simp only [albumsNull58, List.mem_cons, List.mem_singleton, List.not_mem_nil, or_false] at ha
    rcases ha with rfl | rfl | rfl <;> constructor <;> intro q hq <;>
      simp [exampleAlbum] at hq <;> subst hq <;> norm_num
  ⟨h, sortAlbums_rating_unrated_last (fun _ => none) (fun _ _ => 0) albumsNull58 h⟩

/-! ## Sorting the library by year -/

/-- On a string that starts with two decimal digits `parseInt` returns a number. -/
theorem parseIntChars_of_digits (c d : Char) (rest : List Char)
    (hc : 48 ≤ c.toNat ∧ c.toNat ≤ 57) (hd : 48 ≤ d.toNat ∧ d.toNat ≤ 57) :
    ∃ n : ℤ, parseIntChars (c :: d :: rest) = some n := by
  have hws : isStrWhiteSpaceChar c = false := by
    simp only [isStrWhiteSpaceChar, Bool.or_eq_false_iff, decide_eq_false_iff_not,
      List.mem_cons, List.mem_singleton, List.not_mem_nil, or_false]
    constructor <;> omega
  have h45 : ¬ c.toNat = 45 := by omega
  have h43 : ¬ c.toNat = 43 := by omega
  have hx : ¬ (c.toNat = 48 ∧ (d.toNat = 120 ∨ d.toNat = 88)) := by omega
  have hdig : digitValue 10 c = some (c.toNat - 48) := by
    have : c.toNat - 48 < 10 := by omega
    simp [digitValue, hc, this]
  simp only [parseIntChars, List.dropWhile, hws, h45, h43, hx, or_self, if_false,
    decide_False, Bool.false_eq_true, leadingDigits, hdig]
  simp

theorem yearNumber_of_fourDigit (a : Album) (y : String) (hy : a.year = some y)
    (h4 : isFourDigitYear y) :
    truthyString a.year = true ∧ ∃ n : ℤ, parseInt y = some n ∧ yearNumber a = (n : WithBot ℤ) := by
  obtain ⟨hlen, hdigits⟩ := h4
  have hne : y ≠ "" := by
    intro h0
    rw [h0] at hlen
    simp at hlen
  obtain ⟨cs, hcs⟩ : ∃ cs, y.data = cs := ⟨_, rfl⟩
  rw [hcs] at hlen hdigits
  match cs, hlen, hdigits with
  | [c, d, e, f], _, hdigits =>
    obtain ⟨n, hn⟩ := parseIntChars_of_digits c d [e, f] (hdigits c (by simp))
      (hdigits d (by simp))
    have hp : parseInt y = some n := by
      unfold parseInt
      rw [hcs, hn]
    exact ⟨by simp [truthyString, hy, hne], n, hp, by simp [yearNumber, hy, hne, hp]⟩

theorem year_cases (a : Album)
    (h : a.year = none ∨ ∃ y, a.year = some y ∧ isFourDigitYear y) :
    (a.year = none ∧ truthyString a.year = false ∧ yearNumber a = ⊥) ∨
      ∃ (y : String) (n : ℤ), a.year = some y ∧ truthyString a.year = true ∧
        parseInt y = some n ∧ yearNumber a = (n : WithBot ℤ) := by
  rcases h with h | ⟨y, hy, h4⟩
  · exact Or.inl ⟨h, by simp [truthyString, h], by simp [yearNumber, h]⟩
  · obtain ⟨ht, n, hp, hn⟩ := yearNumber_of_fourDigit a y hy h4
    exact Or.inr ⟨y, n, hy, ht, hp, hn⟩

/-- With the sort key `year`, on albums whose year is `null` or a four-digit
numeric string, `sortAlbums` is the stable sort by `yearNumber`, descending. -/
theorem sortAlbums_year_eq (dateValue : String → Option ℤ)
    (localeCompare : String → String → ℤ) (albums : List Album)
    (hYears : ∀ a ∈ albums, a.year = none ∨ ∃ y, a.year = some y ∧ isFourDigitYear y) :
    LibraryView.sortAlbums dateValue localeCompare "year" albums =
      albums.insertionSort (fun a b => yearNumber b ≤ yearNumber a) := by
  unfold LibraryView.sortAlbums
  apply jsSort_eq_insertionSort_key _ yearNumber
  intro a ha b hb
  rcases year_cases a (hYears a ha) with ⟨_, hta, hna⟩ | ⟨ya, na, hya, hta, hpa, hna⟩ <;>
    rcases year_cases b (hYears b hb) with ⟨_, htb, hnb⟩ | ⟨yb, nb, hyb, htb, hpb, hnb⟩
  · simp [LibraryView.compareAlbums, hta, htb, hna, hnb]
  · simp [LibraryView.compareAlbums, hta, htb, hna, hnb]
  · simp [LibraryView.compareAlbums, hta, htb, hna, hnb]
  · rw [hya] at hta
    rw [hyb] at htb
    simp [LibraryView.compareAlbums, hta, htb, hna, hnb, hya, hyb, hpa, hpb, subNaN]

/-- C14: on albums whose year is `null` or a four-digit numeric string,
`sortAlbums` with the sort key `year` yields a permutation in which an album
with a `null` year is followed only by albums with a `null` year, and the
years of the albums that have one never increase. -/
theorem sortAlbums_year_sorted (dateValue : String → Option ℤ)
    (localeCompare : String → String → ℤ) (albums : List Album)
    (hYears : ∀ a ∈ albums, a.year = none ∨ ∃ y, a.year = some y ∧ isFourDigitYear y) :
    (LibraryView.sortAlbums dateValue localeCompare "year" albums).Perm albums ∧
      (LibraryView.sortAlbums dateValue localeCompare "year" albums).Pairwise
        (fun a b => a.year = none → b.year = none) ∧
      (LibraryView.sortAlbums dateValue localeCompare "year" albums).Pairwise
        (fun a b => ∀ ya yb, a.year = some ya → b.year = some yb →
          ∃ na nb : ℤ, parseInt ya = some na ∧ parseInt yb = some nb ∧ nb ≤ na) := by
  rw [sortAlbums_year_eq dateValue localeCompare albums hYears]
  have hperm := insertionSort_key_perm yearNumber albums
  have hsorted := insertionSort_key_pairwise yearNumber albums
  refine ⟨hperm, hsorted.imp_of_mem ?_, hsorted.imp_of_mem ?_⟩
  · intro a b ha hb hab hnone
    rcases year_cases a (hYears a (hperm.mem_iff.mp ha)) with
      ⟨_, _, hna⟩ | ⟨ya, na, hya, _, _, _⟩
    · rcases year_cases b (hYears b (hperm.mem_iff.mp hb)) with
        ⟨hb0, _, _⟩ | ⟨yb, nb, _, _, _, hnb⟩
      · exact hb0
      · rw [hna, hnb] at hab
        simp at hab
    · rw [hya] at hnone
      simp at hnone
  · intro a b ha hb hab ya yb hya hyb
    rcases year_cases a (hYears a (hperm.mem_iff.mp ha)) with
      ⟨ha0, _, _⟩ | ⟨ya2, na, hya2, _, hpa, hna⟩
    · rw [ha0] at hya
      simp at hya
    · rcases year_cases b (hYears b (hperm.mem_iff.mp hb)) with
        ⟨hb0, _, _⟩ | ⟨yb2, nb, hyb2, _, hpb, hnb⟩
      · rw [hb0] at hyb
        simp at hyb
      · rw [hya] at hya2
        rw [hyb] at hyb2
        simp only [Option.some.injEq] at hya2 hyb2
        subst hya2 hyb2
        rw [hna, hnb] at hab
        exact ⟨na, nb, hpa, hpb, WithBot.coe_le_coe.mp hab⟩

theorem albumsYears_fourDigit :
    ∀ a ∈ albumsYears, a.year = none ∨ ∃ y, a.year = some y ∧ isFourDigitYear y := by
  intro a ha
  simp only [albumsYears, List.mem_cons, List.mem_singleton, List.not_mem_nil, or_false] at ha
  rcases ha with rfl | rfl | rfl | rfl
  · exact Or.inl rfl
  · exact Or.inr ⟨"1999", rfl, by unfold isFourDigitYear; decide⟩
  · exact Or.inr ⟨"2005", rfl, by unfold isFourDigitYear; decide⟩
  · exact Or.inl rfl

/-- Witness for C14: the years `null`, 1999, 2005, `null`. -/
theorem sortAlbums_year_sorted_witness :
    (∀ a ∈ albumsYears, a.year = none ∨ ∃ y, a.year = some y ∧ isFourDigitYear y) ∧
      ((LibraryView.sortAlbums (fun _ => none) (fun _ _ => 0) "year" albumsYears).Perm
          albumsYears ∧
        (LibraryView.sortAlbums (fun _ => none) (fun _ _ => 0) "year" albumsYears).Pairwise
          (fun a b => a.year = none → b.year = none) ∧
        (LibraryView.sortAlbums (fun _ => none) (fun _ _ => 0) "year" albumsYears).Pairwise
          (fun a b => ∀ ya yb, a.year = some ya → b.year = some yb →
            ∃ na nb : ℤ, parseInt ya = some na ∧ parseInt yb = some nb ∧ nb ≤ na)) :=
  ⟨albumsYears_fourDigit,
   sortAlbums_year_sorted (fun _ => none) (fun _ _ => 0) albumsYears albumsYears_fourDigit⟩

/-- The years `null`, 1999, 2005, `null` are shown in the order 2005, 1999,
`null`, `null`. -/
theorem sortAlbums_year_example :
    (LibraryView.sortAlbums (fun _ => none) (fun _ _ => 0) "year" albumsYears).map Album.id =
      [3, 2, 1, 4] := by
  have h1 : parseInt "1999" = some 1999 := by decide
  have h2 : parseInt "2005" = some 2005 := by decide
  rw [sortAlbums_year_eq _ _ _ albumsYears_fourDigit]
  simp [albumsYears, exampleAlbum, List.insertionSort, List.orderedInsert, yearNumber, h1, h2]

/-! ## Favorites: the album -/

theorem guarded_head? {α : Type} (l : List α) :
    (if l.length > 0 then l.head? else none) = l.head? := by
  cases l <;> simp

/-- The sort of `getFavorites` by the field `rating`, for entries whose rating
is read with `ratingOf`. -/
theorem jsSort_rating_eq {α : Type} (ratingOf : α → Option ℚ) (l : List α) :
    jsSort (fun a b => some (toNumber (ratingOf b) - toNumber (ratingOf a))) l =
      l.insertionSort (fun a b => toNumber (ratingOf b) ≤ toNumber (ratingOf a)) := by
  apply jsSort_eq_insertionSort_key _ (fun a => toNumber (ratingOf a))
  intro a _ b _
  simp

theorem ratedAlbums_eq_filterMap (albums : List Album) :
    HistoryView.ratedAlbums albums =
      albums.filterMap (fun a =>
        (resolvePrevalent a.manualRating a.autoRating).map
          (fun r => { album := a, rating := some r : RatedAlbum })) := by
  unfold HistoryView.ratedAlbums
  induction albums with
  | nil => rfl
  | cons a l ih =>
    have hr : HistoryView.albumRating a = resolvePrevalent a.manualRating a.autoRating := by
      cases hm : a.manualRating <;> simp [HistoryView.albumRating, resolvePrevalent, hm]
    simp only [List.map_cons, List.filter_cons, List.filterMap_cons, ih, hr]
    cases hp : resolvePrevalent a.manualRating a.autoRating <;> simp

theorem getFavorites_album_eq (s : Store) (currentUserId : Nat) :
    (HistoryView.getFavorites s currentUserId).album =
      ((HistoryView.ratedAlbums (getUserAlbums s currentUserId)).insertionSort
        (fun a b => toNumber b.rating ≤ toNumber a.rating)).head? := by
  simp only [HistoryView.getFavorites, guarded_head?, jsSort_rating_eq RatedAlbum.rating]
  by_cases h : (getUserAlbums s currentUserId).length > 0
  · simp only [h, if_true]
  · have h0 : getUserAlbums s currentUserId = [] := by
      cases hl : getUserAlbums s currentUserId with
      | nil => rfl
      | cons a l => rw [hl] at h; simp at h
    simp [h0, HistoryView.ratedAlbums]

/-- C15: `getFavorites().album` is `null` exactly when no album of the user has
a prevalent rating; otherwise it is an album of the user together with its
prevalent rating `r`, every album before it in store order is unrated or rated
below `r`, and every album after it is unrated or rated at most `r`: the first
album, in store order, among those of maximal prevalent rating. -/
theorem getFavorites_album (s : Store) (currentUserId : Nat) :
    ((HistoryView.getFavorites s currentUserId).album = none ↔
        ∀ a ∈ getUserAlbums s currentUserId,
          resolvePrevalent a.manualRating a.autoRating = none) ∧
      ∀ fav : RatedAlbum, (HistoryView.getFavorites s currentUserId).album = some fav →
        ∃ (r : ℚ) (l1 l2 : List Album),
          fav.rating = some r ∧
          resolvePrevalent fav.album.manualRating fav.album.autoRating = some r ∧
          getUserAlbums s currentUserId = l1 ++ fav.album :: l2 ∧
          (∀ a ∈ l1, ∀ q, resolvePrevalent a.manualRating a.autoRating = some q → q < r) ∧
          (∀ a ∈ l2, ∀ q, resolvePrevalent a.manualRating a.autoRating = some q → q ≤ r) := by
  rw [getFavorites_album_eq, ratedAlbums_eq_filterMap]
  constructor
  · rw [head?_insertionSort_eq_none, List.filterMap_eq_nil_iff]
    constructor
    · intro h a ha
      simpa using h a ha
    · intro h a ha
      simp [h a ha]
  · intro fav hfav
    obtain ⟨m1, m2, hsplit, hlt, hle⟩ :=
      head?_insertionSort_key (fun x : RatedAlbum => toNumber x.rating) _ fav hfav
    obtain ⟨l1, a, l2, hl, ha, h1, h2⟩ := filterMap_eq_append_cons _ _ m1 m2 fav hsplit
    cases hp : resolvePrevalent a.manualRating a.autoRating with
    | none => simp [hp] at ha
    | some r =>
      simp only [hp, Option.map_some', Option.some.injEq] at ha
      subst ha
      refine ⟨r, l1, l2, rfl, hp, hl, ?_, ?_⟩
      · intro b hb q hq
        have hmem : ({ album := b, rating := some q } : RatedAlbum) ∈ m1 := by
          rw [← h1, List.mem_filterMap]
          exact ⟨b, hb, by simp [hq]⟩
        simpa [toNumber] using hlt _ hmem
      · intro b hb q hq
        have hmem : ({ album := b, rating := some q } : RatedAlbum) ∈ m2 := by
          rw [← h2, List.mem_filterMap]
          exact ⟨b, hb, by simp [hq]⟩
        simpa [toNumber] using hle _ hmem

/-- Witness for C15: in `storeFavorites` albums 1 and 2 are both rated 7 and
album 1, the first in store order, is the favorite. -/
theorem getFavorites_album_witness :
    (HistoryView.getFavorites storeFavorites 1).album =
        some { album := exampleAlbum 1 1 "m1" "X" none (some 7), rating := some 7 } ∧
      ∃ (r : ℚ) (l1 l2 : List Album),
        (some 7 : Option ℚ) = some r ∧
        resolvePrevalent (exampleAlbum 1 1 "m1" "X" none (some 7)).manualRating
          (exampleAlbum 1 1 "m1" "X" none (some 7)).autoRating = some r ∧
        getUserAlbums storeFavorites 1 = l1 ++ exampleAlbum 1 1 "m1" "X" none (some 7) :: l2 ∧
        (∀ a ∈ l1, ∀ q, resolvePrevalent a.manualRating a.autoRating = some q → q < r) ∧
        (∀ a ∈ l2, ∀ q, resolvePrevalent a.manualRating a.autoRating = some q → q ≤ r) :=
  have h : (HistoryView.getFavorites storeFavorites 1).album =
      some { album := exampleAlbum 1 1 "m1" "X" none (some 7), rating := some 7 } := by
    rw [getFavorites_album_eq, ratedAlbums_eq_filterMap]
    simp [storeFavorites, getUserAlbums, exampleAlbum, resolvePrevalent, List.insertionSort,
      List.orderedInsert, toNumber]
  ⟨h, (getFavorites_album storeFavorites 1).2 _ h⟩

/-! ## Favorites: the song -/

theorem getFavorites_song_eq (s : Store) (currentUserId : Nat) :
    (HistoryView.getFavorites s currentUserId).song =
      ((HistoryView.allSongRatings s currentUserId (getUserAlbums s currentUserId)).insertionSort
        (fun a b => b.rating ≤ a.rating)).head? := by
  have hsort : ∀ l : List FavoriteSong,
      jsSort (fun a b => some (b.rating - a.rating)) l =
        l.insertionSort (fun a b => b.rating ≤ a.rating) := by
    intro l
    apply jsSort_eq_insertionSort_key _ (fun a : FavoriteSong => a.rating)
    intro a _ b _
    simp
  simp only [HistoryView.getFavorites, hsort]
  cases h : HistoryView.allSongRatings s currentUserId (getUserAlbums s currentUserId) with
  | nil => simp
  | cons x l => simp

/-- The entries of `allSongRatings` are the ratings read for an album of the
user whose track number is the number of a track of that album. -/
theorem mem_allSongRatings (s : Store) (currentUserId : Nat) (albums : List Album)
    (x : FavoriteSong) :
    x ∈ HistoryView.allSongRatings s currentUserId albums ↔
      ∃ album ∈ albums, ∃ rating ∈ getAlbumSongRatings s currentUserId album.id,
        ∃ track, album.tracks.find? (fun t => t.number = rating.trackNumber) = some track ∧
          x = { title := track.title, artist := album.artist, albumTitle := album.title,
                albumCover := album.coverUrl, rating := rating.rating } := by
  simp only [HistoryView.allSongRatings, List.mem_flatMap, HistoryView.albumSongRatings,
    List.mem_filterMap]
  constructor
  · rintro ⟨album, halbum, rating, hrating, hx⟩
    cases hf : album.tracks.find? (fun t => decide (t.number = rating.trackNumber)) with
    | none => simp [hf] at hx
    | some track =>
      simp only [hf, Option.some.injEq] at hx
      exact ⟨album, halbum, rating, hrating, track, hf, hx.symm⟩
  · rintro ⟨album, halbum, rating, hrating, track, hf, hx⟩
    exact ⟨album, halbum, rating, hrating, by simp [hf, hx]⟩

/-- C17 fails as stated: in `storeOrphanRating` the user has a song rating, for
a track number that the album does not have, and `getFavorites().song` is
`null`. -/
theorem getFavorites_song_null_with_rating :
    getAlbumSongRatings storeOrphanRating 1 1 =
        [{ id := 1, userId := 1, albumId := 1, trackNumber := 5, rating := 8 }] ∧
      (HistoryView.getFavorites storeOrphanRating 1).song = none := by
  constructor
  · simp [getAlbumSongRatings, storeOrphanRating]
  · rw [getFavorites_song_eq]
    simp [HistoryView.allSongRatings, HistoryView.albumSongRatings, getAlbumSongRatings,
      getUserAlbums, storeOrphanRating, exampleAlbum]

/-- C17, amended: `getFavorites().song` is taken among the user's song ratings
that are stored for an album of the user's library and whose track number is
the number of a track of that album.  It is `null` exactly when there is no
such rating; otherwise it comes from such a rating, no such rating is higher,
and in the order of the scan (albums in store order, the ratings of each album
in store order) every earlier entry is rated strictly lower. -/
theorem getFavorites_song (s : Store) (currentUserId : Nat) :
    ((HistoryView.getFavorites s currentUserId).song = none ↔
        ∀ album ∈ getUserAlbums s currentUserId,
          ∀ rating ∈ getAlbumSongRatings s currentUserId album.id,
            album.tracks.find? (fun t => t.number = rating.trackNumber) = none) ∧
      ∀ fav : FavoriteSong, (HistoryView.getFavorites s currentUserId).song = some fav →
        (∃ album ∈ getUserAlbums s currentUserId,
          ∃ rating ∈ getAlbumSongRatings s currentUserId album.id,
            ∃ track, album.tracks.find? (fun t => t.number = rating.trackNumber) = some track ∧
              fav = { title := track.title, artist := album.artist, albumTitle := album.title,
                      albumCover := album.coverUrl, rating := rating.rating }) ∧
        (∀ album ∈ getUserAlbums s currentUserId,
          ∀ rating ∈ getAlbumSongRatings s currentUserId album.id,
            (album.tracks.find? (fun t => t.number = rating.trackNumber)).isSome = true →
              rating.rating ≤ fav.rating) ∧
        ∃ l1 l2 : List FavoriteSong,
          HistoryView.allSongRatings s currentUserId (getUserAlbums s currentUserId) =
            l1 ++ fav :: l2 ∧
          (∀ x ∈ l1, x.rating < fav.rating) ∧ ∀ x ∈ l2, x.rating ≤ fav.rating := by
  rw [getFavorites_song_eq]
  constructor
  · rw [head?_insertionSort_eq_none]
    constructor
    · intro h album halbum rating hrating
      cases hf : album.tracks.find? (fun t => decide (t.number = rating.trackNumber)) with
      | none => rfl
      | some track =>
        have hmem := (mem_allSongRatings s currentUserId (getUserAlbums s currentUserId)
          _).mpr ⟨album, halbum, rating, hrating, track, hf, rfl⟩
        rw [h] at hmem
        simp at hmem
    · intro h
      apply List.eq_nil_iff_forall_not_mem.mpr
      intro x hx
      obtain ⟨album, halbum, rating, hrating, track, hf, _⟩ :=
        (mem_allSongRatings s currentUserId _ x).mp hx
      rw [h album halbum rating hrating] at hf
      simp at hf
  · intro fav hfav
    obtain ⟨l1, l2, hsplit, hlt, hle⟩ :=
      head?_insertionSort_key (fun x : FavoriteSong => x.rating) _ fav hfav
    have hfavmem : fav ∈ HistoryView.allSongRatings s currentUserId
        (getUserAlbums s currentUserId) := by
      rw [hsplit]
      simp
    refine ⟨(mem_allSongRatings s currentUserId _ fav).mp hfavmem, ?_, l1, l2, hsplit, hlt, hle⟩
    intro album halbum rating hrating hsome
    obtain ⟨track, hf⟩ := Option.isSome_iff_exists.mp hsome
    have hmem := (mem_allSongRatings s currentUserId (getUserAlbums s currentUserId)
      _).mpr ⟨album, halbum, rating, hrating, track, hf, rfl⟩
    rw [hsplit] at hmem
    simp only [List.mem_append, List.mem_cons] at hmem
    rcases hmem with h | h | h
    · exact le_of_lt (hlt _ h)
    · rw [← h]
    · exact hle _ h

/-- Witness for C17: in `storeFavorites` the rating 8 of track 1 of album 3 is
the favorite song; the rating 9 stored for track number 2, which album 3 does
not have, is skipped. -/
theorem getFavorites_song_witness :
    (HistoryView.getFavorites storeFavorites 1).song =
        some { title := "T1", artist := "X", albumTitle := "A", albumCover := none,
               rating := 8 } ∧
      ∃ l1 l2 : List FavoriteSong,
        HistoryView.allSongRatings storeFavorites 1 (getUserAlbums storeFavorites 1) =
          l1 ++ { title := "T1", artist := "X", albumTitle := "A", albumCover := none,
                  rating := 8 } :: l2 ∧
        (∀ x ∈ l1, x.rating < (8 : ℚ)) ∧ ∀ x ∈ l2, x.rating ≤ (8 : ℚ) :=
  have h : (HistoryView.getFavorites storeFavorites 1).song =
      some { title := "T1", artist := "X", albumTitle := "A", albumCover := none,
             rating := 8 } := by
    rw [getFavorites_song_eq]
    simp [HistoryView.allSongRatings, HistoryView.albumSongRatings, getAlbumSongRatings,
      getUserAlbums, storeFavorites, exampleAlbum, List.insertionSort, List.orderedInsert]
  ⟨h, ((getFavorites_song storeFavorites 1).2 _ h).2.2⟩

/-! ## Grouping by artist -/

theorem pushAlbum_of_mem (m : List (String × List Album)) (a : Album)
    (h : a.artist ∈ m.map Prod.fst) :
    pushAlbum m a = m.map (fun g => if g.1 = a.artist then (g.1, g.2 ++ [a]) else g) := by
  have hany : (m.any fun g => decide (g.1 = a.artist)) = true := by
    rw [List.any_eq_true]
    obtain ⟨g, hg, hga⟩ := List.mem_map.mp h
    exact ⟨g, hg, by simp [hga]⟩
  simp [pushAlbum, hany]

theorem pushAlbum_of_not_mem (m : List (String × List Album)) (a : Album)
    (h : a.artist ∉ m.map Prod.fst) :
    pushAlbum m a = m ++ [(a.artist, [a])] := by
  have hne : ∀ g ∈ m, g.1 ≠ a.artist := by
    intro g hg hga
    exact h (List.mem_map.mpr ⟨g, hg, hga⟩)
  have hany : (m.any fun g => decide (g.1 = a.artist)) = false := by
    rw [List.any_eq_false]
    intro g hg
    simpa using hne g hg
  have hmap : m.map (fun g => if g.1 = a.artist then (g.1, g.2 ++ [a]) else g) = m := by
    conv_rhs => rw [← List.map_id m]
    apply List.map_congr_left
    intro g hg
    simp [hne g hg]
  simp [pushAlbum, hany, hmap]

theorem sum_lengths_push (m : List (String × List Album)) (k : String) (a : Album)
    (hnodup : (m.map Prod.fst).Nodup) (hk : k ∈ m.map Prod.fst) :
    ((m.map (fun g => if g.1 = k then (g.1, g.2 ++ [a]) else g)).map
        (fun g => g.2.length)).sum = (m.map (fun g => g.2.length)).sum + 1 := by
  induction m with
  | nil => simp at hk
  | cons e m ih =>
    simp only [List.map_cons, List.nodup_cons] at hnodup
    obtain ⟨hnot, hnd⟩ := hnodup
    by_cases he : e.1 = k
    · have hid : m.map (fun g => if g.1 = k then (g.1, g.2 ++ [a]) else g) = m := by
        conv_rhs => rw [← List.map_id m]
        apply List.map_congr_left
        intro g hg
        have : g.1 ≠ k := by
          intro hgk
          exact hnot (List.mem_map.mpr ⟨g, hg, by rw [hgk, he]⟩)
        simp [this]
      simp only [List.map_cons, he, if_true, hid, List.sum_cons, List.length_append,
        List.length_singleton]
      omega
    · have hk2 : k ∈ m.map Prod.fst := by
        simp only [List.map_cons, List.mem_cons] at hk
        rcases hk with hk | hk
        · exact absurd hk.symm he
        · exact hk
      simp only [List.map_cons, he, if_false, List.sum_cons, ih hnd hk2]
      omega

theorem GroupedByArtist.name_mem {m : List (String × List Album)} {pre : List Album}
    (h : GroupedByArtist m pre) (g : String × List Album) (hg : g ∈ m) :
    g.1 ∈ pre.map Album.artist := by
  have hne := h.group_ne_nil g hg
  rw [h.group_eq g hg] at hne
  obtain ⟨x, hx⟩ := List.exists_mem_of_ne_nil _ hne
  rw [List.mem_filter] at hx
  exact List.mem_map.mpr ⟨x, hx.1, by simpa using hx.2⟩

theorem filter_append_singleton (pre : List Album) (a : Album) (k : String) :
    (pre ++ [a]).filter (fun x => decide (x.artist = k)) =
      if a.artist = k then pre.filter (fun x => decide (x.artist = k)) ++ [a]
      else pre.filter (fun x => decide (x.artist = k)) := by
  by_cases h : a.artist = k <;> simp [List.filter_append, h]

/-- One iteration of the grouping loop keeps the groups a partition. -/
theorem GroupedByArtist.push {m : List (String × List Album)} {pre : List Album}
    (h : GroupedByArtist m pre) (a : Album) :
    GroupedByArtist (pushAlbum m a) (pre ++ [a]) := by
  have hidx : ∀ g ∈ m, (((pre ++ [a]).map Album.artist).indexOf g.1) =
      (pre.map Album.artist).indexOf g.1 := by
    intro g hg
    rw [List.map_append]
    exact List.indexOf_append_of_mem (h.name_mem g hg)
  by_cases hmem : a.artist ∈ m.map Prod.fst
  · rw [pushAlbum_of_mem m a hmem]
    have hfst : (m.map (fun g => if g.1 = a.artist then (g.1, g.2 ++ [a]) else g)).map Prod.fst =
        m.map Prod.fst := by
      rw [List.map_map]
      apply List.map_congr_left
      intro g _
      by_cases hg : g.1 = a.artist <;> simp [hg]
    refine ⟨by rw [hfst]; exact h.names_nodup, ?_, ?_, ?_, ?_, ?_⟩
    · intro g2 hg2
      obtain ⟨g, hg, rfl⟩ := List.mem_map.mp hg2
      by_cases hga : g.1 = a.artist
      · simp only [hga, if_true, filter_append_singleton]
        rw [h.group_eq g hg, hga]
      · have hag : ¬ a.artist = g.1 := fun h2 => hga h2.symm
        simp only [hga, if_false, filter_append_singleton, hag]
        exact h.group_eq g hg
    · intro g2 hg2
      obtain ⟨g, hg, rfl⟩ := List.mem_map.mp hg2
      by_cases hga : g.1 = a.artist
      · simp [hga]
      · simp only [hga, if_false]
        exact h.group_ne_nil g hg
    · intro x hx
      rw [hfst]
      simp only [List.mem_append, List.mem_singleton] at hx
      rcases hx with hx | hx
      · exact h.covers x hx
      · rw [hx]; exact hmem
    · rw [sum_lengths_push m a.artist a h.names_nodup hmem, h.sizes]
      simp
    · rw [List.pairwise_map]
      refine h.ordered.imp_of_mem ?_
      intro g1 g2 hg1 hg2 hlt
      have e1 : (if g1.1 = a.artist then (g1.1, g1.2 ++ [a]) else g1).1 = g1.1 := by
        by_cases hg : g1.1 = a.artist <;> simp [hg]
      have e2 : (if g2.1 = a.artist then (g2.1, g2.2 ++ [a]) else g2).1 = g2.1 := by
        by_cases hg : g2.1 = a.artist <;> simp [hg]
      rw [e1, e2, hidx g1 hg1, hidx g2 hg2]
      exact hlt
  · rw [pushAlbum_of_not_mem m a hmem]
    have hpre : a.artist ∉ pre.map Album.artist := by
      intro hin
      obtain ⟨x, hx, hxa⟩ := List.mem_map.mp hin
      exact hmem (hxa ▸ h.covers x hx)
    have hne : ∀ g ∈ m, ¬ a.artist = g.1 := by
      intro g hg hag
      exact hmem (List.mem_map.mpr ⟨g, hg, hag.symm⟩)
    refine ⟨?_, ?_, ?_, ?_, ?_, ?_⟩
    · rw [List.map_append, List.nodup_append]
      refine ⟨h.names_nodup, by simp, ?_⟩
      intro k hk hk2
      simp only [List.map_cons, List.map_nil, List.mem_singleton] at hk2
      exact hmem (hk2 ▸ hk)
    · intro g hg
      simp only [List.mem_append, List.mem_singleton] at hg
      rcases hg with hg | hg
      · simp only [filter_append_singleton, hne g hg, if_false]
        exact h.group_eq g hg
      · rw [hg]
        simp only [filter_append_singleton, if_true]
        have : pre.filter (fun x => decide (x.artist = a.artist)) = [] := by
          rw [List.filter_eq_nil_iff]
          intro x hx hxa
          exact hpre (List.mem_map.mpr ⟨x, hx, by simpa using hxa⟩)
        rw [this]
        rfl
    · intro g hg
      simp only [List.mem_append, List.mem_singleton] at hg
      rcases hg with hg | hg
      · exact h.group_ne_nil g hg
      · rw [hg]; simp
    · intro x hx
      simp only [List.mem_append, List.mem_singleton] at hx
      rw [List.map_append]
      rcases hx with hx | hx
      · exact List.mem_append_left _ (h.covers x hx)
      · rw [hx]; simp
    · simp [h.sizes]
    · rw [List.pairwise_append]
      refine ⟨h.ordered.imp_of_mem ?_, by simp, ?_⟩
      · intro g1 g2 hg1 hg2 hlt
        rw [hidx g1 hg1, hidx g2 hg2]
        exact hlt
      · intro g1 hg1 g2 hg2
        simp only [List.mem_singleton] at hg2
        rw [hg2, hidx g1 hg1, List.map_append, List.indexOf_append_of_not_mem hpre]
        have := List.indexOf_lt_length.mpr (h.name_mem g1 hg1)
        simp only [List.length_map] at this ⊢
        omega

/-- The `Map` built by the grouping loop partitions the albums by artist. -/
theorem groupByArtist_grouped (albums : List Album) :
    GroupedByArtist (groupByArtist albums) albums := by
  have hgen : ∀ (rest pre : List Album) (m : List (String × List Album)),
      GroupedByArtist m pre → GroupedByArtist (rest.foldl pushAlbum m) (pre ++ rest) := by
    intro rest
    induction rest with
    | nil => intro pre m h; simpa using h
    | cons a rest ih =>
      intro pre m h
      have := ih (pre ++ [a]) (pushAlbum m a) (h.push a)
      simpa using this
  have hbase : GroupedByArtist [] [] :=
    ⟨by simp, by simp, by simp, by simp, by simp, by simp⟩
  simpa [groupByArtist] using hgen albums [] [] hbase

/-- C18: the grouping built by `ArtistsView.load` partitions the albums by
exact artist string: no two groups have the same name, the group of a name
holds exactly the albums with that artist string, so every album is in the
group named by its artist string and in no other, no group is empty, and the
group sizes sum to the number of albums. -/
theorem groupAlbums_partition (albums : List Album) :
    ((ArtistsView.groupAlbums albums).map Artist.name).Nodup ∧
      (∀ artist ∈ ArtistsView.groupAlbums albums,
        artist.albums = albums.filter (fun a => a.artist = artist.name) ∧
          artist.albums ≠ []) ∧
      (∀ a ∈ albums, ∃ artist ∈ ArtistsView.groupAlbums albums,
        artist.name = a.artist ∧ a ∈ artist.albums) ∧
      (∀ artist ∈ ArtistsView.groupAlbums albums, ∀ a ∈ artist.albums,
        a ∈ albums ∧ a.artist = artist.name) ∧
      ((ArtistsView.groupAlbums albums).map (fun artist => artist.albums.length)).sum =
        albums.length := by
  have h := groupByArtist_grouped albums
  have hmem : ∀ artist ∈ ArtistsView.groupAlbums albums,
      ∃ g ∈ groupByArtist albums, artist.name = g.1 ∧ artist.albums = g.2 := by
    intro artist hartist
    obtain ⟨g, hg, rfl⟩ := List.mem_map.mp hartist
    exact ⟨g, hg, rfl, rfl⟩
  have hgroup : ∀ artist ∈ ArtistsView.groupAlbums albums,
      artist.albums = albums.filter (fun a => a.artist = artist.name) := by
    intro artist hartist
    obtain ⟨g, hg, hname, halbums⟩ := hmem artist hartist
    rw [halbums, hname]
    exact h.group_eq g hg
  refine ⟨?_, ?_, ?_, ?_, ?_⟩
  · have : (ArtistsView.groupAlbums albums).map Artist.name =
        (groupByArtist albums).map Prod.fst := by
      simp [ArtistsView.groupAlbums, List.map_map, Function.comp_def]
    rw [this]
    exact h.names_nodup
  · intro artist hartist
    refine ⟨hgroup artist hartist, ?_⟩
    obtain ⟨g, hg, _, halbums⟩ := hmem artist hartist
    rw [halbums]
    exact h.group_ne_nil g hg
  · intro a ha
    obtain ⟨g, hg, hga⟩ := List.mem_map.mp (h.covers a ha)
    refine ⟨{ name := g.1, albums := g.2, autoRating := none, manualRating := none,
              imageUrl := none }, List.mem_map.mpr ⟨g, hg, rfl⟩, hga, ?_⟩
    simp only
    rw [h.group_eq g hg, List.mem_filter]
    exact ⟨ha, by simp [hga]⟩
  · intro artist hartist a ha
    rw [hgroup artist hartist, List.mem_filter] at ha
    exact ⟨ha.1, by simpa using ha.2⟩
  · have : (ArtistsView.groupAlbums albums).map (fun artist => artist.albums.length) =
        (groupByArtist albums).map (fun g => g.2.length) := by
      simp [ArtistsView.groupAlbums, List.map_map, Function.comp_def]
    rw [this]
    exact h.sizes

/-! ## Favorites: the artist -/

/-- The entry that the rating loop of `getFavorites` makes of a group. -/
theorem rateArtist_group (s : Store) (currentUserId : Nat) (albums : List Album)
    (g : String × List Album) (hg : g.2 = albums.filter (fun a => a.artist = g.1)) :
    HistoryView.rateArtist s currentUserId
        { name := g.1, albums := g.2, rating := none, albumCount := none } =
      { name := g.1, albums := g.2,
        rating := artistComputedRating s currentUserId g.1 albums,
        albumCount := some g.2.length } := by
  have hmap : (g.2.map HistoryView.artistAlbumRating).filterMap id =
      g.2.filterMap (fun a => resolvePrevalent a.manualRating a.autoRating) := by
    rw [List.filterMap_map]
    apply List.filterMap_congr
    intro a _
    cases hm : a.manualRating <;>
      simp [HistoryView.artistAlbumRating, resolvePrevalent, hm]
  unfold HistoryView.rateArtist artistComputedRating
  simp only [hmap, ← hg]
  generalize g.2.filterMap (fun a => resolvePrevalent a.manualRating a.autoRating) = ratings
  cases hrow : getArtistRating s currentUserId g.1 with
  | none =>
    cases ratings with
    | nil => simp [resolvePrevalent, average]
    | cons x xs => simp [resolvePrevalent]
  | some row =>
    cases hm : row.manualRating with
    | some m => simp [resolvePrevalent, hm]
    | none =>
      cases ratings with
      | nil => simp [resolvePrevalent, average, hm]
      | cons x xs => simp [resolvePrevalent, hm]

theorem getFavorites_artist_eq (s : Store) (currentUserId : Nat) :
    (HistoryView.getFavorites s currentUserId).artist =
      (((HistoryView.artistEntries s currentUserId (getUserAlbums s currentUserId)).filter
        (fun a => a.rating ≠ none)).insertionSort
          (fun a b => toNumber b.rating ≤ toNumber a.rating)).head? := by
  simp only [HistoryView.getFavorites, guarded_head?, jsSort_rating_eq FavoriteArtist.rating]
  by_cases h : (getUserAlbums s currentUserId).length > 0
  · simp only [h, if_true]
  · have h0 : getUserAlbums s currentUserId = [] := by
      cases hl : getUserAlbums s currentUserId with
      | nil => rfl
      | cons a l => rw [hl] at h; simp at h
    simp [h0, HistoryView.artistEntries, groupByArtist]

/-- The rated entries of the artist part of `getFavorites`, as a `filterMap`
over the groups. -/
theorem ratedArtists_eq_filterMap (s : Store) (currentUserId : Nat) (albums : List Album) :
    (HistoryView.artistEntries s currentUserId albums).filter (fun a => a.rating ≠ none) =
      (groupByArtist albums).filterMap (fun g =>
        (artistComputedRating s currentUserId g.1 albums).map (fun r =>
          { name := g.1, albums := g.2, rating := some r,
            albumCount := some g.2.length : FavoriteArtist })) := by
  have h := groupByArtist_grouped albums
  unfold HistoryView.artistEntries
  rw [List.map_map]
  generalize hG : groupByArtist albums = groups
  have hgroups : ∀ g ∈ groups, g.2 = albums.filter (fun a => a.artist = g.1) := by
    intro g hg
    rw [← hG] at hg
    exact h.group_eq g hg
  clear hG h
  induction groups with
  | nil => rfl
  | cons g groups ih =>
    have hg := rateArtist_group s currentUserId albums g (hgroups g (by simp))
    have hrest := ih (fun x hx => hgroups x (by simp [hx]))
    simp only [List.map_cons, Function.comp_apply, List.filter_cons, List.filterMap_cons, hg,
      hrest]
    cases hp : artistComputedRating s currentUserId g.1 albums <;> simp

/-- C16, amended: `getFavorites().artist` is `null` exactly when no artist of the
user's albums has a computed rating (the stored `manualRating` if non-null,
otherwise the mean that `average` computes in binary64 from the non-null
prevalent ratings of the artist's albums); otherwise it is an artist with a
computed rating `r`, together with all the user's albums of that artist, such
that no artist has a computed rating above `r` and every artist with the
computed rating `r` has its first album no earlier in store order. -/
theorem getFavorites_artist (s : Store) (currentUserId : Nat) :
    ((HistoryView.getFavorites s currentUserId).artist = none ↔
        ∀ a ∈ getUserAlbums s currentUserId,
          artistComputedRating s currentUserId a.artist (getUserAlbums s currentUserId) =
            none) ∧
      ∀ fav : FavoriteArtist, (HistoryView.getFavorites s currentUserId).artist = some fav →
        fav.albums = (getUserAlbums s currentUserId).filter (fun a => a.artist = fav.name) ∧
        fav.albums ≠ [] ∧
        fav.albumCount = some fav.albums.length ∧
        ∃ r : ℚ, fav.rating = some r ∧
          artistComputedRating s currentUserId fav.name (getUserAlbums s currentUserId) =
            some r ∧
          ∀ a ∈ getUserAlbums s currentUserId, ∀ q : ℚ,
            artistComputedRating s currentUserId a.artist (getUserAlbums s currentUserId) =
              some q →
            q ≤ r ∧ (q = r →
              ((getUserAlbums s currentUserId).map Album.artist).indexOf fav.name ≤
                ((getUserAlbums s currentUserId).map Album.artist).indexOf a.artist) := by
  rw [getFavorites_artist_eq, ratedArtists_eq_filterMap]
  generalize getUserAlbums s currentUserId = albums
  have hG := groupByArtist_grouped albums
  constructor
  · rw [head?_insertionSort_eq_none, List.filterMap_eq_nil_iff]
    constructor
    · intro h a ha
      obtain ⟨g, hg, hga⟩ := List.mem_map.mp (hG.covers a ha)
      have := h g hg
      rw [← hga]
      simpa using this
    · intro h g hg
      obtain ⟨a, ha, hag⟩ := List.mem_map.mp (hG.name_mem g hg)
      have := h a ha
      rw [hag] at this
      simp [this]
  · intro fav hfav
    obtain ⟨m1, m2, hsplit, hlt, hle⟩ :=
      head?_insertionSort_key (fun x : FavoriteArtist => toNumber x.rating) _ fav hfav
    obtain ⟨G1, g, G2, hgroups, hg, h1, h2⟩ := filterMap_eq_append_cons _ _ m1 m2 fav hsplit
    have hgmem : g ∈ groupByArtist albums := by rw [hgroups]; simp
    cases hp : artistComputedRating s currentUserId g.1 albums with
    | none => simp [hp] at hg
    | some r =>
      simp only [hp, Option.map_some', Option.some.injEq] at hg
      subst hg
      refine ⟨hG.group_eq g hgmem, hG.group_ne_nil g hgmem, rfl, r, rfl, hp, ?_⟩
      intro a ha q hq
      obtain ⟨g2, hg2, hg2a⟩ := List.mem_map.mp (hG.covers a ha)
      rw [← hg2a] at hq ⊢
      have hord := hG.ordered
      rw [hgroups] at hg2 hord
      simp only [List.mem_append, List.mem_cons] at hg2
      rcases hg2 with hin | hin | hin
      · have hmem : (⟨g2.1, g2.2, some q, some g2.2.length⟩ : FavoriteArtist) ∈ m1 := by
          rw [← h1, List.mem_filterMap]
          exact ⟨g2, hin, by simp [hq]⟩
        have hlt2 : q < r := by simpa [toNumber] using hlt _ hmem
        exact ⟨le_of_lt hlt2, fun hqr => absurd hqr (ne_of_lt hlt2)⟩
      · rw [hin] at hq ⊢
        rw [hp] at hq
        simp only [Option.some.injEq] at hq
        exact ⟨le_of_eq hq.symm, fun _ => le_refl _⟩
      · have hmem : (⟨g2.1, g2.2, some q, some g2.2.length⟩ : FavoriteArtist) ∈ m2 := by
          rw [← h2, List.mem_filterMap]
          exact ⟨g2, hin, by simp [hq]⟩
        have hle2 : q ≤ r := by simpa [toNumber] using hle _ hmem
        refine ⟨hle2, fun _ => ?_⟩
        rw [List.pairwise_append] at hord
        have := (List.pairwise_cons.mp hord.2.1).1 g2 hin
        exact le_of_lt this

/-- Witness for C16, amended: in `storeFavorites` the artists `X` and `Y`
are both rated 7 and `X`, whose first album comes first, is the favorite. -/
theorem getFavorites_artist_witness :
    ∃ fav : FavoriteArtist,
      (HistoryView.getFavorites storeFavorites 1).artist = some fav ∧
      fav.albums = (getUserAlbums storeFavorites 1).filter (fun a => a.artist = fav.name) ∧
      fav.albums ≠ [] ∧
      fav.albumCount = some fav.albums.length ∧
      ∃ r : ℚ, fav.rating = some r ∧
        artistComputedRating storeFavorites 1 fav.name (getUserAlbums storeFavorites 1) =
          some r ∧
        ∀ a ∈ getUserAlbums storeFavorites 1, ∀ q : ℚ,
          artistComputedRating storeFavorites 1 a.artist (getUserAlbums storeFavorites 1) =
            some q →
          q ≤ r ∧ (q = r →
            ((getUserAlbums storeFavorites 1).map Album.artist).indexOf fav.name ≤
              ((getUserAlbums storeFavorites 1).map Album.artist).indexOf a.artist) := by
  cases h : (HistoryView.getFavorites storeFavorites 1).artist with
  | none =>
    exfalso
    have h0 := (getFavorites_artist storeFavorites 1).1.mp h
      (exampleAlbum 2 1 "m2" "Y" (some 7) none)
      (by simp [getUserAlbums, storeFavorites, exampleAlbum])
    simp [artistComputedRating, getArtistRating, getUserAlbums, storeFavorites, exampleAlbum,
      resolvePrevalent, average_seven] at h0
  | some fav => exact ⟨fav, rfl, (getFavorites_artist storeFavorites 1).2 fav h⟩

/-- In `storeFavorites` the favorite artist is `X`, rated 7 like `Y`. -/
theorem getFavorites_artist_example :
    (HistoryView.getFavorites storeFavorites 1).artist.map
        (fun fav => (fav.name, fav.rating, fav.albumCount)) =
      some ("X", some 7, some 2) := by
  rw [getFavorites_artist_eq, ratedArtists_eq_filterMap]
  simp [groupByArtist, pushAlbum, getUserAlbums, storeFavorites, exampleAlbum,
    artistComputedRating, getArtistRating, resolvePrevalent, average_seven, List.insertionSort,
    List.orderedInsert, toNumber]
  norm_num [numberDiv, numberAdd, roundToDouble_seven]

/-- The mean that `average` computes from the single number 5.4. -/
theorem average_fivePointFour : average [fivePointFour] = some fivePointFour := by
  have h1 : roundToDouble (3039929748475085 / 562949953421312) =
      3039929748475085 / 562949953421312 := roundToDouble_fivePointFour
  simp only [average, numberAdd, numberDiv, fivePointFour, List.foldl_cons, List.foldl_nil,
    List.length_cons, List.length_nil]
  norm_num [h1]

/-- C16 fails as stated: in `storeTiedArtists` the artist `Y`, with one album
rated 5.4 that comes first, and the artist `X`, with three albums rated 5.4,
have the same prevalent rating in the words of the specification, the
arithmetic mean 5.4 of the album ratings; yet `getFavorites().artist` is `X`,
for which `average` computes 5.400000000000001. -/
theorem getFavorites_artist_tie_split :
    artistPrevalentRating storeTiedArtists 1 "Y" (getUserAlbums storeTiedArtists 1) =
        some fivePointFour ∧
      artistPrevalentRating storeTiedArtists 1 "X" (getUserAlbums storeTiedArtists 1) =
        some fivePointFour ∧
      ((getUserAlbums storeTiedArtists 1).map Album.artist).indexOf "Y" <
        ((getUserAlbums storeTiedArtists 1).map Album.artist).indexOf "X" ∧
      (HistoryView.getFavorites storeTiedArtists 1).artist.map
          (fun fav => (fav.name, fav.rating)) =
        some ("X", some (fivePointFour + 1 / 2 ^ 50)) := by
  have hY : ((getUserAlbums storeTiedArtists 1).filter (fun a => a.artist = "Y")).filterMap
      (fun a => resolvePrevalent a.manualRating a.autoRating) = [fivePointFour] := by
    simp [getUserAlbums, storeTiedArtists, exampleAlbum, resolvePrevalent]
  have hX : ((getUserAlbums storeTiedArtists 1).filter (fun a => a.artist = "X")).filterMap
      (fun a => resolvePrevalent a.manualRating a.autoRating) =
        [fivePointFour, fivePointFour, fivePointFour] := by
    simp [getUserAlbums, storeTiedArtists, exampleAlbum, resolvePrevalent]
  have hrow : ∀ name : String, getArtistRating storeTiedArtists 1 name = none := by
    intro name
    simp [getArtistRating, storeTiedArtists]
  have hcY : artistComputedRating storeTiedArtists 1 "Y" (getUserAlbums storeTiedArtists 1) =
      some fivePointFour := by
    simp only [artistComputedRating, hrow, hY, average_fivePointFour]
    rfl
  have hcX : artistComputedRating storeTiedArtists 1 "X" (getUserAlbums storeTiedArtists 1) =
      some (fivePointFour + 1 / 2 ^ 50) := by
    simp only [artistComputedRating, hrow, hX, average_three_fivePointFour]
    rfl
  have hgroups : groupByArtist (getUserAlbums storeTiedArtists 1) =
      [("Y", [exampleAlbum 1 1 "m1" "Y" none (some fivePointFour)]),
       ("X", [exampleAlbum 2 1 "m2" "X" none (some fivePointFour),
              exampleAlbum 3 1 "m3" "X" none (some fivePointFour),
              exampleAlbum 4 1 "m4" "X" none (some fivePointFour)])] := by
    simp [groupByArtist, pushAlbum, getUserAlbums, storeTiedArtists, exampleAlbum]
  refine ⟨?_, ?_, ?_, ?_⟩
  · simp only [artistPrevalentRating, hrow, hY, meanOf, List.cons_ne_nil, if_false,
      List.sum_cons, List.sum_nil, List.length_cons, List.length_nil, fivePointFour]
    norm_num [resolvePrevalent]
  · simp only [artistPrevalentRating, hrow, hX, meanOf, List.cons_ne_nil, if_false,
      List.sum_cons, List.sum_nil, List.length_cons, List.length_nil, fivePointFour]
    norm_num [resolvePrevalent]
  · simp [getUserAlbums, storeTiedArtists, exampleAlbum, List.indexOf_cons]
  · rw [getFavorites_artist_eq, ratedArtists_eq_filterMap, hgroups]
    simp only [List.filterMap_cons, List.filterMap_nil, hcY, hcX, Option.map_some']
    simp [List.insertionSort, List.orderedInsert, toNumber]
    norm_num

/-! ## Operations on an album that does not exist -/

theorem setSongRating_ne_notFound (s : Store) (userId albumId trackNumber : Nat) (rating : ℚ) :
    (setSongRating s userId albumId trackNumber rating).1 ≠ .error .albumNonTrovato := by
  unfold setSongRating
  simp only
  split
  · split
    · split <;> simp
    · split <;> simp
  · split <;> simp

/-- C19 fails as stated: no album 42 exists in the empty store, yet
`setSongRating` for album 42 succeeds and stores a row, and
`calculateAlbumAutoRating` for album 42 returns `null` without an error. -/
theorem setSongRating_missing_album_succeeds :
    getAlbum emptyStore 42 = none ∧
      (setSongRating emptyStore 1 42 1 8).1 = .ok 1 ∧
      (setSongRating emptyStore 1 42 1 8).2.songRatings =
        [{ id := 1, userId := 1, albumId := 42, trackNumber := 1, rating := 8 }] ∧
      (setSongRating emptyStore 1 42 1 8).2 ≠ emptyStore ∧
      (calculateAlbumAutoRating emptyStore 1 42).1 = .ok none := by
  refine ⟨by simp [getAlbum, emptyStore], by simp [setSongRating, emptyStore],
    by simp [setSongRating, emptyStore, insertByKey], ?_,
    by simp [calculateAlbumAutoRating, getAlbumSongRatings, emptyStore]⟩
  intro h
  have := congrArg Store.songRatings h
  simp [setSongRating, emptyStore, insertByKey] at this

/-- C19, amended: when no album with the id exists, `updateAlbumRating` fails
with the error `Album non trovato` and leaves the store unchanged;
`calculateAlbumAutoRating` fails in the same way, leaving the store unchanged,
when the user has a song rating stored under that id, and returns `null`
without writing when the user has none; `setSongRating` does not look the
album up and never fails with that error. -/
theorem missing_album (s : Store) (albumId : Nat) (hMissing : getAlbum s albumId = none) :
    (∀ manualRating autoRating : Option ℚ,
        updateAlbumRating s albumId manualRating autoRating = (.error .albumNonTrovato, s)) ∧
      (∀ userId : Nat, getAlbumSongRatings s userId albumId ≠ [] →
        calculateAlbumAutoRating s userId albumId = (.error .albumNonTrovato, s)) ∧
      (∀ userId : Nat, getAlbumSongRatings s userId albumId = [] →
        calculateAlbumAutoRating s userId albumId = (.ok none, s)) ∧
      (∀ (userId trackNumber : Nat) (rating : ℚ),
        (setSongRating s userId albumId trackNumber rating).1 ≠ .error .albumNonTrovato) := by
  have hupd : ∀ manualRating autoRating : Option ℚ,
      updateAlbumRating s albumId manualRating autoRating = (.error .albumNonTrovato, s) := by
    intro manualRating autoRating
    simp [updateAlbumRating, hMissing]
  refine ⟨hupd, ?_, ?_, fun userId trackNumber rating =>
    setSongRating_ne_notFound s userId albumId trackNumber rating⟩
  · intro userId hRated
    have hlen : (getAlbumSongRatings s userId albumId).length ≠ 0 := by
      simpa [List.length_eq_zero] using hRated
    simp only [calculateAlbumAutoRating, hlen, if_false, hupd]
  · intro userId hNone
    simp [calculateAlbumAutoRating, hNone]

/-- Witness for C19: album 42 does not exist in the empty store. -/
theorem missing_album_witness :
    getAlbum emptyStore 42 = none ∧
      updateAlbumRating emptyStore 42 (some 9) none = (.error .albumNonTrovato, emptyStore) ∧
      calculateAlbumAutoRating (setSongRating emptyStore 1 42 1 8).2 1 42 =
        (.error .albumNonTrovato, (setSongRating emptyStore 1 42 1 8).2) :=
  ⟨by simp [getAlbum, emptyStore],
   (missing_album emptyStore 42 (by simp [getAlbum, emptyStore])).1 (some 9) none,
   (missing_album (setSongRating emptyStore 1 42 1 8).2 42
     (by simp [getAlbum, setSongRating, emptyStore])).2.1 1
     (by simp [getAlbumSongRatings, setSongRating, emptyStore, insertByKey])⟩

/-! ## Rounding a rating -/

theorem floor_int_add_half (n : ℤ) : ⌊(n : ℚ) + 1 / 2⌋ = n := by
  rw [Int.floor_eq_iff]
  constructor
  · linarith
  · linarith

/-- C20: for a rating `r` that is not negative, in particular for `r` in
[0, 10], `roundRating(r)` is `r` rounded to one decimal place with halves away
from zero, that is `floor(10 r + 1/2) / 10`; `roundRating(null)` is `null`;
and `roundRating` is idempotent. -/
theorem roundRating_spec (r : ℚ) (h0 : 0 ≤ r) :
    roundRating (some r) = some ((⌊10 * r + 1 / 2⌋ : ℚ) / 10) ∧
      roundRating (some r) = some (roundToOneDecimal r) ∧
      roundRating none = none ∧
      ∀ x : Option ℚ, roundRating (roundRating x) = roundRating x := by
  have hcode : roundRating (some r) = some ((⌊10 * r + 1 / 2⌋ : ℚ) / 10) := by
    simp [roundRating, mathRound, mul_comm]
  refine ⟨hcode, ?_, rfl, ?_⟩
  · rw [hcode]
    have hpos : (0 : ℚ) ≤ 10 * r := by linarith
    simp [roundToOneDecimal, roundHalfAwayFromZero, hpos]
  · intro x
    cases x with
    | none => rfl
    | some q =>
      simp only [roundRating, mathRound]
      have : ((⌊q * 10 + 1 / 2⌋ : ℚ) / 10) * 10 = (⌊q * 10 + 1 / 2⌋ : ℚ) := by
        field_simp
      rw [this, floor_int_add_half]

/-- Witness for C20: 7.25 is shown as 7.3. -/
theorem roundRating_spec_witness :
    (0 : ℚ) ≤ 29 / 4 ∧
      roundRating (some (29 / 4)) = some ((⌊10 * (29 / 4 : ℚ) + 1 / 2⌋ : ℚ) / 10) ∧
      roundRating (some (29 / 4)) = some (roundToOneDecimal (29 / 4)) :=
  ⟨by norm_num,
   (roundRating_spec (29 / 4) (by norm_num)).1,
   (roundRating_spec (29 / 4) (by norm_num)).2.1⟩

/-- The rating 7.25 is shown as 7.3. -/
theorem roundRating_example : roundRating (some (29 / 4)) = some (73 / 10) := by
  have h : ⌊(29 / 4 : ℚ) * 10 + 1 / 2⌋ = 73 := by
    rw [Int.floor_eq_iff]
    constructor <;> norm_num
  simp only [roundRating, mathRound, h]
  norm_num

/-! ## The rating 0 in the views -/

theorem roundRating_zero : roundRating (some 0) = some 0 := by
  have h : ⌊(0 : ℚ) * 10 + 1 / 2⌋ = 0 := by
    rw [Int.floor_eq_iff]
    constructor <;> norm_num
  simp only [roundRating, mathRound, h]
  norm_num

/-- C21 fails as stated: the rating widget of the album detail shows `--` for
the manual rating 0, exactly as it does for a null manual rating. -/
theorem widget_shows_zero_as_unrated :
    (AlbumDetail.renderAlbumRating (exampleAlbum 1 1 "m1" "X" (some 0) none)).display = none ∧
      (AlbumDetail.renderAlbumRating (exampleAlbum 1 1 "m1" "X" none none)).display = none ∧
      (ArtistsView.artistRatingWidget
        { name := "X", albums := [], autoRating := none, manualRating := some 0,
          imageUrl := none }).display = none := by
  simp [AlbumDetail.renderAlbumRating, ArtistsView.artistRatingWidget, RatingWidget.new,
    RatingWidget.display, orZero, exampleAlbum]

/-- C21, amended: the prevalence text, the `rating-value` text and the rating
badges treat only `null` as absent and present a manual rating 0, or an
automatic rating 0 under a null manual rating, as the score 0; the numeric
display of the rating widget shows a rating only when it is greater than 0, so
for the manual rating 0 it shows `--` as it does for `null`. -/
theorem zero_is_shown_as_score (album : Album) (artist : Artist) (auto : Option ℚ) :
    ((AlbumDetail.updateRatingDisplay
          { album with manualRating := some 0, autoRating := auto }).prevalence =
        .manuale (some 0) ∧
      LibraryView.ratingBadge { album with manualRating := some 0, autoRating := auto } =
        some 0 ∧
      ArtistsView.ratingBadge { artist with manualRating := some 0, autoRating := auto } =
        some 0) ∧
    ((AlbumDetail.updateRatingDisplay
          { album with manualRating := none, autoRating := some 0 }).prevalence =
        .automatico (some 0) ∧
      (AlbumDetail.updateRatingDisplay
          { album with manualRating := none, autoRating := some 0 }).ratingValue = some 0 ∧
      LibraryView.ratingBadge { album with manualRating := none, autoRating := some 0 } =
        some 0 ∧
      ArtistsView.ratingBadge { artist with manualRating := none, autoRating := some 0 } =
        some 0) ∧
    ((AlbumDetail.updateRatingDisplay
          { album with manualRating := none, autoRating := none }).prevalence = .nessunVoto ∧
      LibraryView.ratingBadge { album with manualRating := none, autoRating := none } = none ∧
      ArtistsView.ratingBadge { artist with manualRating := none, autoRating := none } =
        none) ∧
    ((AlbumDetail.renderAlbumRating { album with manualRating := some 0 }).display = none ∧
      (AlbumDetail.renderAlbumRating { album with manualRating := none }).display = none ∧
      (ArtistsView.artistRatingWidget { artist with manualRating := some 0 }).display = none ∧
      ∀ m : ℚ, 0 < m →
        (AlbumDetail.renderAlbumRating { album with manualRating := some m }).display =
          some (toFixed1 m)) := by
  refine ⟨⟨?_, ?_, ?_⟩, ⟨?_, ?_, ?_, ?_⟩, ⟨?_, ?_, ?_⟩, ⟨?_, ?_, ?_, ?_⟩⟩
  · simp [AlbumDetail.updateRatingDisplay, roundRating_zero]
  · simp [LibraryView.ratingBadge, LibraryView.displayRating, roundRating_zero]
  · simp [ArtistsView.ratingBadge, ArtistsView.displayRating, roundRating_zero]
  · simp [AlbumDetail.updateRatingDisplay, roundRating_zero]
  · simp [AlbumDetail.updateRatingDisplay, roundRating_zero]
  · simp [LibraryView.ratingBadge, LibraryView.displayRating, roundRating_zero]
  · simp [ArtistsView.ratingBadge, ArtistsView.displayRating, roundRating_zero]
  · simp [AlbumDetail.updateRatingDisplay]
  · simp [LibraryView.ratingBadge, LibraryView.displayRating]
  · simp [ArtistsView.ratingBadge, ArtistsView.displayRating]
  · simp [AlbumDetail.renderAlbumRating, RatingWidget.new, RatingWidget.display, orZero]
  · simp [AlbumDetail.renderAlbumRating, RatingWidget.new, RatingWidget.display, orZero]
  · simp [ArtistsView.artistRatingWidget, RatingWidget.new, RatingWidget.display, orZero]
  · intro m hm
    have hne : m ≠ 0 := ne_of_gt hm
    simp [AlbumDetail.renderAlbumRating, RatingWidget.new, RatingWidget.display, orZero, hne, hm]

/-- Witness for C21: the manual rating 7.5 is shown by the widget as 7.5. -/
theorem zero_is_shown_as_score_witness :
    (0 : ℚ) < 15 / 2 ∧
      (AlbumDetail.renderAlbumRating
        { exampleAlbum 1 1 "m1" "X" none none with manualRating := some (15 / 2) }).display =
        some (toFixed1 (15 / 2)) :=
  ⟨by norm_num,
   (zero_is_shown_as_score (exampleAlbum 1 1 "m1" "X" none none)
     { name := "X", albums := [], autoRating := none, manualRating := none, imageUrl := none }
     none).2.2.2.2.2.2 (15 / 2) (by norm_num)⟩

/-! ## The ratings produced by the widget -/

/-- C27: a click on star `i` of a widget with `maxRating` 10 passes to
`onChange` the rating `i - 0.5` when half stars are allowed and the click is on
the left half of the star, and `i` otherwise; the rating lies in [0, 10] (in
fact in [0.5, 10]), is a multiple of 0.5, and becomes the widget's
`currentRating`. -/
theorem handleClick_rating (w : RatingWidget) (i : Nat) (clientX rectLeft rectWidth : ℚ)
    (hmax : w.maxRating = 10) (hi : i ∈ w.stars) :
    (0 ≤ (w.handleClick i clientX rectLeft rectWidth).2 ∧
        1 / 2 ≤ (w.handleClick i clientX rectLeft rectWidth).2 ∧
        (w.handleClick i clientX rectLeft rectWidth).2 ≤ 10) ∧
      (∃ k : Nat, (w.handleClick i clientX rectLeft rectWidth).2 = (k : ℚ) / 2) ∧
      (w.allowHalf = true → RatingWidget.isLeftHalf clientX rectLeft rectWidth = true →
        (w.handleClick i clientX rectLeft rectWidth).2 = (i : ℚ) - 1 / 2) ∧
      (¬ (w.allowHalf = true ∧ RatingWidget.isLeftHalf clientX rectLeft rectWidth = true) →
        (w.handleClick i clientX rectLeft rectWidth).2 = (i : ℚ)) ∧
      (w.handleClick i clientX rectLeft rectWidth).1.currentRating =
        (w.handleClick i clientX rectLeft rectWidth).2 := by
  have hrange : 1 ≤ i ∧ i ≤ 10 := by
    simp only [RatingWidget.stars, hmax, List.mem_range'_1] at hi
    omega
  have h1 : (1 : ℚ) ≤ (i : ℚ) := by exact_mod_cast hrange.1
  have h10 : (i : ℚ) ≤ 10 := by exact_mod_cast hrange.2
  by_cases ha : w.allowHalf = true
  · by_cases hl : RatingWidget.isLeftHalf clientX rectLeft rectWidth = true
    · have hr : (w.handleClick i clientX rectLeft rectWidth).2 = (i : ℚ) - 1 / 2 := by
        simp [RatingWidget.handleClick, ha, hl]
      have hc : (w.handleClick i clientX rectLeft rectWidth).1.currentRating = (i : ℚ) - 1 / 2 := by
        simp [RatingWidget.handleClick, ha, hl]
      rw [hr, hc]
      refine ⟨⟨by linarith, by linarith, by linarith⟩, ⟨2 * i - 1, ?_⟩, fun _ _ => rfl,
        fun hn => absurd ⟨ha, hl⟩ hn, rfl⟩
      have : ((2 * i - 1 : ℕ) : ℚ) = 2 * (i : ℚ) - 1 := by
        have h2 : 1 ≤ 2 * i := by omega
        rw [Nat.cast_sub h2]
        push_cast
        ring
      rw [this]
      ring
    · have hr : (w.handleClick i clientX rectLeft rectWidth).2 = (i : ℚ) := by
        simp [RatingWidget.handleClick, ha, hl]
      have hc : (w.handleClick i clientX rectLeft rectWidth).1.currentRating = (i : ℚ) := by
        simp [RatingWidget.handleClick, ha, hl]
      rw [hr, hc]
      refine ⟨⟨by linarith, by linarith, h10⟩, ⟨2 * i, by push_cast; ring⟩,
        fun _ h => absurd h hl, fun _ => rfl, rfl⟩
  · have hr : (w.handleClick i clientX rectLeft rectWidth).2 = (i : ℚ) := by
      simp [RatingWidget.handleClick, ha]
    have hc : (w.handleClick i clientX rectLeft rectWidth).1.currentRating = (i : ℚ) := by
      simp [RatingWidget.handleClick, ha]
    rw [hr, hc]
    refine ⟨⟨by linarith, by linarith, h10⟩, ⟨2 * i, by push_cast; ring⟩,
      fun h => absurd h ha, fun _ => rfl, rfl⟩

/-- Witness for C27: a click at the left of star 8 of the album widget gives
7.5. -/
theorem handleClick_rating_witness :
    (AlbumDetail.renderAlbumRating (exampleAlbum 1 1 "m1" "X" none none)).maxRating = 10 ∧
      8 ∈ (AlbumDetail.renderAlbumRating (exampleAlbum 1 1 "m1" "X" none none)).stars ∧
      (AlbumDetail.renderAlbumRating (exampleAlbum 1 1 "m1" "X" none none)).allowHalf = true ∧
      RatingWidget.isLeftHalf 3 0 10 = true ∧
      ((AlbumDetail.renderAlbumRating (exampleAlbum 1 1 "m1" "X" none none)).handleClick
        8 3 0 10).2 = (8 : ℚ) - 1 / 2 :=
  have hmax : (AlbumDetail.renderAlbumRating
      (exampleAlbum 1 1 "m1" "X" none none)).maxRating = 10 := by
    simp [AlbumDetail.renderAlbumRating, RatingWidget.new]
  have hi : 8 ∈ (AlbumDetail.renderAlbumRating (exampleAlbum 1 1 "m1" "X" none none)).stars := by
    simp [RatingWidget.stars, hmax, List.mem_range'_1]
  have ha : (AlbumDetail.renderAlbumRating
      (exampleAlbum 1 1 "m1" "X" none none)).allowHalf = true := by
    simp [AlbumDetail.renderAlbumRating, RatingWidget.new]
  have hl : RatingWidget.isLeftHalf 3 0 10 = true := by
    simp only [RatingWidget.isLeftHalf, decide_eq_true_eq]
    norm_num
  ⟨hmax, hi, ha, hl,
   (handleClick_rating _ 8 3 0 10 hmax hi).2.2.1 ha hl⟩

/-! ## Artist rating rows -/

theorem find?_artistKey (s : Store) (hKeys : s.uniqueArtistKeys) (row : ArtistRating)
    (hmem : row ∈ s.artistRatings) :
    s.artistRatings.find? (fun r => decide (r.userId = row.userId ∧
      r.artistName = row.artistName)) = some row := by
  cases h : s.artistRatings.find? (fun r => decide (r.userId = row.userId ∧
      r.artistName = row.artistName)) with
  | none =>
    have := List.find?_eq_none.mp h row hmem
    simp at this
  | some e =>
    have he : e ∈ s.artistRatings := List.mem_of_find?_eq_some h
    have hp : e.userId = row.userId ∧ e.artistName = row.artistName := by
      simpa using List.find?_some h
    have hkey : ArtistRating.key e = ArtistRating.key row := by
      simp [ArtistRating.key, hp.1, hp.2]
    rw [List.inj_on_of_nodup_map hKeys he hmem hkey]

theorem find?_artistId (s : Store) (hIds : s.artistIdsGenerated) (row : ArtistRating)
    (hmem : row ∈ s.artistRatings) :
    s.artistRatings.find? (fun r => decide (r.id = row.id)) = some row := by
  cases h : s.artistRatings.find? (fun r => decide (r.id = row.id)) with
  | none =>
    have := List.find?_eq_none.mp h row hmem
    simp at this
  | some e =>
    have he : e ∈ s.artistRatings := List.mem_of_find?_eq_some h
    have hp : e.id = row.id := by simpa using List.find?_some h
    rw [List.inj_on_of_nodup_map hIds.1 he hmem hp]

theorem artist_map_replace_by_id (s : Store) (hIds : s.artistIdsGenerated)
    (row r2 : ArtistRating) (hmem : row ∈ s.artistRatings) :
    s.artistRatings.map (fun r => if r.id = row.id then r2 else r) =
      s.artistRatings.map (fun r => if r = row then r2 else r) := by
  apply List.map_congr_left
  intro r hr
  by_cases h : r = row
  · simp [h]
  · have : r.id ≠ row.id := fun hid => h (List.inj_on_of_nodup_map hIds.1 hr hmem hid)
    simp [h, this]

/-- The update branch of `setArtistRating`: only `manualRating` of the stored
row changes. -/
theorem setArtistRating_existing (s : Store) (hKeys : s.uniqueArtistKeys)
    (hIds : s.artistIdsGenerated) (row : ArtistRating) (manualRating : Option ℚ)
    (hmem : row ∈ s.artistRatings) :
    setArtistRating s row.userId row.artistName manualRating =
      (.ok row.id,
        { s with
          artistRatings :=
            s.artistRatings.map
              (fun r => if r = row then { row with manualRating := manualRating } else r) }) := by
  have hk := find?_artistKey s hKeys row hmem
  have hi := find?_artistId s hIds row hmem
  have hpos : row.id ≠ 0 := Nat.pos_iff_ne_zero.mp (hIds.2.2 row hmem).1
  have hput := putByKey_of_mem ArtistRating.id { row with manualRating := manualRating } row
    s.artistRatings hmem rfl
  have hrep := artist_map_replace_by_id s hIds row { row with manualRating := manualRating } hmem
  have hbump := bumpGenerator_of_lt s.nextArtistRatingId row.id (hIds.2.2 row hmem).2
  unfold setArtistRating
  simp only [hk, Option.map_some', hi, Store.putArtistRating, hput]
  simp only [ne_eq, hpos, not_false_eq_true, if_true, hbump]
  rw [← hrep]

/-- The update branch of `updateArtistAutoRating`: only `autoRating` of the
stored row changes. -/
theorem updateArtistAutoRating_existing (s : Store) (hKeys : s.uniqueArtistKeys)
    (hIds : s.artistIdsGenerated) (row : ArtistRating) (autoRating : Option ℚ)
    (hmem : row ∈ s.artistRatings) :
    updateArtistAutoRating s row.userId row.artistName autoRating =
      (.ok row.id,
        { s with
          artistRatings :=
            s.artistRatings.map
              (fun r => if r = row then { row with autoRating := autoRating } else r) }) := by
  have hk : getArtistRating s row.userId row.artistName = some row :=
    find?_artistKey s hKeys row hmem
  have hrep := artist_map_replace_by_id s hIds row { row with autoRating := autoRating } hmem
  have hbump := bumpGenerator_of_lt s.nextArtistRatingId row.id (hIds.2.2 row hmem).2
  rw [updateArtistAutoRating_of_some s row.userId row.artistName autoRating row hk, hbump, hrep]

theorem artist_key_absent (s : Store) (userId : Nat) (artistName : String)
    (hnew : ∀ row ∈ s.artistRatings, ArtistRating.key row ≠ (userId, artistName)) :
    s.artistRatings.find? (fun r => decide (r.userId = userId ∧ r.artistName = artistName)) =
        none ∧
      (s.artistRatings.any
        (fun r => decide (r.userId = userId ∧ r.artistName = artistName))) = false := by
  have hp : ∀ x ∈ s.artistRatings, ¬ (x.userId = userId ∧ x.artistName = artistName) := by
    intro x hx hxp
    exact hnew x hx (by simp [ArtistRating.key, hxp.1, hxp.2])
  constructor
  · rw [List.find?_eq_none]
    intro x hx
    simpa using hp x hx
  · rw [List.any_eq_false]
    intro x hx
    simpa using hp x hx

/-- The insert branch of `setArtistRating`: one row with a null `autoRating`. -/
theorem setArtistRating_new (s : Store) (hIds : s.artistIdsGenerated) (userId : Nat)
    (artistName : String) (manualRating : Option ℚ)
    (hnew : ∀ row ∈ s.artistRatings, ArtistRating.key row ≠ (userId, artistName)) :
    setArtistRating s userId artistName manualRating =
      (.ok s.nextArtistRatingId,
        { s with
          artistRatings := s.artistRatings ++
            [{ id := s.nextArtistRatingId, userId := userId, artistName := artistName,
               manualRating := manualRating, autoRating := none }]
          nextArtistRatingId := s.nextArtistRatingId + 1 }) := by
  obtain ⟨hfind, hany⟩ := artist_key_absent s userId artistName hnew
  have happ := insertByKey_eq_append ArtistRating.id
    { id := s.nextArtistRatingId, userId := userId, artistName := artistName,
      manualRating := manualRating, autoRating := none } s.artistRatings
    (fun x hx => (hIds.2.2 x hx).2)
  unfold setArtistRating
  simp only [hfind, Option.map_none', hany, happ]
  rfl

/-- The insert branch of `updateArtistAutoRating`: one row with a null
`manualRating`. -/
theorem updateArtistAutoRating_new (s : Store) (hIds : s.artistIdsGenerated) (userId : Nat)
    (artistName : String) (autoRating : Option ℚ)
    (hnew : ∀ row ∈ s.artistRatings, ArtistRating.key row ≠ (userId, artistName)) :
    updateArtistAutoRating s userId artistName autoRating =
      (.ok s.nextArtistRatingId,
        { s with
          artistRatings := s.artistRatings ++
            [{ id := s.nextArtistRatingId, userId := userId, artistName := artistName,
               manualRating := none, autoRating := autoRating }]
          nextArtistRatingId := s.nextArtistRatingId + 1 }) := by
  obtain ⟨hfind, _⟩ := artist_key_absent s userId artistName hnew
  have happ := insertByKey_eq_append ArtistRating.id
    { id := s.nextArtistRatingId, userId := userId, artistName := artistName,
      manualRating := none, autoRating := autoRating } s.artistRatings
    (fun x hx => (hIds.2.2 x hx).2)
  rw [updateArtistAutoRating_of_none s userId artistName autoRating hfind, happ]

theorem artist_wf_replace (s : Store) (hKeys : s.uniqueArtistKeys)
    (hIds : s.artistIdsGenerated) (row r2 : ArtistRating) (hmem : row ∈ s.artistRatings)
    (hkey : ArtistRating.key r2 = ArtistRating.key row) (hid : r2.id = row.id) :
    Store.uniqueArtistKeys
        { s with artistRatings := s.artistRatings.map (fun r => if r = row then r2 else r) } ∧
      Store.artistIdsGenerated
        { s with artistRatings := s.artistRatings.map (fun r => if r = row then r2 else r) } := by
  have hkeymap : (s.artistRatings.map (fun r => if r = row then r2 else r)).map
      ArtistRating.key = s.artistRatings.map ArtistRating.key := by
    rw [List.map_map]
    apply List.map_congr_left
    intro r _
    by_cases h : r = row <;> simp [h, hkey]
  have hidmap : (s.artistRatings.map (fun r => if r = row then r2 else r)).map
      ArtistRating.id = s.artistRatings.map ArtistRating.id := by
    rw [List.map_map]
    apply List.map_congr_left
    intro r _
    by_cases h : r = row <;> simp [h, hid]
  refine ⟨?_, ?_, hIds.2.1, ?_⟩
  · simp only [Store.uniqueArtistKeys, hkeymap]
    exact hKeys
  · simp only [hidmap]
    exact hIds.1
  · intro r hr
    simp only [List.mem_map] at hr
    obtain ⟨r0, hr0, hr⟩ := hr
    by_cases h : r0 = row
    · simp only [h, if_true] at hr
      rw [← hr, hid]
      exact hIds.2.2 row hmem
    · simp only [h, if_false] at hr
      rw [← hr]
      exact hIds.2.2 r0 hr0

theorem artist_wf_append (s : Store) (hKeys : s.uniqueArtistKeys)
    (hIds : s.artistIdsGenerated) (r2 : ArtistRating) (hid : r2.id = s.nextArtistRatingId)
    (hnew : ∀ row ∈ s.artistRatings, ArtistRating.key row ≠ ArtistRating.key r2) :
    Store.uniqueArtistKeys
        { s with artistRatings := s.artistRatings ++ [r2],
                 nextArtistRatingId := s.nextArtistRatingId + 1 } ∧
      Store.artistIdsGenerated
        { s with artistRatings := s.artistRatings ++ [r2],
                 nextArtistRatingId := s.nextArtistRatingId + 1 } := by
  refine ⟨?_, ?_, Nat.succ_pos _, ?_⟩
  · simp only [Store.uniqueArtistKeys, List.map_append, List.map_cons, List.map_nil]
    rw [List.nodup_append]
    refine ⟨hKeys, List.nodup_singleton _, ?_⟩
    intro k hk hk2
    simp only [List.mem_singleton] at hk2
    simp only [List.mem_map] at hk
    obtain ⟨r, hr, hrk⟩ := hk
    exact hnew r hr (by rw [hrk, hk2])
  · simp only [List.map_append, List.map_cons, List.map_nil]
    rw [List.nodup_append]
    refine ⟨hIds.1, List.nodup_singleton _, ?_⟩
    intro k hk hk2
    simp only [List.mem_singleton] at hk2
    simp only [List.mem_map] at hk
    obtain ⟨r, hr, hrk⟩ := hk
    have := (hIds.2.2 r hr).2
    omega
  · intro r hr
    simp only [List.mem_append, List.mem_singleton] at hr
    rcases hr with hr | hr
    · have := hIds.2.2 r hr
      exact ⟨this.1, Nat.lt_succ_of_lt this.2⟩
    · rw [hr, hid]
      exact ⟨hIds.2.1, Nat.lt_succ_self _⟩

/-- One call on the artist ratings keeps the `artistRatings` store well formed. -/
theorem artistRatingCall_preserves (s : Store) (hKeys : s.uniqueArtistKeys)
    (hIds : s.artistIdsGenerated) (c : ArtistRatingCall) :
    (c.run s).2.uniqueArtistKeys ∧ (c.run s).2.artistIdsGenerated := by
  cases c with
  | setArtistRating userId artistName manualRating =>
    simp only [ArtistRatingCall.run]
    by_cases hex : ∃ row ∈ s.artistRatings, ArtistRating.key row = (userId, artistName)
    · obtain ⟨row, hmem, hkey⟩ := hex
      simp only [ArtistRating.key, Prod.mk.injEq] at hkey
      obtain ⟨h1, h2⟩ := hkey
      subst h1 h2
      rw [setArtistRating_existing s hKeys hIds row manualRating hmem]
      exact artist_wf_replace s hKeys hIds row _ hmem rfl rfl
    · have hnew : ∀ row ∈ s.artistRatings, ArtistRating.key row ≠ (userId, artistName) :=
        fun row hmem hkey => hex ⟨row, hmem, hkey⟩
      rw [setArtistRating_new s hIds userId artistName manualRating hnew]
      exact artist_wf_append s hKeys hIds _ rfl hnew
  | updateArtistAutoRating userId artistName autoRating =>
    simp only [ArtistRatingCall.run]
    by_cases hex : ∃ row ∈ s.artistRatings, ArtistRating.key row = (userId, artistName)
    · obtain ⟨row, hmem, hkey⟩ := hex
      simp only [ArtistRating.key, Prod.mk.injEq] at hkey
      obtain ⟨h1, h2⟩ := hkey
      subst h1 h2
      rw [updateArtistAutoRating_existing s hKeys hIds row autoRating hmem]
      exact artist_wf_replace s hKeys hIds row _ hmem rfl rfl
    · have hnew : ∀ row ∈ s.artistRatings, ArtistRating.key row ≠ (userId, artistName) :=
        fun row hmem hkey => hex ⟨row, hmem, hkey⟩
      rw [updateArtistAutoRating_new s hIds userId artistName autoRating hnew]
      exact artist_wf_append s hKeys hIds _ rfl hnew

theorem runArtistRatingCalls_preserves (calls : List ArtistRatingCall) (s : Store)
    (hKeys : s.uniqueArtistKeys) (hIds : s.artistIdsGenerated) :
    (runArtistRatingCalls s calls).uniqueArtistKeys ∧
      (runArtistRatingCalls s calls).artistIdsGenerated := by
  induction calls generalizing s with
  | nil => exact ⟨hKeys, hIds⟩
  | cons c rest ih =>
    have hstep := artistRatingCall_preserves s hKeys hIds c
    exact ih _ hstep.1 hstep.2

/-- C22: starting from a store with at most one artist rating row per
`(userId, artistName)` (and primary keys issued by the key generator), every
sequence of `setArtistRating` and `updateArtistAutoRating` calls leaves at most
one row per pair; on a stored row `setArtistRating` changes only `manualRating`
and `updateArtistAutoRating` changes only `autoRating`, and no other row
changes; a row created by `setArtistRating` has a null `autoRating` and a row
created by `updateArtistAutoRating` has a null `manualRating`. -/
theorem artistRating_upsert (s : Store) (hKeys : s.uniqueArtistKeys)
    (hIds : s.artistIdsGenerated) :
    (∀ calls : List ArtistRatingCall, (runArtistRatingCalls s calls).uniqueArtistKeys) ∧
      (∀ (row : ArtistRating) (manualRating : Option ℚ), row ∈ s.artistRatings →
        setArtistRating s row.userId row.artistName manualRating =
          (.ok row.id,
            { s with
              artistRatings := s.artistRatings.map
                (fun r => if r = row then { row with manualRating := manualRating } else r) })) ∧
      (∀ (row : ArtistRating) (autoRating : Option ℚ), row ∈ s.artistRatings →
        updateArtistAutoRating s row.userId row.artistName autoRating =
          (.ok row.id,
            { s with
              artistRatings := s.artistRatings.map
                (fun r => if r = row then { row with autoRating := autoRating } else r) })) ∧
      (∀ (userId : Nat) (artistName : String) (manualRating : Option ℚ),
        (∀ row ∈ s.artistRatings, ArtistRating.key row ≠ (userId, artistName)) →
        setArtistRating s userId artistName manualRating =
          (.ok s.nextArtistRatingId,
            { s with
              artistRatings := s.artistRatings ++
                [{ id := s.nextArtistRatingId, userId := userId, artistName := artistName,
                   manualRating := manualRating, autoRating := none }]
              nextArtistRatingId := s.nextArtistRatingId + 1 })) ∧
      (∀ (userId : Nat) (artistName : String) (autoRating : Option ℚ),
        (∀ row ∈ s.artistRatings, ArtistRating.key row ≠ (userId, artistName)) →
        updateArtistAutoRating s userId artistName autoRating =
          (.ok s.nextArtistRatingId,
            { s with
              artistRatings := s.artistRatings ++
                [{ id := s.nextArtistRatingId, userId := userId, artistName := artistName,
                   manualRating := none, autoRating := autoRating }]
              nextArtistRatingId := s.nextArtistRatingId + 1 })) :=
  ⟨fun calls => (runArtistRatingCalls_preserves calls s hKeys hIds).1,
   fun row manualRating hmem => setArtistRating_existing s hKeys hIds row manualRating hmem,
   fun row autoRating hmem => updateArtistAutoRating_existing s hKeys hIds row autoRating hmem,
   fun userId artistName manualRating hnew =>
     setArtistRating_new s hIds userId artistName manualRating hnew,
   fun userId artistName autoRating hnew =>
     updateArtistAutoRating_new s hIds userId artistName autoRating hnew⟩

/-- Witness for C22 on `storeArtistRow`: the manual rating of row 1 is set to 8
and its automatic rating stays 7; the automatic rating is set to 6 and the
manual rating stays 9; a rating for artist `Y` creates a row with a null
`autoRating`. -/
theorem artistRating_upsert_witness :
    storeArtistRow.uniqueArtistKeys ∧ storeArtistRow.artistIdsGenerated ∧
      (runArtistRatingCalls storeArtistRow
        [.setArtistRating 1 "X" (some 8), .updateArtistAutoRating 1 "Y" (some 5),
         .setArtistRating 1 "Y" (some 4)]).uniqueArtistKeys ∧
      setArtistRating storeArtistRow 1 "X" (some 8) =
        (.ok 1,
          { storeArtistRow with
            artistRatings := storeArtistRow.artistRatings.map
              (fun r => if r = ⟨1, 1, "X", some 9, some 7⟩ then
                { (⟨1, 1, "X", some 9, some 7⟩ : ArtistRating) with manualRating := some 8 }
                else r) }) ∧
      updateArtistAutoRating storeArtistRow 1 "X" (some 6) =
        (.ok 1,
          { storeArtistRow with
            artistRatings := storeArtistRow.artistRatings.map
              (fun r => if r = ⟨1, 1, "X", some 9, some 7⟩ then
                { (⟨1, 1, "X", some 9, some 7⟩ : ArtistRating) with autoRating := some 6 }
                else r) }) ∧
      setArtistRating storeArtistRow 1 "Y" (some 4) =
        (.ok storeArtistRow.nextArtistRatingId,
          { storeArtistRow with
            artistRatings := storeArtistRow.artistRatings ++
              [{ id := storeArtistRow.nextArtistRatingId, userId := 1, artistName := "Y",
                 manualRating := some 4, autoRating := none }]
            nextArtistRatingId := storeArtistRow.nextArtistRatingId + 1 }) :=
  have hKeys : storeArtistRow.uniqueArtistKeys := by
    unfold Store.uniqueArtistKeys storeArtistRow
    decide
  have hIds : storeArtistRow.artistIdsGenerated := by
    simp [Store.artistIdsGenerated, storeArtistRow]
  ⟨hKeys, hIds,
   (artistRating_upsert storeArtistRow hKeys hIds).1 _,
   (artistRating_upsert storeArtistRow hKeys hIds).2.1 ⟨1, 1, "X", some 9, some 7⟩ (some 8)
     (by simp [storeArtistRow]),
   (artistRating_upsert storeArtistRow hKeys hIds).2.2.1 ⟨1, 1, "X", some 9, some 7⟩ (some 6)
     (by simp [storeArtistRow]),
   (artistRating_upsert storeArtistRow hKeys hIds).2.2.2.1 1 "Y" (some 4)
     (by unfold storeArtistRow; decide)⟩

/-! ## The Artists view -/

/-- The entry that the rating loop of `ArtistsView.load` makes of a group. -/
theorem fillRatings_group (s : Store) (userId : Nat) (g : String × List Album) :
    ArtistsView.fillRatings s userId
        { name := g.1, albums := g.2, autoRating := none, manualRating := none,
          imageUrl := none } =
      { name := g.1, albums := g.2,
        autoRating :=
          average (g.2.filterMap (fun a => resolvePrevalent a.manualRating a.autoRating)),
        manualRating := (getArtistRating s userId g.1).bind ArtistRating.manualRating,
        imageUrl := none } := by
  have hmap : (g.2.map ArtistsView.albumRating).filterMap id =
      g.2.filterMap (fun a => resolvePrevalent a.manualRating a.autoRating) := by
    rw [List.filterMap_map]
    apply List.filterMap_congr
    intro a _
    cases hm : a.manualRating <;>
      simp [ArtistsView.albumRating, resolvePrevalent, hm]
  unfold ArtistsView.fillRatings
  simp only [hmap]
  generalize g.2.filterMap (fun a => resolvePrevalent a.manualRating a.autoRating) = ratings
  cases hrow : getArtistRating s userId g.1 with
  | none =>
    cases ratings with
    | nil => simp [average, hrow]
    | cons x xs => simp [hrow]
  | some row =>
    cases ratings with
    | nil => simp [average, hrow]
    | cons x xs => simp [hrow]

/-- The artists of the view are the groups of the user's albums, each with its
ratings filled in. -/
theorem mem_load (s : Store) (userId : Nat) (artist : Artist) :
    artist ∈ ArtistsView.load s userId ↔
      ∃ g ∈ groupByArtist (getUserAlbums s userId),
        artist =
          { name := g.1, albums := g.2,
            autoRating :=
              average (g.2.filterMap (fun a => resolvePrevalent a.manualRating a.autoRating)),
            manualRating := (getArtistRating s userId g.1).bind ArtistRating.manualRating,
            imageUrl := none } := by
  unfold ArtistsView.load jsSort
  simp only [List.mem_insertionSort, ArtistsView.groupAlbums, List.map_map, List.mem_map,
    Function.comp_apply, fillRatings_group]
  constructor
  · rintro ⟨g, hg, h⟩
    exact ⟨g, hg, h.symm⟩
  · rintro ⟨g, hg, h⟩
    exact ⟨g, hg, h.symm⟩

/-- C24 fails as stated: in `storeArtistX` the view shows the automatic rating
7 for artist `X`, and after the load no artist rating row for `X` is stored. -/
theorem load_writes_no_artist_row :
    (∃ artist ∈ (ArtistsView.loadOutcome storeArtistX 1).1,
        artist.name = "X" ∧ artist.autoRating = some 7) ∧
      getArtistRating (ArtistsView.loadOutcome storeArtistX 1).2 1 "X" = none := by
  constructor
  · refine ⟨{ name := "X",
              albums := [exampleAlbum 1 1 "m1" "X" none (some 7),
                exampleAlbum 2 1 "m2" "X" none none],
              autoRating := some 7, manualRating := none, imageUrl := none }, ?_, rfl, rfl⟩
    simp only [ArtistsView.loadOutcome]
    rw [mem_load]
    refine ⟨("X", [exampleAlbum 1 1 "m1" "X" none (some 7),
      exampleAlbum 2 1 "m2" "X" none none]), ?_, ?_⟩
    · simp [groupByArtist, pushAlbum, getUserAlbums, storeArtistX, exampleAlbum]
    · simp [getArtistRating, storeArtistX, exampleAlbum, resolvePrevalent, average_seven]
  · simp [ArtistsView.loadOutcome, getArtistRating, storeArtistX]

/-- C24, amended: `ArtistsView.load` does not write to the store; it computes
in memory, for every artist of the view, `autoRating` as the mean that
`average` computes from the non-null prevalent ratings of the user's albums
with that artist string, and reads `manualRating` from the stored row if there
is one. -/
theorem load_is_read_only (s : Store) (userId : Nat) :
    (ArtistsView.loadOutcome s userId).2 = s ∧
      ∀ artist ∈ (ArtistsView.loadOutcome s userId).1,
        artist.albums = (getUserAlbums s userId).filter (fun a => a.artist = artist.name) ∧
        artist.autoRating =
          average (((getUserAlbums s userId).filter (fun a => a.artist = artist.name)).filterMap
            (fun a => resolvePrevalent a.manualRating a.autoRating)) ∧
        artist.manualRating =
          (getArtistRating s userId artist.name).bind ArtistRating.manualRating := by
  refine ⟨rfl, ?_⟩
  intro artist hartist
  simp only [ArtistsView.loadOutcome] at hartist
  obtain ⟨g, hg, rfl⟩ := (mem_load s userId artist).mp hartist
  have hgroup := (groupByArtist_grouped (getUserAlbums s userId)).group_eq g hg
  simp only
  rw [← hgroup]
  exact ⟨rfl, rfl, trivial⟩

/-! ## The three computations of an artist's automatic rating -/

theorem mem_artistEntries (s : Store) (userId : Nat) (albums : List Album)
    (e : FavoriteArtist) :
    e ∈ HistoryView.artistEntries s userId albums ↔
      ∃ g ∈ groupByArtist albums,
        e = { name := g.1, albums := g.2,
              rating := artistComputedRating s userId g.1 albums,
              albumCount := some g.2.length } := by
  have hG := groupByArtist_grouped albums
  unfold HistoryView.artistEntries
  simp only [List.map_map, List.mem_map, Function.comp_apply]
  constructor
  · rintro ⟨g, hg, h⟩
    rw [rateArtist_group s userId albums g (hG.group_eq g hg)] at h
    exact ⟨g, hg, h.symm⟩
  · rintro ⟨g, hg, h⟩
    refine ⟨g, hg, ?_⟩
    rw [rateArtist_group s userId albums g (hG.group_eq g hg)]
    exact h.symm

theorem calculateArtistAutoRating_userAlbums (s : Store) (userId : Nat)
    (artistName : String) :
    (calculateArtistAutoRating s userId artistName).1 =
      .ok (average (((getUserAlbums s userId).filter (fun a => a.artist = artistName)).filterMap
        (fun a => resolvePrevalent a.manualRating a.autoRating))) := by
  have hfilter : (getUserAlbums s userId).filter (fun a => decide (a.artist = artistName)) =
      s.albums.filter (fun a => decide (a.userId = userId ∧ a.artist = artistName)) := by
    simp [getUserAlbums, List.filter_filter, Bool.and_comm]
  rw [calculateArtistAutoRating_average, hfilter]

/-- C26: for every artist name occurring in the user's albums, the `autoRating`
computed by `ArtistsView.load`, the rating computed by
`HistoryView.getFavorites` when the artist has no manual rating, and the value
returned by `Database.calculateArtistAutoRating` are the same: the mean
computed in binary64, by the same additions in the same order and the same
division, from the non-null prevalent ratings of the user's albums with that
artist string, absent when none of them is rated. -/
theorem artist_autoRating_agree (s : Store) (userId : Nat) (a : Album)
    (ha : a ∈ getUserAlbums s userId) :
    (∃ artist ∈ ArtistsView.load s userId, artist.name = a.artist) ∧
      (∀ artist ∈ ArtistsView.load s userId, artist.name = a.artist →
        artist.autoRating =
          average (((getUserAlbums s userId).filter (fun x => x.artist = a.artist)).filterMap
            (fun x => resolvePrevalent x.manualRating x.autoRating))) ∧
      (∃ e ∈ HistoryView.artistEntries s userId (getUserAlbums s userId), e.name = a.artist) ∧
      (∀ e ∈ HistoryView.artistEntries s userId (getUserAlbums s userId),
        e.name = a.artist →
        (getArtistRating s userId a.artist).bind ArtistRating.manualRating = none →
        e.rating =
          average (((getUserAlbums s userId).filter (fun x => x.artist = a.artist)).filterMap
            (fun x => resolvePrevalent x.manualRating x.autoRating))) ∧
      (calculateArtistAutoRating s userId a.artist).1 =
        .ok (average (((getUserAlbums s userId).filter (fun x => x.artist = a.artist)).filterMap
          (fun x => resolvePrevalent x.manualRating x.autoRating))) := by
  have hG := groupByArtist_grouped (getUserAlbums s userId)
  obtain ⟨g, hg, hga⟩ := List.mem_map.mp (hG.covers a ha)
  refine ⟨?_, ?_, ?_, ?_, calculateArtistAutoRating_userAlbums s userId a.artist⟩
  · exact ⟨_, (mem_load s userId _).mpr ⟨g, hg, rfl⟩, hga⟩
  · intro artist hartist hname
    obtain ⟨g2, hg2, rfl⟩ := (mem_load s userId artist).mp hartist
    simp only at hname ⊢
    rw [← hname, ← hG.group_eq g2 hg2]
  · exact ⟨_, (mem_artistEntries s userId _ _).mpr ⟨g, hg, rfl⟩, hga⟩
  · intro e he hname hmanual
    obtain ⟨g2, hg2, rfl⟩ := (mem_artistEntries s userId _ e).mp he
    simp only at hname ⊢
    rw [← hname] at hmanual ⊢
    unfold artistComputedRating
    rw [hmanual]
    rfl

/-- Witness for C26: the artist `X` of `storeFavorites`, with albums rated 7
and unrated. -/
theorem artist_autoRating_agree_witness :
    exampleAlbum 1 1 "m1" "X" none (some 7) ∈ getUserAlbums storeFavorites 1 ∧
      (∀ artist ∈ ArtistsView.load storeFavorites 1, artist.name = "X" →
        artist.autoRating =
          average (((getUserAlbums storeFavorites 1).filter (fun x => x.artist = "X")).filterMap
            (fun x => resolvePrevalent x.manualRating x.autoRating))) ∧
      (calculateArtistAutoRating storeFavorites 1 "X").1 =
        .ok (average (((getUserAlbums storeFavorites 1).filter (fun x => x.artist = "X")).filterMap
          (fun x => resolvePrevalent x.manualRating x.autoRating))) ∧
      average (((getUserAlbums storeFavorites 1).filter (fun x => x.artist = "X")).filterMap
        (fun x => resolvePrevalent x.manualRating x.autoRating)) = some 7 :=
  have ha : exampleAlbum 1 1 "m1" "X" none (some 7) ∈ getUserAlbums storeFavorites 1 := by
    simp [getUserAlbums, storeFavorites, exampleAlbum]
  ⟨ha,
   (artist_autoRating_agree storeFavorites 1 (exampleAlbum 1 1 "m1" "X" none (some 7)) ha).2.1,
   (artist_autoRating_agree storeFavorites 1 (exampleAlbum 1 1 "m1" "X" none (some 7))
     ha).2.2.2.2,
   by simp [getUserAlbums, storeFavorites, exampleAlbum, resolvePrevalent, average_seven]⟩

/-! ## The recompute chained after a song rating -/

/-- On a well-formed `songRatings` store `setSongRating` succeeds, touches only
that store, and leaves a row of the key with the rating written. -/
theorem setSongRating_stores (s : Store) (hKeys : s.uniqueSongKeys)
    (hIds : s.songIdsGenerated) (userId albumId trackNumber : Nat) (rating : ℚ) :
    ∃ (k : Nat) (s1 : Store),
      setSongRating s userId albumId trackNumber rating = (.ok k, s1) ∧
      s1.albums = s.albums ∧ s1.nextAlbumId = s.nextAlbumId ∧
      s1.artistRatings = s.artistRatings ∧
      ∃ row ∈ s1.songRatings, row.userId = userId ∧ row.albumId = albumId ∧
        row.trackNumber = trackNumber ∧ row.rating = rating := by
  by_cases hex : ∃ row ∈ s.songRatings, SongRating.key row = (userId, albumId, trackNumber)
  · obtain ⟨row, hmem, hkey⟩ := hex
    simp only [SongRating.key, Prod.mk.injEq] at hkey
    obtain ⟨h1, h2, h3⟩ := hkey
    subst h1 h2 h3
    refine ⟨_, _, setSongRating_existing s hKeys hIds row rating hmem, rfl, rfl, rfl,
      { row with rating := rating }, ?_, rfl, rfl, rfl, rfl⟩
    simp only [List.mem_map]
    exact ⟨row, hmem, by simp⟩
  · have hnew : ∀ row ∈ s.songRatings,
        SongRating.key row ≠ (userId, albumId, trackNumber) :=
      fun row hmem hkey => hex ⟨row, hmem, hkey⟩
    refine ⟨_, _, setSongRating_new s hIds userId albumId trackNumber rating hnew, rfl, rfl,
      rfl, ⟨s.nextSongRatingId, userId, albumId, trackNumber, rating⟩, ?_, rfl, rfl, rfl, rfl⟩
    simp

/-- The rows of the `songRatings` store after `setSongRating`: each one was
stored before or carries the rating written, and at most one row is added. -/
theorem setSongRating_rows (s : Store) (hKeys : s.uniqueSongKeys)
    (hIds : s.songIdsGenerated) (userId albumId trackNumber : Nat) (rating : ℚ) :
    (∀ r ∈ (setSongRating s userId albumId trackNumber rating).2.songRatings,
        (r ∈ s.songRatings ∨ r.rating = rating) ∧
        (r.userId = userId → r.albumId = albumId → r.rating ≠ rating →
          r ∈ getAlbumSongRatings s userId albumId)) ∧
      (setSongRating s userId albumId trackNumber rating).2.songRatings.length ≤
        s.songRatings.length + 1 := by
  have hmemf : ∀ r, r ∈ s.songRatings → r.userId = userId → r.albumId = albumId →
      r ∈ getAlbumSongRatings s userId albumId := by
    intro r hr hu ha
    simp [getAlbumSongRatings, List.mem_filter, hr, hu, ha]
  by_cases hex : ∃ row ∈ s.songRatings, SongRating.key row = (userId, albumId, trackNumber)
  · obtain ⟨row, hmem, hkey⟩ := hex
    simp only [SongRating.key, Prod.mk.injEq] at hkey
    obtain ⟨h1, h2, h3⟩ := hkey
    subst h1 h2 h3
    rw [setSongRating_existing s hKeys hIds row rating hmem]
    refine ⟨?_, by simp⟩
    intro r hr
    simp only [List.mem_map] at hr
    obtain ⟨x, hx, hxr⟩ := hr
    by_cases hxrow : x = row
    · simp only [hxrow, if_true] at hxr
      rw [← hxr]
      exact ⟨Or.inr rfl, fun _ _ h => absurd rfl h⟩
    · simp only [hxrow, if_false] at hxr
      rw [← hxr]
      exact ⟨Or.inl hx, fun hu ha _ => hmemf x hx hu ha⟩
  · have hnew : ∀ row ∈ s.songRatings,
        SongRating.key row ≠ (userId, albumId, trackNumber) :=
      fun row hmem hkey => hex ⟨row, hmem, hkey⟩
    rw [setSongRating_new s hIds userId albumId trackNumber rating hnew]
    refine ⟨?_, by simp⟩
    intro r hr
    simp only [List.mem_append, List.mem_singleton] at hr
    rcases hr with hr | hr
    · exact ⟨Or.inl hr, fun hu ha _ => hmemf r hr hu ha⟩
    · rw [hr]
      exact ⟨Or.inr rfl, fun _ _ h => absurd rfl h⟩

/-- C25: on a well-formed store and for an existing album,
`AlbumDetail.handleSongRating(trackNumber, rating)` completes with the success
toast, and afterwards the stored album's `autoRating`, and the one of
`this.currentAlbum`, is the mean computed from the user's stored song ratings
for the album, among which is the rating just written; when the ratings stored
before and the rating written are multiples of 0.5 from 0 to 10, this is their
arithmetic mean as a Number, the binary64 number nearest to it. -/
theorem handleSongRating_recomputes (s : Store) (hKeys : s.uniqueSongKeys)
    (hIds : s.songIdsGenerated) (currentUserId : Nat) (currentAlbum : Album)
    (trackNumber : Nat) (rating : ℚ)
    (hAlbum : (getAlbum s currentAlbum.id).isSome = true) :
    (AlbumDetail.handleSongRating s currentUserId currentAlbum trackNumber rating).toast =
        .ok () ∧
      (getAlbum
          (AlbumDetail.handleSongRating s currentUserId currentAlbum trackNumber rating).store
          currentAlbum.id).map Album.autoRating =
        some (average
          ((getAlbumSongRatings
              (AlbumDetail.handleSongRating s currentUserId currentAlbum trackNumber rating).store
              currentUserId currentAlbum.id).map SongRating.rating)) ∧
      (AlbumDetail.handleSongRating s currentUserId currentAlbum trackNumber
          rating).currentAlbum.autoRating =
        average
          ((getAlbumSongRatings
              (AlbumDetail.handleSongRating s currentUserId currentAlbum trackNumber rating).store
              currentUserId currentAlbum.id).map SongRating.rating) ∧
      (∃ row ∈ getAlbumSongRatings
          (AlbumDetail.handleSongRating s currentUserId currentAlbum trackNumber rating).store
          currentUserId currentAlbum.id,
        row.trackNumber = trackNumber ∧ row.rating = rating) ∧
      ((∀ r ∈ getAlbumSongRatings s currentUserId currentAlbum.id, IsHalfStep r.rating) →
        IsHalfStep rating → s.songRatings.length + 1 < 2 ^ 32 →
        (getAlbum
            (AlbumDetail.handleSongRating s currentUserId currentAlbum trackNumber rating).store
            currentAlbum.id).map Album.autoRating =
          some (some (roundToDouble
            (((getAlbumSongRatings
                (AlbumDetail.handleSongRating s currentUserId currentAlbum trackNumber
                  rating).store
                currentUserId currentAlbum.id).map SongRating.rating).sum /
              (getAlbumSongRatings
                (AlbumDetail.handleSongRating s currentUserId currentAlbum trackNumber
                  rating).store
                currentUserId currentAlbum.id).length)))) := by
  obtain ⟨album, hAlbum⟩ := Option.isSome_iff_exists.mp hAlbum
  obtain ⟨k, s1, hset, halbums, _, _, row, hrow, hu, ha, ht, hq⟩ :=
    setSongRating_stores s hKeys hIds currentUserId currentAlbum.id trackNumber rating
  have hrows := setSongRating_rows s hKeys hIds currentUserId currentAlbum.id trackNumber rating
  rw [hset] at hrows
  simp only at hrows
  have hAlbum1 : getAlbum s1 currentAlbum.id = some album := by
    simpa [getAlbum, halbums] using hAlbum
  have hrowmem : row ∈ getAlbumSongRatings s1 currentUserId currentAlbum.id := by
    simp [getAlbumSongRatings, List.mem_filter, hrow, hu, ha]
  have hRated : getAlbumSongRatings s1 currentUserId currentAlbum.id ≠ [] :=
    List.ne_nil_of_mem hrowmem
  have hcalc := calculateAlbumAutoRating_of_rated s1 currentUserId currentAlbum.id album
    hAlbum1 hRated
  have hhalf : (∀ r ∈ getAlbumSongRatings s currentUserId currentAlbum.id,
        IsHalfStep r.rating) → IsHalfStep rating → s.songRatings.length + 1 < 2 ^ 32 →
      average ((getAlbumSongRatings s1 currentUserId currentAlbum.id).map SongRating.rating) =
        some (roundToDouble
          (((getAlbumSongRatings s1 currentUserId currentAlbum.id).map SongRating.rating).sum /
            (getAlbumSongRatings s1 currentUserId currentAlbum.id).length)) := by
    intro hSteps hRating hLen
    have hmap : (getAlbumSongRatings s1 currentUserId currentAlbum.id).map SongRating.rating ≠
        [] := by simpa using hRated
    have hsub : (getAlbumSongRatings s1 currentUserId currentAlbum.id).length ≤
        s1.songRatings.length := by
      unfold getAlbumSongRatings
      exact le_trans (List.length_filter_le _ _) (List.length_filter_le _ _)
    rw [average_halfSteps _ (by
        intro q hq
        obtain ⟨r, hr, rfl⟩ := List.mem_map.mp hq
        have hr1 : r ∈ s1.songRatings ∧ r.userId = currentUserId ∧
            r.albumId = currentAlbum.id := by
          simpa [getAlbumSongRatings, List.mem_filter, and_assoc] using hr
        by_cases hrq : r.rating = rating
        · rw [hrq]; exact hRating
        · exact hSteps r ((hrows.1 r hr1.1).2 hr1.2.1 hr1.2.2 hrq))
      (by
        simp only [List.length_map]
        have := hrows.2
        omega)]
    simp [meanOf, hmap]
  generalize hv : average ((getAlbumSongRatings s1 currentUserId currentAlbum.id).map
      SongRating.rating) = v at hcalc hhalf
  have hout : AlbumDetail.handleSongRating s currentUserId currentAlbum trackNumber rating =
      { toast := .ok (), currentAlbum := { currentAlbum with autoRating := v },
        store :=
          { s1 with
            albums := s1.albums.map (fun x => if x.id = currentAlbum.id then
              { album with autoRating := v } else x)
            nextAlbumId := bumpGenerator s1.nextAlbumId currentAlbum.id } } := by
    simp only [AlbumDetail.handleSongRating, hset, hcalc]
  have hratings : getAlbumSongRatings
      { s1 with
        albums := s1.albums.map (fun x => if x.id = currentAlbum.id then
          { album with autoRating := v } else x)
        nextAlbumId := bumpGenerator s1.nextAlbumId currentAlbum.id }
      currentUserId currentAlbum.id = getAlbumSongRatings s1 currentUserId currentAlbum.id := rfl
  have hget : (getAlbum
      { s1 with
        albums := s1.albums.map (fun x => if x.id = currentAlbum.id then
          { album with autoRating := v } else x)
        nextAlbumId := bumpGenerator s1.nextAlbumId currentAlbum.id }
      currentAlbum.id).map Album.autoRating = some v := by
    rw [getAlbum_map_replace s1 currentAlbum.id album { album with autoRating := v } _
      hAlbum1 (getAlbum_id s1 currentAlbum.id album hAlbum1)]
    rfl
  rw [hout]
  simp only [hratings, hv]
  refine ⟨trivial, hget, trivial, ⟨row, hrowmem, ht, hq⟩, ?_⟩
  intro hSteps hRating hLen
  rw [hget, hhalf hSteps hRating hLen]

/-- Witness for C25: on `storeTwoSongs` track 2 of album 1 is re-rated 9; the
ratings 8 and 6 stored before and the rating 9 are multiples of 0.5. -/
theorem handleSongRating_recomputes_witness :
    storeTwoSongs.uniqueSongKeys ∧ storeTwoSongs.songIdsGenerated ∧
      (getAlbum storeTwoSongs (exampleAlbum 1 1 "m1" "X" none none).id).isSome = true ∧
      (AlbumDetail.handleSongRating storeTwoSongs 1 (exampleAlbum 1 1 "m1" "X" none none) 2
        9).toast = .ok () ∧
      (∃ row ∈ getAlbumSongRatings
          (AlbumDetail.handleSongRating storeTwoSongs 1 (exampleAlbum 1 1 "m1" "X" none none) 2
            9).store 1 (exampleAlbum 1 1 "m1" "X" none none).id,
        row.trackNumber = 2 ∧ row.rating = 9) ∧
      (getAlbum
          (AlbumDetail.handleSongRating storeTwoSongs 1 (exampleAlbum 1 1 "m1" "X" none none) 2
            9).store
          (exampleAlbum 1 1 "m1" "X" none none).id).map Album.autoRating =
        some (some (roundToDouble
          (((getAlbumSongRatings
              (AlbumDetail.handleSongRating storeTwoSongs 1
                (exampleAlbum 1 1 "m1" "X" none none) 2 9).store
              1 (exampleAlbum 1 1 "m1" "X" none none).id).map SongRating.rating).sum /
            (getAlbumSongRatings
              (AlbumDetail.handleSongRating storeTwoSongs 1
                (exampleAlbum 1 1 "m1" "X" none none) 2 9).store
              1 (exampleAlbum 1 1 "m1" "X" none none).id).length))) :=
  have hKeys : storeTwoSongs.uniqueSongKeys := by
    unfold Store.uniqueSongKeys storeTwoSongs
    decide
  have hIds : storeTwoSongs.songIdsGenerated := by
    simp [Store.songIdsGenerated, storeTwoSongs]
  have hAlbum : (getAlbum storeTwoSongs (exampleAlbum 1 1 "m1" "X" none none).id).isSome =
      true := by
    simp [getAlbum, storeTwoSongs, exampleAlbum]
  ⟨hKeys, hIds, hAlbum,
   (handleSongRating_recomputes storeTwoSongs hKeys hIds 1 (exampleAlbum 1 1 "m1" "X" none none)
     2 9 hAlbum).1,
   (handleSongRating_recomputes storeTwoSongs hKeys hIds 1 (exampleAlbum 1 1 "m1" "X" none none)
     2 9 hAlbum).2.2.2.1,
   (handleSongRating_recomputes storeTwoSongs hKeys hIds 1 (exampleAlbum 1 1 "m1" "X" none none)
     2 9 hAlbum).2.2.2.2 halfSteps_storeTwoSongs (by norm_num [IsHalfStep])
     (by simp [storeTwoSongs])⟩

/-! ## Ratings of an album are never cleared -/

theorem RatingsKept.refl (s : Store) : RatingsKept s s :=
  fun _ album h => ⟨album, h, fun h2 => h2, fun h2 => h2⟩

theorem RatingsKept.trans {s s1 s2 : Store} (h1 : RatingsKept s s1) (h2 : RatingsKept s1 s2) :
    RatingsKept s s2 := by
  intro albumId album h
  obtain ⟨album1, hget1, hm1, ha1⟩ := h1 albumId album h
  obtain ⟨album2, hget2, hm2, ha2⟩ := h2 albumId album1 hget1
  exact ⟨album2, hget2, fun hx => hm2 (hm1 hx), fun hx => ha2 (ha1 hx)⟩

/-- A store with the same albums and the same key generator for them. -/
theorem kept_of_albums_eq (s s1 : Store) (hIds : s.albumIdsGenerated)
    (halbums : s1.albums = s.albums) (hnext : s1.nextAlbumId = s.nextAlbumId) :
    s1.albumIdsGenerated ∧ RatingsKept s s1 := by
  constructor
  · intro a ha
    rw [halbums] at ha
    rw [hnext]
    exact hIds a ha
  · intro albumId album h
    exact ⟨album, by simpa [getAlbum, halbums] using h, fun h2 => h2, fun h2 => h2⟩

theorem updateAlbumRating_kept (s : Store) (hIds : s.albumIdsGenerated) (albumId : Nat)
    (manualRating autoRating : Option ℚ) :
    (updateAlbumRating s albumId manualRating autoRating).2.albumIdsGenerated ∧
      RatingsKept s (updateAlbumRating s albumId manualRating autoRating).2 := by
  cases h : getAlbum s albumId with
  | none =>
    have : updateAlbumRating s albumId manualRating autoRating =
        (.error .albumNonTrovato, s) := by
      simp [updateAlbumRating, h]
    rw [this]
    exact ⟨hIds, RatingsKept.refl s⟩
  | some album =>
    have hid := getAlbum_id s albumId album h
    have hlt : albumId < s.nextAlbumId := by
      have := hIds album (List.mem_of_find?_eq_some h)
      omega
    rw [updateAlbumRating_of_getAlbum s albumId album manualRating autoRating h,
      bumpGenerator_of_lt _ _ hlt]
    constructor
    · intro a ha
      simp only [List.mem_map] at ha
      obtain ⟨x, hx, hxa⟩ := ha
      by_cases hxi : x.id = albumId
      · simp only [hxi, if_true] at hxa
        rw [← hxa]
        simp only
        omega
      · simp only [hxi, if_false] at hxa
        rw [← hxa]
        exact hIds x hx
    · intro id0 album0 h0
      by_cases hid0 : id0 = albumId
      · subst hid0
        rw [h] at h0
        simp only [Option.some.injEq] at h0
        subst h0
        refine ⟨_, getAlbum_map_replace s id0 album
          { album with
            manualRating := if manualRating ≠ none then manualRating else album.manualRating
            autoRating := if autoRating ≠ none then autoRating else album.autoRating }
          _ h hid, ?_, ?_⟩
        · intro hm
          cases manualRating <;> simp [hm]
        · intro ha
          cases autoRating <;> simp [ha]
      · refine ⟨album0, ?_, fun hx => hx, fun hx => hx⟩
        rw [← h0]
        exact getAlbum_map_replace_other s albumId id0
          { album with
            manualRating := if manualRating ≠ none then manualRating else album.manualRating
            autoRating := if autoRating ≠ none then autoRating else album.autoRating }
          _ hid hid0

theorem find?_insertByKey_of_false {α : Type} (p : α → Bool) (key : α → Nat) (r : α)
    (l : List α) (hp : p r = false) : (insertByKey key r l).find? p = l.find? p := by
  induction l with
  | nil => simp [insertByKey, List.find?, hp]
  | cons y ys ih =>
    by_cases hlt : key r < key y
    · simp [insertByKey, hlt, List.find?, hp]
    · by_cases hy : p y = true
      · simp [insertByKey, hlt, List.find?, hy]
      · simp [insertByKey, hlt, List.find?, hy, ih]

theorem addAlbum_kept (s : Store) (hIds : s.albumIdsGenerated) (now : String) (userId : Nat)
    (albumData : AlbumData) :
    (addAlbum s now userId albumData).2.albumIdsGenerated ∧
      RatingsKept s (addAlbum s now userId albumData).2 := by
  by_cases hany : (s.albums.any
      (fun a => decide (a.userId = userId ∧ a.mbid = albumData.mbid))) = true
  · have : addAlbum s now userId albumData = (.error .constraintError, s) := by
      simp only [addAlbum, hany, if_true]
    rw [this]
    exact ⟨hIds, RatingsKept.refl s⟩
  · simp only [addAlbum, hany]
    constructor
    · intro a ha
      simp only [Bool.false_eq_true, if_false, mem_insertByKey] at ha
      simp only [Bool.false_eq_true, if_false]
      rcases ha with ha | ha
      · rw [ha]
        simp
      · exact Nat.lt_succ_of_lt (hIds a ha)
    · intro id0 album0 h0
      refine ⟨album0, ?_, fun hx => hx, fun hx => hx⟩
      have hlt : id0 < s.nextAlbumId := by
        have := hIds album0 (List.mem_of_find?_eq_some h0)
        rw [getAlbum_id s id0 album0 h0] at this
        exact this
      simp only [Bool.false_eq_true, if_false, getAlbum]
      rw [find?_insertByKey_of_false]
      · exact h0
      · simp only [decide_eq_false_iff_not]
        omega

theorem setSongRating_albums (s : Store) (userId albumId trackNumber : Nat) (rating : ℚ) :
    (setSongRating s userId albumId trackNumber rating).2.albums = s.albums ∧
      (setSongRating s userId albumId trackNumber rating).2.nextAlbumId = s.nextAlbumId := by
  unfold setSongRating
  simp only
  split
  · split
    · split <;> simp [Store.putSongRating]
    · split <;> simp
  · split <;> simp

theorem setArtistRating_albums (s : Store) (userId : Nat) (artistName : String)
    (manualRating : Option ℚ) :
    (setArtistRating s userId artistName manualRating).2.albums = s.albums ∧
      (setArtistRating s userId artistName manualRating).2.nextAlbumId = s.nextAlbumId := by
  unfold setArtistRating
  simp only
  split
  · split
    · split <;> simp [Store.putArtistRating]
    · split <;> simp
  · split <;> simp

theorem updateArtistAutoRating_albums (s : Store) (userId : Nat) (artistName : String)
    (autoRating : Option ℚ) :
    (updateArtistAutoRating s userId artistName autoRating).2.albums = s.albums ∧
      (updateArtistAutoRating s userId artistName autoRating).2.nextAlbumId =
        s.nextAlbumId := by
  cases h : getArtistRating s userId artistName with
  | none => rw [updateArtistAutoRating_of_none s userId artistName autoRating h]; exact ⟨rfl, rfl⟩
  | some e =>
    rw [updateArtistAutoRating_of_some s userId artistName autoRating e h]; exact ⟨rfl, rfl⟩

theorem calculateArtistAutoRating_albums (s : Store) (userId : Nat) (artistName : String) :
    (calculateArtistAutoRating s userId artistName).2.albums = s.albums ∧
      (calculateArtistAutoRating s userId artistName).2.nextAlbumId = s.nextAlbumId := by
  rw [calculateArtistAutoRating_eq]
  split
  · exact ⟨rfl, rfl⟩
  · exact updateArtistAutoRating_albums s userId artistName _

theorem calculateAlbumAutoRating_store (s : Store) (userId albumId : Nat) :
    (calculateAlbumAutoRating s userId albumId).2 = s ∨
      ∃ v : ℚ, (calculateAlbumAutoRating s userId albumId).2 =
        (updateAlbumRating s albumId none (some v)).2 := by
  unfold calculateAlbumAutoRating
  simp only
  split
  · exact Or.inl rfl
  · right
    refine ⟨numberDiv
      ((getAlbumSongRatings s userId albumId).foldl (fun acc r => numberAdd acc r.rating) 0)
      (getAlbumSongRatings s userId albumId).length, ?_⟩
    generalize updateAlbumRating s albumId none _ = out
    obtain ⟨res, s1⟩ := out
    cases res <;> rfl

/-- Every operation keeps the albums and their non-null ratings. -/
theorem storeOp_kept (s : Store) (hIds : s.albumIdsGenerated) (op : StoreOp) :
    (op.run s).albumIdsGenerated ∧ RatingsKept s (op.run s) := by
  cases op with
  | addAlbum now userId albumData => exact addAlbum_kept s hIds now userId albumData
  | updateAlbumRating albumId manualRating autoRating =>
    exact updateAlbumRating_kept s hIds albumId manualRating autoRating
  | setSongRating userId albumId trackNumber rating =>
    have h := setSongRating_albums s userId albumId trackNumber rating
    exact kept_of_albums_eq s _ hIds h.1 h.2
  | setArtistRating userId artistName manualRating =>
    have h := setArtistRating_albums s userId artistName manualRating
    exact kept_of_albums_eq s _ hIds h.1 h.2
  | updateArtistAutoRating userId artistName autoRating =>
    have h := updateArtistAutoRating_albums s userId artistName autoRating
    exact kept_of_albums_eq s _ hIds h.1 h.2
  | calculateAlbumAutoRating userId albumId =>
    simp only [StoreOp.run]
    rcases calculateAlbumAutoRating_store s userId albumId with h | ⟨v, h⟩
    · rw [h]
      exact ⟨hIds, RatingsKept.refl s⟩
    · rw [h]
      exact updateAlbumRating_kept s hIds albumId none (some v)
  | calculateArtistAutoRating userId artistName =>
    have h := calculateArtistAutoRating_albums s userId artistName
    exact kept_of_albums_eq s _ hIds h.1 h.2

theorem runStoreOps_kept (ops : List StoreOp) (s : Store) (hIds : s.albumIdsGenerated) :
    (runStoreOps s ops).albumIdsGenerated ∧ RatingsKept s (runStoreOps s ops) := by
  induction ops generalizing s with
  | nil => exact ⟨hIds, RatingsKept.refl s⟩
  | cons op rest ih =>
    have hstep := storeOp_kept s hIds op
    have hrest := ih (op.run s) hstep.1
    exact ⟨hrest.1, hstep.2.trans hrest.2⟩

/-- C28: for an existing album, `updateAlbumRating(albumId, m, a)` leaves a
`manualRating`, respectively an `autoRating`, that was not null before the call
not null after it; and on a store whose album keys come from the key
generator, after every sequence of writing operations of `Database` an album
that was stored is still stored and each of its two ratings that was not null
is still not null. -/
theorem ratings_never_cleared (s : Store) (hIds : s.albumIdsGenerated) :
    (∀ (albumId : Nat) (manualRating autoRating : Option ℚ) (album : Album),
        getAlbum s albumId = some album →
        ∃ album1,
          getAlbum (updateAlbumRating s albumId manualRating autoRating).2 albumId =
            some album1 ∧
          (album.manualRating ≠ none → album1.manualRating ≠ none) ∧
          (album.autoRating ≠ none → album1.autoRating ≠ none)) ∧
      ∀ (ops : List StoreOp) (albumId : Nat) (album : Album),
        getAlbum s albumId = some album →
        ∃ album1,
          getAlbum (runStoreOps s ops) albumId = some album1 ∧
          (album.manualRating ≠ none → album1.manualRating ≠ none) ∧
          (album.autoRating ≠ none → album1.autoRating ≠ none) :=
  ⟨fun albumId manualRating autoRating album h =>
     (updateAlbumRating_kept s hIds albumId manualRating autoRating).2 albumId album h,
   fun ops albumId album h => (runStoreOps_kept ops s hIds).2 albumId album h⟩

/-- Witness for C28: on `storeStaleAuto`, whose album has the automatic rating
7, a manual rating is set, then `updateAlbumRating(1, null, null)` and a
recompute without song ratings follow; both ratings are still there. -/
theorem ratings_never_cleared_witness :
    storeStaleAuto.albumIdsGenerated ∧
      getAlbum storeStaleAuto 1 = some (exampleAlbum 1 1 "m1" "X" none (some 7)) ∧
      ∃ album1,
        getAlbum (runStoreOps storeStaleAuto
          [.updateAlbumRating 1 (some 9) none, .updateAlbumRating 1 none none,
           .calculateAlbumAutoRating 1 1]) 1 = some album1 ∧
        ((exampleAlbum 1 1 "m1" "X" none (some 7)).manualRating ≠ none →
          album1.manualRating ≠ none) ∧
        ((exampleAlbum 1 1 "m1" "X" none (some 7)).autoRating ≠ none →
          album1.autoRating ≠ none) :=
  have hIds : storeStaleAuto.albumIdsGenerated := by
    intro a ha
    simp only [storeStaleAuto, List.mem_singleton] at ha
    rw [ha]
    simp [storeStaleAuto, exampleAlbum]
  have h : getAlbum storeStaleAuto 1 = some (exampleAlbum 1 1 "m1" "X" none (some 7)) := by
    simp [getAlbum, storeStaleAuto, exampleAlbum]
  ⟨hIds, h, (ratings_never_cleared storeStaleAuto hIds).2 _ 1 _ h⟩

/-! ## Automatic ratings stay within the range of their inputs -/

theorem sum_bounds (l : List ℚ) (lo hi : ℚ) (h : ∀ x ∈ l, lo ≤ x ∧ x ≤ hi) :
    lo * l.length ≤ l.sum ∧ l.sum ≤ hi * l.length := by
  induction l with
  | nil => simp
  | cons x xs ih =>
    have hx := h x (by simp)
    have hxs := ih (fun y hy => h y (by simp [hy]))
    simp only [List.sum_cons, List.length_cons, Nat.cast_add, Nat.cast_one]
    constructor <;> nlinarith [hx.1, hx.2, hxs.1, hxs.2]

/-- The mean of a non-empty list lies between any two bounds of its elements. -/
theorem mean_bounds (l : List ℚ) (lo hi : ℚ) (hne : l ≠ [])
    (h : ∀ x ∈ l, lo ≤ x ∧ x ≤ hi) :
    lo ≤ l.sum / l.length ∧ l.sum / l.length ≤ hi := by
  have hlen : (0 : ℚ) < l.length := by
    have : 0 < l.length := List.length_pos.mpr hne
    exact_mod_cast this
  obtain ⟨h1, h2⟩ := sum_bounds l lo hi h
  constructor
  · rw [le_div_iff₀ hlen]
    exact h1
  · rw [div_le_iff₀ hlen]
    exact h2

/-- The mean that `average` computes from numbers between two non-negative
bounds lies between the bounds up to the accumulated rounding error. -/
theorem average_rel_bounds (l : List ℚ) (lo hi : ℚ) (hne : l ≠ []) (h0 : 0 ≤ lo)
    (h : ∀ x ∈ l, lo ≤ x ∧ x ≤ hi) :
    ∃ v : ℚ, average l = some v ∧
      lo * (1 - unitRoundoff) ^ (l.length + 1) ≤ v ∧
      v ≤ hi * (1 + unitRoundoff) ^ (l.length + 1) := by
  obtain ⟨v, hv, h1, h2⟩ := average_rel l hne (fun x hx => le_trans h0 (h x hx).1)
  obtain ⟨m1, m2⟩ := mean_bounds l lo hi hne h
  have hd0 : (0 : ℚ) ≤ 1 - unitRoundoff := by norm_num [unitRoundoff]
  have hu0 : (0 : ℚ) ≤ 1 + unitRoundoff := by norm_num [unitRoundoff]
  exact ⟨v, hv,
    le_trans (mul_le_mul_of_nonneg_right m1 (pow_nonneg hd0 _)) h1,
    le_trans h2 (mul_le_mul_of_nonneg_right m2 (pow_nonneg hu0 _))⟩

/-- The mean that `average` computes from three numbers 5.6 is the binary64
number next below 5.6. -/
theorem average_three_fivePointSix :
    average [fivePointSix, fivePointSix, fivePointSix] =
      some (fivePointSix - 1 / 2 ^ 50) := by
  have h1 : roundToDouble (3152519739159347 / 562949953421312) =
      3152519739159347 / 562949953421312 := by
    rw [roundToDouble_eq_of_pos _ 2 6305039478318694 (by norm_num) (by norm_num) (by norm_num)
      (by norm_num)]
    norm_num
  have h2 : roundToDouble (3152519739159347 / 281474976710656) =
      3152519739159347 / 281474976710656 := by
    rw [roundToDouble_eq_of_pos _ 3 6305039478318694 (by norm_num) (by norm_num) (by norm_num)
      (by norm_num)]
    norm_num
  have h3 : roundToDouble (9457559217478041 / 562949953421312) =
      1182194902184755 / 70368744177664 := by
    rw [roundToDouble_eq_of_tie _ 4 4728779608739020 (by norm_num) (by norm_num) (by norm_num)]
    norm_num
  have h4 : roundToDouble (1182194902184755 / 211106232532992) =
      6305039478318693 / 1125899906842624 := by
    rw [roundToDouble_eq_of_pos _ 2 6305039478318693 (by norm_num) (by norm_num) (by norm_num)
      (by norm_num)]
    norm_num
  simp only [average, numberAdd, numberDiv, fivePointSix, List.foldl_cons, List.foldl_nil,
    List.length_cons, List.length_nil]
  norm_num [h1, h2, h3, h4]

/-- C30 fails as stated: the three albums of artist `X` in `storeThreeAlbums`
all have the prevalent rating 5.4, a number in [0, 10] that is both the
minimum and the maximum of the inputs, and `calculateArtistAutoRating` returns
a number above 5.4; the mean that `average` computes from three numbers 5.6 is
below 5.6. -/
theorem autoRating_outside_range :
    (∀ q ∈ ((getUserAlbums storeThreeAlbums 1).filter (fun a => a.artist = "X")).filterMap
        (fun a => resolvePrevalent a.manualRating a.autoRating), q = fivePointFour) ∧
      0 ≤ fivePointFour ∧ fivePointFour ≤ 10 ∧
      (∃ v : ℚ, (calculateArtistAutoRating storeThreeAlbums 1 "X").1 = .ok (some v) ∧
        fivePointFour < v) ∧
      ∃ v : ℚ, average [fivePointSix, fivePointSix, fivePointSix] = some v ∧
        v < fivePointSix := by
  refine ⟨?_, by norm_num [fivePointFour], by norm_num [fivePointFour], ?_, ?_⟩
  · intro q hq
    simp only [getUserAlbums, storeThreeAlbums, exampleAlbum, resolvePrevalent] at hq
    simp at hq
    exact hq
  · refine ⟨fivePointFour + 1 / 2 ^ 50, ?_, by norm_num⟩
    rw [calculateArtistAutoRating_average, rated_storeThreeAlbums, average_three_fivePointFour]
  · exact ⟨fivePointSix - 1 / 2 ^ 50, average_three_fivePointSix, by norm_num⟩

/-- C30, amended: an automatic rating (the value returned by
`calculateAlbumAutoRating` for a non-empty collection of song ratings, the
value returned by `calculateArtistAutoRating` for an artist with at least one
rated album, and the value of `average`, for fewer than `2 ^ 32` inputs) lies
between any lower and upper bound of its inputs that are multiples of 0.5 from
0 to 10; so it is in [0, 10] when the inputs are, and between the minimum and
the maximum of inputs that are themselves multiples of 0.5.  Between
arbitrary bounds `lo` and `hi` of its `n` inputs, from 0.5 to 10, it lies up
to rounding: from `lo * (1 - 2 ^ (-53)) ^ (n + 1)` to
`hi * (1 + 2 ^ (-53)) ^ (n + 1)`. -/
theorem autoRating_bounds (s : Store) (userId : Nat) :
    (∀ lo hi : ℚ, IsHalfStep lo → IsHalfStep hi →
      (∀ albumId : Nat, (getAlbum s albumId).isSome = true →
        getAlbumSongRatings s userId albumId ≠ [] →
        (getAlbumSongRatings s userId albumId).length < 2 ^ 32 →
        (∀ r ∈ getAlbumSongRatings s userId albumId, lo ≤ r.rating ∧ r.rating ≤ hi) →
        ∃ v : ℚ, (calculateAlbumAutoRating s userId albumId).1 = .ok (some v) ∧
          lo ≤ v ∧ v ≤ hi) ∧
      (∀ artistName : String,
        ((getUserAlbums s userId).filter (fun a => a.artist = artistName)).filterMap
            (fun a => resolvePrevalent a.manualRating a.autoRating) ≠ [] →
        (((getUserAlbums s userId).filter (fun a => a.artist = artistName)).filterMap
            (fun a => resolvePrevalent a.manualRating a.autoRating)).length < 2 ^ 32 →
        (∀ q ∈ ((getUserAlbums s userId).filter (fun a => a.artist = artistName)).filterMap
            (fun a => resolvePrevalent a.manualRating a.autoRating), lo ≤ q ∧ q ≤ hi) →
        ∃ v : ℚ, (calculateArtistAutoRating s userId artistName).1 = .ok (some v) ∧
          lo ≤ v ∧ v ≤ hi) ∧
      (∀ numbers : List ℚ, numbers ≠ [] → numbers.length < 2 ^ 32 →
        (∀ x ∈ numbers, lo ≤ x ∧ x ≤ hi) →
        ∃ v : ℚ, average numbers = some v ∧ lo ≤ v ∧ v ≤ hi)) ∧
    (∀ lo hi : ℚ, 1 / 2 ≤ lo → hi ≤ 10 →
      (∀ albumId : Nat, (getAlbum s albumId).isSome = true →
        getAlbumSongRatings s userId albumId ≠ [] →
        (getAlbumSongRatings s userId albumId).length < 2 ^ 32 →
        (∀ r ∈ getAlbumSongRatings s userId albumId, lo ≤ r.rating ∧ r.rating ≤ hi) →
        ∃ v : ℚ, (calculateAlbumAutoRating s userId albumId).1 = .ok (some v) ∧
          lo * (1 - unitRoundoff) ^ ((getAlbumSongRatings s userId albumId).length + 1) ≤ v ∧
          v ≤ hi * (1 + unitRoundoff) ^ ((getAlbumSongRatings s userId albumId).length + 1)) ∧
      (∀ artistName : String,
        ((getUserAlbums s userId).filter (fun a => a.artist = artistName)).filterMap
            (fun a => resolvePrevalent a.manualRating a.autoRating) ≠ [] →
        (((getUserAlbums s userId).filter (fun a => a.artist = artistName)).filterMap
            (fun a => resolvePrevalent a.manualRating a.autoRating)).length < 2 ^ 32 →
        (∀ q ∈ ((getUserAlbums s userId).filter (fun a => a.artist = artistName)).filterMap
            (fun a => resolvePrevalent a.manualRating a.autoRating), lo ≤ q ∧ q ≤ hi) →
        ∃ v : ℚ, (calculateArtistAutoRating s userId artistName).1 = .ok (some v) ∧
          lo * (1 - unitRoundoff) ^
              ((((getUserAlbums s userId).filter (fun a => a.artist = artistName)).filterMap
                (fun a => resolvePrevalent a.manualRating a.autoRating)).length + 1) ≤ v ∧
          v ≤ hi * (1 + unitRoundoff) ^
              ((((getUserAlbums s userId).filter (fun a => a.artist = artistName)).filterMap
                (fun a => resolvePrevalent a.manualRating a.autoRating)).length + 1)) ∧
      (∀ numbers : List ℚ, numbers ≠ [] → numbers.length < 2 ^ 32 →
        (∀ x ∈ numbers, lo ≤ x ∧ x ≤ hi) →
        ∃ v : ℚ, average numbers = some v ∧
          lo * (1 - unitRoundoff) ^ (numbers.length + 1) ≤ v ∧
          v ≤ hi * (1 + unitRoundoff) ^ (numbers.length + 1))) := by
  have hmapne : ∀ albumId, getAlbumSongRatings s userId albumId ≠ [] →
      (getAlbumSongRatings s userId albumId).map SongRating.rating ≠ [] := by
    intro albumId h
    simpa using h
  have hmapb : ∀ (albumId : Nat) (lo hi : ℚ),
      (∀ r ∈ getAlbumSongRatings s userId albumId, lo ≤ r.rating ∧ r.rating ≤ hi) →
      ∀ x ∈ (getAlbumSongRatings s userId albumId).map SongRating.rating, lo ≤ x ∧ x ≤ hi := by
    intro albumId lo hi hb x hx
    obtain ⟨r, hr, rfl⟩ := List.mem_map.mp hx
    exact hb r hr
  constructor
  · intro lo hi hlo hhi
    refine ⟨?_, ?_, ?_⟩
    · intro albumId hAlbum hRated hLen hbounds
      obtain ⟨album, hAlbum⟩ := Option.isSome_iff_exists.mp hAlbum
      rw [calculateAlbumAutoRating_of_rated s userId albumId album hAlbum hRated]
      obtain ⟨v, hv, h1, h2⟩ := average_bounds _ lo hi hlo hhi (hmapne albumId hRated)
        (by simpa using hLen) (hmapb albumId lo hi hbounds)
      exact ⟨v, by rw [hv], h1, h2⟩
    · intro artistName hRated hLen hbounds
      rw [calculateArtistAutoRating_userAlbums]
      obtain ⟨v, hv, h1, h2⟩ := average_bounds _ lo hi hlo hhi hRated hLen hbounds
      exact ⟨v, by rw [hv], h1, h2⟩
    · intro numbers hne hLen hbounds
      exact average_bounds numbers lo hi hlo hhi hne hLen hbounds
  · intro lo hi hlo _
    have h0 : (0 : ℚ) ≤ lo := le_trans (by norm_num) hlo
    refine ⟨?_, ?_, ?_⟩
    · intro albumId hAlbum hRated _ hbounds
      obtain ⟨album, hAlbum⟩ := Option.isSome_iff_exists.mp hAlbum
      rw [calculateAlbumAutoRating_of_rated s userId albumId album hAlbum hRated]
      obtain ⟨v, hv, h1, h2⟩ := average_rel_bounds _ lo hi (hmapne albumId hRated) h0
        (hmapb albumId lo hi hbounds)
      rw [List.length_map] at h1 h2
      exact ⟨v, by rw [hv], h1, h2⟩
    · intro artistName hRated _ hbounds
      rw [calculateArtistAutoRating_userAlbums]
      obtain ⟨v, hv, h1, h2⟩ := average_rel_bounds _ lo hi hRated h0 hbounds
      exact ⟨v, by rw [hv], h1, h2⟩
    · intro numbers hne _ hbounds
      exact average_rel_bounds numbers lo hi hne h0 hbounds

/-- Witness for C30, amended: the songs rated 8 and 6 of `storeTwoSongs` give
an automatic rating between 6 and 8, and the mean of 7 and 9 is in [0, 10]. -/
theorem autoRating_bounds_witness :
    (getAlbum storeTwoSongs 1).isSome = true ∧
      getAlbumSongRatings storeTwoSongs 1 1 ≠ [] ∧
      (∀ r ∈ getAlbumSongRatings storeTwoSongs 1 1, (6 : ℚ) ≤ r.rating ∧ r.rating ≤ 8) ∧
      (∃ v : ℚ, (calculateAlbumAutoRating storeTwoSongs 1 1).1 = .ok (some v) ∧
        6 ≤ v ∧ v ≤ 8) ∧
      ∃ v : ℚ, average [7, 9] = some v ∧ 0 ≤ v ∧ v ≤ 10 :=
  have hAlbum : (getAlbum storeTwoSongs 1).isSome = true := by
    simp [getAlbum, storeTwoSongs, exampleAlbum]
  have hRated : getAlbumSongRatings storeTwoSongs 1 1 ≠ [] := by
    simp [getAlbumSongRatings, storeTwoSongs]
  have hb : ∀ r ∈ getAlbumSongRatings storeTwoSongs 1 1, (6 : ℚ) ≤ r.rating ∧ r.rating ≤ 8 := by
    intro r hr
    rw [getAlbumSongRatings_storeTwoSongs] at hr
    simp only [List.mem_cons, List.mem_singleton, List.not_mem_nil, or_false] at hr
    rcases hr with rfl | rfl <;> norm_num
  ⟨hAlbum, hRated, hb,
   ((autoRating_bounds storeTwoSongs 1).1 6 8 (by norm_num [IsHalfStep])
     (by norm_num [IsHalfStep])).1 1 hAlbum hRated
     (by simp [getAlbumSongRatings_storeTwoSongs]) hb,
   ((autoRating_bounds emptyStore 1).1 0 10 (by norm_num [IsHalfStep])
     (by norm_num [IsHalfStep])).2.2 [7, 9] (by simp) (by simp)
     (by
       intro x hx
       simp only [List.mem_cons, List.mem_singleton, List.not_mem_nil, or_false] at hx
       rcases hx with rfl | rfl <;> norm_num)⟩

/-! ## The rate limit of the catalog client -/

/-- A call that starts less than `RATE_LIMIT_DELAY` after `lastRequestTime`
waits for the remainder of the delay, and a call that starts later does not
wait. -/
theorem waitTime_spec (lastRequestTime now : ℤ) :
    (now - lastRequestTime < 1100 →
        MusicBrainzAPI.waitTime lastRequestTime now = some (1100 - (now - lastRequestTime))) ∧
      (1100 ≤ now - lastRequestTime → MusicBrainzAPI.waitTime lastRequestTime now = none) := by
  constructor
  · intro h
    simp [MusicBrainzAPI.waitTime, RATE_LIMIT_DELAY, h]
  · intro h
    simp [MusicBrainzAPI.waitTime, RATE_LIMIT_DELAY, not_lt.mpr h]

/-- Two calls that do not overlap complete at least `RATE_LIMIT_DELAY` apart:
the second starts after the first has completed. -/
theorem completionTimes_sequential :
    completionTimes 10000 [10500, 11200] = [11100, 12200] := by
  decide

/-- C23, the code at the failing input: with `lastRequestTime` 10000, a call
started at 10500 waits 600 ms and a call started at 11000, while the first is
still waiting, reads the same `lastRequestTime` and waits 100 ms; both
complete at 11100, 0 ms apart. -/
theorem waitForRateLimit_overlapping_calls :
    MusicBrainzAPI.waitTime 10000 10500 = some 600 ∧
      MusicBrainzAPI.waitTime 10000 11000 = some 100 ∧
      completionTimes 10000 [10500, 11000] = [11100, 11100] := by
  decide

/-! ## Track numbers of a release on several discs -/

/-- C29, the code at the failing input: for a release on two discs with one
track each, `getAlbumDetails` builds two tracks with the number 1; the lookup
by number finds the track of the first disc, and one song rating for track
number 1 is shown on both tracks. -/
theorem trackList_two_discs :
    (MusicBrainzAPI.trackList twoDiscRelease).map Track.number = [1, 1] ∧
      ¬ ((MusicBrainzAPI.trackList twoDiscRelease).map Track.number).Nodup ∧
      ((MusicBrainzAPI.trackList twoDiscRelease).find? (fun t => t.number = 1)).map Track.title =
        some "One" ∧
      AlbumDetail.trackRatings
          [{ id := 1, userId := 1, albumId := 1, trackNumber := 1, rating := 8 }]
          (MusicBrainzAPI.trackList twoDiscRelease) = [8, 8] := by
  refine ⟨by decide, by decide, by decide, ?_⟩
  simp [AlbumDetail.trackRatings, MusicBrainzAPI.trackList, twoDiscRelease]

/-- On a release with a single medium whose positions are pairwise distinct
the track numbers are pairwise distinct. -/
theorem trackList_single_medium (data : MBRelease) (tracks : List MBTrack)
    (hmedia : data.media = some [{ tracks := some tracks }])
    (hpos : (tracks.map MBTrack.position).Nodup) :
    ((MusicBrainzAPI.trackList data).map Track.number).Nodup := by
  simp only [MusicBrainzAPI.trackList, hmedia, List.length_singleton, Nat.lt_one_iff,
    gt_iff_lt, Nat.zero_lt_one, if_true, List.flatMap_cons, List.flatMap_nil,
    List.append_nil, List.map_map]
  exact hpos

/-! ## The manual rating stored by the album detail -/

/-- The method `AlbumDetail.handleAlbumRating` stores the rating it is given as
the manual rating of the album, in the store and in `this.currentAlbum`. -/
theorem handleAlbumRating_stores (s : Store) (currentAlbum : Album) (rating : ℚ)
    (hAlbum : (getAlbum s currentAlbum.id).isSome = true) :
    (AlbumDetail.handleAlbumRating s currentAlbum rating).toast = .ok () ∧
      (getAlbum (AlbumDetail.handleAlbumRating s currentAlbum rating).store
        currentAlbum.id).map Album.manualRating = some (some rating) ∧
      (AlbumDetail.handleAlbumRating s currentAlbum rating).currentAlbum.manualRating =
        some rating := by
  obtain ⟨album, hAlbum⟩ := Option.isSome_iff_exists.mp hAlbum
  have hupd := updateAlbumRating_of_getAlbum s currentAlbum.id album (some rating) none hAlbum
  simp only [ne_eq, reduceCtorEq, not_false_eq_true, if_true, not_true_eq_false, if_false]
    at hupd
  simp only [AlbumDetail.handleAlbumRating, hupd]
  refine ⟨trivial, ?_, trivial⟩
  rw [getAlbum_map_replace s currentAlbum.id album { album with manualRating := some rating } _
    hAlbum (getAlbum_id s currentAlbum.id album hAlbum)]
  rfl

end MusicLibrary
